import Mathlib

/-!
# Reconciliation core of the Proxmox machine controller

A shallow embedding of `internal/service/vmservice/vm.go`.

* Go `error` values are `Option GoError` (`none` is `nil`).
* The machine scope is an explicit record that every function receives and returns.
* Collaborators that live outside `vm.go` (the Proxmox client, the task tracker, the
  sibling reconcilers, accessors of the API types) are the fields of `Env`.
* Every call that leaves `vm.go` is appended, with its answer, to `State.calls`.
* `int64` arithmetic wraps modulo `2^64`, `int32` conversion wraps modulo `2^32`.
* A result `none` of a function returning `Option` means that the call never returns.
* Pointers that the code dereferences without a nil test are plain values; pointers
  that the code compares with nil are `Option`.
-/

namespace VMService

/-! ## Go errors -/

/-- Go error values: package-level error variables, errors made on the spot, and
errors wrapped with a message by `errors.Wrap` and `errors.Wrapf`. -/
inductive GoError where
  | sentinel (name : String) (msg : String)
  | errorsNew (msg : String)
  | wrap (msg : String) (cause : GoError)
  deriving DecidableEq, Repr

/-- The `Error()` string of an error. -/
def GoError.Error : GoError → String
  | .sentinel _ msg => msg
  | .errorsNew msg => msg
  | .wrap msg cause => msg ++ ": " ++ cause.Error

/-- Go `errors.Is(err, target)`: walks the `Unwrap` chain of `err`, comparing with `target`. -/
def errorsIs : GoError → GoError → Bool
  | .wrap msg cause, target => decide (GoError.wrap msg cause = target) || errorsIs cause target
  | .sentinel name msg, target => decide (GoError.sentinel name msg = target)
  | .errorsNew msg, target => decide (GoError.errorsNew msg = target)

/-- ErrNoVMIDInRangeFree is returned if no free VMID is found in the specified vmIDRange. -/
def ErrNoVMIDInRangeFree : GoError :=
  .sentinel "vmservice.ErrNoVMIDInRangeFree" "No free vmid found in vmIDRange"

/-- Error variable of the package's lookup code (declared outside `vm.go`). -/
def ErrVMNotFound : GoError := .sentinel "vmservice.ErrVMNotFound" "vm not found"

/-- Error variable of the package's lookup code (declared outside `vm.go`). -/
def ErrVMNotInitialized : GoError := .sentinel "vmservice.ErrVMNotInitialized" "vm not initialized"

/-- Error variable of the package's lookup code (declared outside `vm.go`). -/
def ErrVMNotCreated : GoError := .sentinel "vmservice.ErrVMNotCreated" "vm not created"

/-- Error variable of the client package for a failed cloud-init run. -/
def ErrCloudInitFailed : GoError := .sentinel "goproxmox.ErrCloudInitFailed" "cloud-init failed execution"

/-- Error variable of the client package for a template lookup miss. -/
def ErrTemplateNotFound : GoError := .sentinel "goproxmox.ErrTemplateNotFound" "VM template not found"

/-! ## Machine integers -/

def maxInt64 : Int := 2 ^ 63 - 1

def minInt64 : Int := -(2 ^ 63)

/-- The value an `int64` holds after an arithmetic result `x`. -/
def wrapInt64 (x : Int) : Int := (x + 2 ^ 63) % 2 ^ 64 - 2 ^ 63

/-- Go conversion `int32(x)` of a wider integer. -/
def toInt32 (x : Int) : Int := (x + 2 ^ 31) % 2 ^ 32 - 2 ^ 31

/-! ## Data model -/

structure VMIDRange where
  Start : Int
  End : Int
  deriving DecidableEq, Repr

structure DiskSize where
  Disk : String
  SizeGB : Int
  deriving DecidableEq, Repr

structure Storage where
  BootVolume : Option DiskSize
  deriving DecidableEq, Repr

structure NetworkDevice where
  Bridge : String
  Model : String
  MTU : Option Nat
  VLAN : Option Nat
  deriving DecidableEq, Repr

structure AdditionalNetworkDevice where
  Name : String
  Bridge : String
  Model : String
  MTU : Option Nat
  VLAN : Option Nat
  deriving DecidableEq, Repr

structure NetworkSpec where
  Default : NetworkDevice
  AdditionalDevices : List AdditionalNetworkDevice
  deriving DecidableEq, Repr

structure IPAddress where
  IPV4 : String
  IPV6 : String
  deriving DecidableEq, Repr

inductive MachineAddressType where
  | MachineHostName
  | MachineInternalIP
  deriving DecidableEq, Repr

structure MachineAddress where
  Typ : MachineAddressType
  Address : String
  deriving DecidableEq, Repr

/-- A condition of the owning object; `Status = false` is `ConditionFalse`. -/
structure Condition where
  Typ : String
  Status : Bool
  Reason : String
  Severity : String
  Message : String
  deriving DecidableEq, Repr

structure ProxmoxMachineSpec where
  VirtualMachineID : Option Int
  ProviderID : Option String
  NumSockets : Int
  NumCores : Int
  MemoryMiB : Int
  Description : Option String
  Network : Option NetworkSpec
  Tags : Option (List String)
  Disks : Option Storage
  VMIDRange : Option VMIDRange
  Format : Option String
  Full : Option Bool
  Pool : Option String
  SnapName : Option String
  StorageName : Option String
  Target : Option String
  AllowedNodes : List String
  deriving DecidableEq, Repr

structure ProxmoxMachineStatus where
  Ready : Bool
  TaskRef : Option String
  ProxmoxNode : Option String
  IPAddresses : List (String × IPAddress)
  Addresses : List MachineAddress
  FailureReason : Option String
  FailureMessage : Option String
  Conditions : List Condition
  deriving DecidableEq, Repr

structure ProxmoxMachine where
  Name : String
  Spec : ProxmoxMachineSpec
  Status : ProxmoxMachineStatus
  deriving DecidableEq, Repr

/-- The owning cluster-api Machine: the two status fields the core reads and whether it
is a control-plane machine (`util.IsControlPlaneMachine`). -/
structure Machine where
  BootstrapReady : Bool
  NodeRef : Option String
  IsControlPlaneMachine : Bool
  deriving DecidableEq, Repr

structure NodeLocation where
  Machine : String
  Node : String
  deriving DecidableEq, Repr

structure NodeLocations where
  ControlPlane : List NodeLocation
  Workers : List NodeLocation
  deriving DecidableEq, Repr

structure IPConfigSpec where
  Addresses : List String
  Prefix : Int
  Gateway : String
  deriving DecidableEq, Repr

structure ProxmoxClusterSpec where
  IPv4Config : Option IPConfigSpec
  IPv6Config : Option IPConfigSpec
  AllowedNodes : List String
  deriving DecidableEq, Repr

structure ProxmoxClusterStatus where
  NodeLocations : Option NodeLocations
  deriving DecidableEq, Repr

structure ProxmoxCluster where
  Spec : ProxmoxClusterSpec
  Status : ProxmoxClusterStatus
  deriving DecidableEq, Repr

structure ClusterScope where
  ProxmoxCluster : ProxmoxCluster
  deriving DecidableEq, Repr

/-- Resolved configuration of the remote VM (go-proxmox `VirtualMachineConfig`). -/
structure VirtualMachineConfig where
  Sockets : Int
  Cores : Int
  Memory : Int
  Description : String
  Tags : String
  TagsSlice : List String
  SMBios1 : String
  deriving DecidableEq, Repr

/-- The remote VM as the client reports it; `Running` is the answer of `IsRunning()`. -/
structure VirtualMachine where
  VMID : Int
  Running : Bool
  VirtualMachineConfig : VirtualMachineConfig
  deriving DecidableEq, Repr

inductive VirtualMachineState where
  | Pending
  | Ready
  deriving DecidableEq, Repr

/-- The view `ReconcileVM` returns (`infrav1alpha1.VirtualMachine`). -/
structure VirtualMachineView where
  Name : String
  State : VirtualMachineState
  deriving DecidableEq, Repr

/-- Value of a configuration option: the code passes `int32` values and strings. -/
inductive OptionValue where
  | int (v : Int)
  | str (s : String)
  deriving DecidableEq, Repr

structure VirtualMachineOption where
  Name : String
  Value : OptionValue
  deriving DecidableEq, Repr

structure Task where
  ID : String
  UPID : String
  deriving DecidableEq, Repr

structure VMCloneRequest where
  Node : String
  NewID : Int
  Name : String
  Description : String
  Format : String
  Full : Nat
  Pool : String
  SnapName : String
  Storage : String
  Target : String
  deriving DecidableEq, Repr

structure VMCloneResponse where
  NewID : Int
  Task : Task
  deriving DecidableEq, Repr

structure MachineScope where
  ProxmoxMachine : ProxmoxMachine
  Machine : Machine
  InfraCluster : ClusterScope
  VirtualMachine : VirtualMachine
  deriving DecidableEq, Repr

/-- One call leaving `vm.go`, with its arguments and the answer it got. -/
inductive Call where
  | ReconcileInFlightTask (inFlight : Bool) (err : Option GoError)
  | FindVM (vmRef : VirtualMachine) (err : Option GoError)
  | updateVMLocation (err : Option GoError)
  | ListProxmoxMachinesForCluster (machines : List ProxmoxMachine) (err : Option GoError)
  | CheckID (id : Int) (vmidFree : Bool) (err : Option GoError)
  | selectNextNode (node : String) (err : Option GoError)
  | FindVMTemplateByTags (tags : List String) (node : String) (templateID : Int)
      (err : Option GoError)
  | CloneVM (templateID : Int) (options : VMCloneRequest) (res : VMCloneResponse)
      (err : Option GoError)
  | PatchObject (err : Option GoError)
  | ConfigureVM (vm : VirtualMachine) (options : List VirtualMachineOption) (task : Task)
      (err : Option GoError)
  | ResizeDisk (vm : VirtualMachine) (disk : String) (size : String) (err : Option GoError)
  | reconcileIPAddresses (requeue : Bool) (err : Option GoError)
  | reconcileBootstrapData (requeue : Bool) (err : Option GoError)
  | reconcilePowerState (requeue : Bool) (err : Option GoError)
  | QemuAgentStatus (vm : VirtualMachine) (err : Option GoError)
  | CloudInitStatus (vm : VirtualMachine) (running : Bool) (err : Option GoError)
  | UnmountCloudInitISO (vm : VirtualMachine) (device : String) (err : Option GoError)
  deriving DecidableEq, Repr

/-- The machine scope together with the calls issued so far, oldest first. -/
structure State where
  scope : MachineScope
  calls : List Call
  deriving DecidableEq, Repr

/-- Appends a call to the trace. -/
def State.record (st : State) (c : Call) : State :=
  { st with calls := st.calls ++ [c] }

/-- Everything `vm.go` consumes from outside the file. The client methods answer as
functions of their arguments; the collaborators that receive the scope may change it. -/
structure Env where
  ReconcileInFlightTask : MachineScope → (Bool × Option GoError) × MachineScope
  FindVM : MachineScope → VirtualMachine × Option GoError
  updateVMLocation : MachineScope → Option GoError × MachineScope
  extractUUID : String → String
  shouldUpdateNetworkDevices : MachineScope → Bool
  formatNetworkDevice : String → String → Option Nat → Option Nat → String
  reconcileIPAddresses : MachineScope → (Bool × Option GoError) × MachineScope
  reconcileBootstrapData : MachineScope → (Bool × Option GoError) × MachineScope
  reconcilePowerState : MachineScope → (Bool × Option GoError) × MachineScope
  machineHasIPAddress : ProxmoxMachine → Bool
  SkipQemuGuestCheck : MachineScope → Bool
  SkipCloudInitCheck : MachineScope → Bool
  selectNextNode : MachineScope → String × Option GoError
  IsInsufficientMemoryError : GoError → Bool
  ListProxmoxMachinesForCluster : MachineScope → List ProxmoxMachine × Option GoError
  PatchObject : MachineScope → Option GoError
  GetNode : ProxmoxMachine → String
  GetTemplateID : ProxmoxMachine → Int
  GetTemplateSelectorTags : ProxmoxMachine → List String
  FormatSize : DiskSize → String
  CheckID : Int → Bool × Option GoError
  CloneVM : Int → VMCloneRequest → VMCloneResponse × Option GoError
  ConfigureVM : VirtualMachine → List VirtualMachineOption → Task × Option GoError
  ResizeDisk : VirtualMachine → String → String → Option GoError
  FindVMTemplateByTags : List String → String × Int × Option GoError
  QemuAgentStatus : VirtualMachine → Option GoError
  CloudInitStatus : VirtualMachine → Bool × Option GoError
  UnmountCloudInitISO : VirtualMachine → String → Option GoError

/-! ## VMID allocation -/

/-- Accessor of the API type: the recorded VM id, or `-1` when none is recorded. -/
def ProxmoxMachine.GetVirtualMachineID (m : ProxmoxMachine) : Int :=
  match m.Spec.VirtualMachineID with
  | some id => id
  | none => -1

/-- Source `getUsedVMIDs`: the recorded ids of the cluster's machines, unset ones skipped. -/
def getUsedVMIDs (env : Env) (st : State) : (List Int × Option GoError) × State :=
  match env.ListProxmoxMachinesForCluster st.scope with
  | (proxmoxMachines, some err) =>
    (([], some err), st.record (.ListProxmoxMachinesForCluster proxmoxMachines (some err)))
  | (proxmoxMachines, none) =>
    (((proxmoxMachines.filter (fun m => m.GetVirtualMachineID != -1)).map
        ProxmoxMachine.GetVirtualMachineID, none),
      st.record (.ListProxmoxMachinesForCluster proxmoxMachines none))

/-- The `for i := vmIDRangeStart; i <= vmIDRangeEnd; i++` loop of `getNextFreeVMIDfromRange`,
entered at `i` with `fuel` evaluations of the loop condition left. -/
def scanVMIDRange (env : Env) (usedVMIDs : List Int) (vmIDRangeEnd : Int) :
    Nat → Int → State → Option ((Int × Option GoError) × State)
  | 0, _, _ => none
  | fuel + 1, i, st =>
    if i ≤ vmIDRangeEnd then
      if usedVMIDs.contains i then
        scanVMIDRange env usedVMIDs vmIDRangeEnd fuel (wrapInt64 (i + 1)) st
      else
        match env.CheckID i with
        | (vmidFree, none) =>
          if vmidFree then
            some ((i, none), st.record (.CheckID i vmidFree none))
          else
            scanVMIDRange env usedVMIDs vmIDRangeEnd fuel (wrapInt64 (i + 1))
              (st.record (.CheckID i vmidFree none))
        | (vmidFree, some err) => some ((0, some err), st.record (.CheckID i vmidFree (some err)))
    else
      some ((0, some ErrNoVMIDInRangeFree), st)

/-- Source `getNextFreeVMIDfromRange`. The loop variable is an `int64`: when the loop has
evaluated its condition `2^64` times without returning, it has seen every `int64` and
starts over in the same state, so it never returns; that is the result `none`. -/
def getNextFreeVMIDfromRange (env : Env) (st : State) (vmIDRangeStart vmIDRangeEnd : Int) :
    Option ((Int × Option GoError) × State) :=
  match getUsedVMIDs env st with
  | ((_, some err), st1) => some ((0, some err), st1)
  | ((usedVMIDs, none), st1) =>
    scanVMIDRange env usedVMIDs vmIDRangeEnd (2 ^ 64) vmIDRangeStart st1

/-- Source `getVMID`. -/
def getVMID (env : Env) (st : State) : Option ((Int × Option GoError) × State) :=
  match st.scope.ProxmoxMachine.Spec.VMIDRange with
  | some r =>
    if r.Start ≠ 0 ∧ r.End ≠ 0 then
      getNextFreeVMIDfromRange env st r.Start r.End
    else
      some ((0, none), st)
  | none => some ((0, none), st)

/-! ## Scope helpers -/

def VMProvisionedCondition : String := "VMProvisioned"

def CloningReason : String := "Cloning"

def CloningFailedReason : String := "CloningFailed"

def VMProvisionFailedReason : String := "VMProvisionFailed"

def ConditionSeverityInfo : String := "Info"

def ConditionSeverityWarning : String := "Warning"

def ConditionSeverityError : String := "Error"

def InsufficientResourcesMachineError : String := "InsufficientResources"

def DefaultNetworkDevice : String := "net0"

def CloudInitISODevice : String := "ide0"

/-- Library `conditions.Has`: a condition of that type is recorded. -/
def conditionsHas (conds : List Condition) (t : String) : Bool :=
  conds.any (fun c => c.Typ == t)

/-- Library `conditions.Set`: replaces the condition of the same type, or appends it.
Time stamps and the display order of the list are not modelled. -/
def conditionsSet (conds : List Condition) (c : Condition) : List Condition :=
  if conditionsHas conds c.Typ then
    conds.map (fun old => if old.Typ == c.Typ then c else old)
  else
    conds ++ [c]

/-- Library `conditions.MarkFalse` on the ProxmoxMachine of the scope. -/
def MarkFalse (st : State) (t reason severity message : String) : State :=
  let c : Condition :=
    { Typ := t, Status := false, Reason := reason, Severity := severity, Message := message }
  { st with scope.ProxmoxMachine.Status.Conditions :=
              conditionsSet st.scope.ProxmoxMachine.Status.Conditions c }

/-- Scope method `SetFailureMessage`: stores the error's text. -/
def SetFailureMessage (st : State) (err : GoError) : State :=
  { st with scope.ProxmoxMachine.Status.FailureMessage := some err.Error }

/-- Scope method `SetFailureReason`. -/
def SetFailureReason (st : State) (reason : String) : State :=
  { st with scope.ProxmoxMachine.Status.FailureReason := some reason }

/-- Scope method `SetVirtualMachineID`. -/
def SetVirtualMachineID (st : State) (vmID : Int) : State :=
  { st with scope.ProxmoxMachine.Spec.VirtualMachineID := some vmID }

/-- Scope method `SetProviderID`: the provider id is the BIOS UUID behind the scheme. -/
def SetProviderID (st : State) (biosUUID : String) : State :=
  { st with scope.ProxmoxMachine.Spec.ProviderID := some ("proxmox://" ++ biosUUID) }

/-- Scope method `SetVirtualMachine`. -/
def SetVirtualMachine (st : State) (vm : VirtualMachine) : State :=
  { st with scope.VirtualMachine := vm }

/-- Scope method `SetAddresses`. -/
def SetAddresses (st : State) (addr : List MachineAddress) : State :=
  { st with scope.ProxmoxMachine.Status.Addresses := addr }

/-- Modelled from the spec: `ProxmoxCluster.AddNodeLocation` is declared outside `vm.go`;
the spec says a Node Location record is appended to the cluster status, flagged as
control plane or not. -/
def AddNodeLocation (locs : Option NodeLocations) (loc : NodeLocation) (isControlPlane : Bool) :
    Option NodeLocations :=
  let l := locs.getD { ControlPlane := [], Workers := [] }
  if isControlPlane then some { l with ControlPlane := l.ControlPlane ++ [loc] }
  else some { l with Workers := l.Workers ++ [loc] }

/-! ## Existence and creation -/

/-- The zero `VMCloneResponse` that `createVM` returns next to an error. -/
def emptyCloneResponse : VMCloneResponse := { NewID := 0, Task := { ID := "", UPID := "" } }

/-- The clone request `createVM` builds from the machine's spec before node selection. -/
def cloneRequest (env : Env) (pm : ProxmoxMachine) (vmid : Int) : VMCloneRequest :=
  { Node := env.GetNode pm
    NewID := vmid
    Name := pm.Name
    Description := pm.Spec.Description.getD ""
    Format := pm.Spec.Format.getD ""
    Full := if pm.Spec.Full = some true then 1 else 0
    Pool := pm.Spec.Pool.getD ""
    SnapName := pm.Spec.SnapName.getD ""
    Storage := pm.Spec.StorageName.getD ""
    Target := pm.Spec.Target.getD "" }

/-- The tail of `createVM` from the `CloneVM` call on. -/
def cloneAndRecord (env : Env) (st : State) (templateID : Int) (options : VMCloneRequest) :
    (VMCloneResponse × Option GoError) × State :=
  match env.CloneVM templateID options with
  | (res, some err) => ((res, some err), st.record (.CloneVM templateID options res (some err)))
  | (res, none) =>
    let st1 := st.record (.CloneVM templateID options res none)
    let node := if options.Target = "" then options.Node else options.Target
    let st2 : State := { st1 with scope.ProxmoxMachine.Status.ProxmoxNode := some node }
    let locs := AddNodeLocation st2.scope.InfraCluster.ProxmoxCluster.Status.NodeLocations
      { Machine := options.Name, Node := node } st2.scope.Machine.IsControlPlaneMachine
    let st3 : State := { st2 with scope.InfraCluster.ProxmoxCluster.Status.NodeLocations := locs }
    ((res, env.PatchObject st3.scope), st3.record (.PatchObject (env.PatchObject st3.scope)))

/-- The part of `createVM` after node selection: template lookup, then the clone. -/
def resolveTemplateAndClone (env : Env) (st : State) (options : VMCloneRequest) :
    (VMCloneResponse × Option GoError) × State :=
  let pm := st.scope.ProxmoxMachine
  if env.GetTemplateID pm = -1 then
    match env.FindVMTemplateByTags (env.GetTemplateSelectorTags pm) with
    | (node, templateID, some err) =>
      let st1 := st.record
        (.FindVMTemplateByTags (env.GetTemplateSelectorTags pm) node templateID (some err))
      let st2 :=
        if errorsIs err ErrTemplateNotFound then
          MarkFalse (SetFailureReason (SetFailureMessage st1 err) "VMTemplateNotFound")
            VMProvisionedCondition VMProvisionFailedReason ConditionSeverityError err.Error
        else st1
      ((emptyCloneResponse, some err), st2)
    | (node, templateID, none) =>
      cloneAndRecord env
        (st.record (.FindVMTemplateByTags (env.GetTemplateSelectorTags pm) node templateID none))
        templateID { options with Node := node }
  else
    cloneAndRecord env st (env.GetTemplateID pm) options

/-- The part of `createVM` after the VMID is allocated. -/
def placeAndClone (env : Env) (st : State) (vmid : Int) :
    (VMCloneResponse × Option GoError) × State :=
  let pm := st.scope.ProxmoxMachine
  let options := cloneRequest env pm vmid
  let st1 : State :=
    match st.scope.InfraCluster.ProxmoxCluster.Status.NodeLocations with
    | none =>
      { st with scope.InfraCluster.ProxmoxCluster.Status.NodeLocations :=
                  some ⟨[], []⟩ }
    | some _ => st
  if pm.Spec.Target = none ∧
      (st1.scope.InfraCluster.ProxmoxCluster.Spec.AllowedNodes.length > 0 ∨
        pm.Spec.AllowedNodes.length > 0) then
    match env.selectNextNode st1.scope with
    | (node, some err) =>
      let st2 := st1.record (.selectNextNode node (some err))
      let st3 :=
        if env.IsInsufficientMemoryError err then
          SetFailureReason (SetFailureMessage st2 err) InsufficientResourcesMachineError
        else st2
      ((emptyCloneResponse, some err), st3)
    | (node, none) =>
      resolveTemplateAndClone env (st1.record (.selectNextNode node none))
        { options with Target := node }
  else
    resolveTemplateAndClone env st1 options

/-- Source `createVM`. -/
def createVM (env : Env) (st : State) : Option ((VMCloneResponse × Option GoError) × State) :=
  match getVMID env st with
  | none => none
  | some ((_, some err), st1) =>
    let st2 :=
      if errorsIs err ErrNoVMIDInRangeFree then
        SetFailureReason (SetFailureMessage st1 err) InsufficientResourcesMachineError
      else st1
    some ((emptyCloneResponse, some err), st2)
  | some ((vmid, none), st1) => some (placeAndClone env st1 vmid)

/-- Source `ensureVirtualMachine`. -/
def ensureVirtualMachine (env : Env) (st : State) : Option ((Bool × Option GoError) × State) :=
  if st.scope.ProxmoxMachine.Status.TaskRef ≠ none then
    some ((true, none), st)
  else
    match env.FindVM st.scope with
    | (vmRef, some err) =>
      let st1 := st.record (.FindVM vmRef (some err))
      if errorsIs err ErrVMNotFound then
        match env.updateVMLocation st1.scope with
        | (some err2, sc) =>
          some ((false, some (.wrap "error trying to locate vm" err2)),
            { scope := sc, calls := st1.calls ++ [.updateVMLocation (some err2)] })
        | (none, sc) =>
          some ((false, some err), { scope := sc, calls := st1.calls ++ [.updateVMLocation none] })
      else if errorsIs err ErrVMNotInitialized then
        some ((true, some err), st1)
      else if !errorsIs err ErrVMNotCreated then
        some ((false, some err), st1)
      else
        let st2 :=
          if !conditionsHas st1.scope.ProxmoxMachine.Status.Conditions VMProvisionedCondition then
            MarkFalse st1 VMProvisionedCondition CloningReason ConditionSeverityInfo ""
          else st1
        match createVM env st2 with
        | none => none
        | some ((_, some err3), st3) =>
          some ((false, some err3),
            MarkFalse st3 VMProvisionedCondition CloningFailedReason ConditionSeverityWarning
              err3.Error)
        | some ((resp, none), st3) =>
          some ((true, none),
            SetVirtualMachineID
              { st3 with scope.ProxmoxMachine.Status.TaskRef := some resp.Task.UPID } resp.NewID)
    | (vmRef, none) =>
      let st1 := st.record (.FindVM vmRef none)
      some ((false, none),
        SetVirtualMachine (SetProviderID st1 (env.extractUUID vmRef.VirtualMachineConfig.SMBios1))
          vmRef)

/-! ## Configuration -/

def optionSockets : String := "sockets"

def optionCores : String := "cores"

def optionMemory : String := "memory"

def optionTags : String := "tags"

def optionDescription : String := "description"

/-- Splits a character list at every `sep`; the result always has one more piece than
there are separators. -/
def splitChars (sep : Char) : List Char → List (List Char)
  | [] => [[]]
  | c :: cs =>
    if c = sep then [] :: splitChars sep cs
    else
      match splitChars sep cs with
      | [] => [[c]]
      | w :: ws => (c :: w) :: ws

/-- Go `strings.Split(s, ";")`; the empty string gives one empty piece. -/
def stringsSplit (s : String) : List String :=
  (splitChars ';' s.data).map String.mk

/-- Go `strings.Join(elems, ";")`. -/
def stringsJoin (elems : List String) : String :=
  ";".intercalate elems

/-- Client library `VirtualMachine.SplitTags`: fills `TagsSlice` from the `Tags` string. -/
def VirtualMachine.SplitTags (vm : VirtualMachine) : VirtualMachine :=
  { vm with VirtualMachineConfig.TagsSlice := stringsSplit vm.VirtualMachineConfig.Tags }

/-- Client library `VirtualMachine.HasTag`: false when the `Tags` string is empty;
otherwise membership in `TagsSlice`, which is filled first when it is still nil. -/
def VirtualMachine.HasTag (vm : VirtualMachine) (value : String) : Bool × VirtualMachine :=
  if vm.VirtualMachineConfig.Tags = "" then (false, vm)
  else
    let vm1 := if vm.VirtualMachineConfig.TagsSlice = [] then vm.SplitTags else vm
    (vm1.VirtualMachineConfig.TagsSlice.contains value, vm1)

/-- The `for _, tag := range Spec.Tags` loop: appends every tag that `HasTag` denies. -/
def appendMissingTags : List String → VirtualMachine → VirtualMachine
  | [], vm => vm
  | tag :: rest, vm =>
    match vm.HasTag tag with
    | (true, vm1) => appendMissingTags rest vm1
    | (false, vm1) =>
      appendMissingTags rest
        { vm1 with VirtualMachineConfig.TagsSlice := vm1.VirtualMachineConfig.TagsSlice ++ [tag] }

/-- The "CPU & Memory" block of `reconcileVirtualMachineConfig`. -/
def cpuMemoryOptions (spec : ProxmoxMachineSpec) (vmConfig : VirtualMachineConfig) :
    List VirtualMachineOption :=
  (if spec.NumSockets > 0 ∧ vmConfig.Sockets ≠ spec.NumSockets then
      [{ Name := optionSockets, Value := .int spec.NumSockets }] else []) ++
  (if spec.NumCores > 0 ∧ vmConfig.Cores ≠ spec.NumCores then
      [{ Name := optionCores, Value := .int spec.NumCores }] else []) ++
  (if spec.MemoryMiB > 0 ∧ toInt32 vmConfig.Memory ≠ spec.MemoryMiB then
      [{ Name := optionMemory, Value := .int spec.MemoryMiB }] else [])

/-- The "Description" block of `reconcileVirtualMachineConfig`. -/
def descriptionOptions (spec : ProxmoxMachineSpec) (vmConfig : VirtualMachineConfig) :
    List VirtualMachineOption :=
  match spec.Description with
  | some d =>
    if vmConfig.Description ≠ d then [{ Name := optionDescription, Value := .str d }] else []
  | none => []

/-- The "Network vmbrs" block of `reconcileVirtualMachineConfig`. -/
def networkOptions (env : Env) (sc : MachineScope) : List VirtualMachineOption :=
  match sc.ProxmoxMachine.Spec.Network with
  | some network =>
    if env.shouldUpdateNetworkDevices sc then
      { Name := DefaultNetworkDevice
        Value := .str (env.formatNetworkDevice network.Default.Model network.Default.Bridge
          network.Default.MTU network.Default.VLAN) } ::
      network.AdditionalDevices.map (fun v =>
        { Name := v.Name, Value := .str (env.formatNetworkDevice v.Model v.Bridge v.MTU v.VLAN) })
    else []
  | none => []

/-- The "custom tags" block of `reconcileVirtualMachineConfig`: the options it adds and
the VM with its `TagsSlice` as the block leaves it. -/
def tagOptions (spec : ProxmoxMachineSpec) (vm : VirtualMachine) :
    List VirtualMachineOption × VirtualMachine :=
  match spec.Tags with
  | some tags =>
    let vm1 := vm.SplitTags
    let length := vm1.VirtualMachineConfig.TagsSlice.length
    let vm2 := appendMissingTags tags vm1
    if vm2.VirtualMachineConfig.TagsSlice.length > length then
      ([{ Name := optionTags, Value := .str (stringsJoin vm2.VirtualMachineConfig.TagsSlice) }], vm2)
    else ([], vm2)
  | none => ([], vm)

/-- The option list `vmOptions` that `reconcileVirtualMachineConfig` builds, and the scope
as building it leaves it. -/
def buildVMOptions (env : Env) (sc : MachineScope) : List VirtualMachineOption × MachineScope :=
  let vmConfig := sc.VirtualMachine.VirtualMachineConfig
  let spec := sc.ProxmoxMachine.Spec
  let tagged := tagOptions spec sc.VirtualMachine
  (cpuMemoryOptions spec vmConfig ++ descriptionOptions spec vmConfig ++ networkOptions env sc ++
      tagged.1,
    { sc with VirtualMachine := tagged.2 })

/-- Source `reconcileVirtualMachineConfig`. -/
def reconcileVirtualMachineConfig (env : Env) (st : State) : (Bool × Option GoError) × State :=
  if st.scope.VirtualMachine.Running = true ∨ st.scope.ProxmoxMachine.Status.Ready = true then
    ((false, none), st)
  else
    match buildVMOptions env st.scope with
    | (vmOptions, sc1) =>
      let st1 : State := { st with scope := sc1 }
      if vmOptions.length = 0 then
        ((false, none), st1)
      else
        match env.ConfigureVM sc1.VirtualMachine vmOptions with
        | (task, some err) =>
          ((false, some (.wrap ("failed to configure VM " ++ sc1.ProxmoxMachine.Name) err)),
            st1.record (.ConfigureVM sc1.VirtualMachine vmOptions task (some err)))
        | (task, none) =>
          let st2 := st1.record (.ConfigureVM sc1.VirtualMachine vmOptions task none)
          ((true, none), { st2 with scope.ProxmoxMachine.Status.TaskRef := some task.UPID })

/-! ## Disks, addresses, cloud-init -/

/-- Source `reconcileDisks`. -/
def reconcileDisks (env : Env) (st : State) : Option GoError × State :=
  match st.scope.ProxmoxMachine.Spec.Disks with
  | none => (none, st)
  | some disks =>
    if st.scope.VirtualMachine.Running = true ∨ st.scope.ProxmoxMachine.Status.Ready = true then
      (none, st)
    else
      match disks.BootVolume with
      | some bv =>
        let err := env.ResizeDisk st.scope.VirtualMachine bv.Disk (env.FormatSize bv)
        (err, st.record (.ResizeDisk st.scope.VirtualMachine bv.Disk (env.FormatSize bv) err))
      | none => (none, st)

/-- Go map read `Status.IPAddresses[key]`: the zero value when the key is absent. -/
def lookupIPAddress (m : List (String × IPAddress)) (key : String) : IPAddress :=
  (m.lookup key).getD { IPV4 := "", IPV6 := "" }

/-- Source `getMachineAddresses`. -/
def getMachineAddresses (env : Env) (sc : MachineScope) : List MachineAddress × Option GoError :=
  if !env.machineHasIPAddress sc.ProxmoxMachine then
    ([], some (.errorsNew "machine does not yet have an ip address"))
  else if !sc.VirtualMachine.Running then
    ([], some (.errorsNew
      "unable to apply configuration as long as the virtual machine is not running"))
  else
    let defaultDevice := lookupIPAddress sc.ProxmoxMachine.Status.IPAddresses DefaultNetworkDevice
    ([{ Typ := .MachineHostName, Address := sc.ProxmoxMachine.Name }] ++
      (if sc.InfraCluster.ProxmoxCluster.Spec.IPv4Config ≠ none then
        [{ Typ := .MachineInternalIP, Address := defaultDevice.IPV4 }] else []) ++
      (if sc.InfraCluster.ProxmoxCluster.Spec.IPv6Config ≠ none then
        [{ Typ := .MachineInternalIP, Address := defaultDevice.IPV6 }] else []),
      none)

/-- Source `reconcileMachineAddresses`. -/
def reconcileMachineAddresses (env : Env) (st : State) : Option GoError × State :=
  match getMachineAddresses env st.scope with
  | (_, some err) => (some err, st)
  | (addr, none) => (none, SetAddresses st addr)

/-- Source `checkCloudInitStatus`. -/
def checkCloudInitStatus (env : Env) (st : State) : (Bool × Option GoError) × State :=
  if !st.scope.VirtualMachine.Running then
    ((true, none), st)
  else
    let agent : Option GoError × State :=
      if !env.SkipQemuGuestCheck st.scope then
        (env.QemuAgentStatus st.scope.VirtualMachine,
          st.record (.QemuAgentStatus st.scope.VirtualMachine
            (env.QemuAgentStatus st.scope.VirtualMachine)))
      else (none, st)
    match agent with
    | (some err, st1) => ((true, some (.wrap "error waiting for agent" err)), st1)
    | (none, st1) =>
      if !env.SkipCloudInitCheck st1.scope then
        match env.CloudInitStatus st1.scope.VirtualMachine with
        | (running, err) =>
          let st2 := st1.record (.CloudInitStatus st1.scope.VirtualMachine running err)
          if err ≠ none ∨ running = true then
            if running then ((true, none), st2)
            else
              match err with
              | some e =>
                if errorsIs ErrCloudInitFailed e then
                  ((false, some e),
                    SetFailureReason
                      (SetFailureMessage
                        (MarkFalse st2 VMProvisionedCondition VMProvisionFailedReason
                          ConditionSeverityError e.Error) e)
                      "BootstrapFailed")
                else ((false, some e), st2)
              | none => ((false, none), st2)
          else ((false, none), st2)
      else ((false, none), st1)

/-- Source `unmountCloudInitISO`. -/
def unmountCloudInitISO (env : Env) (st : State) : Option GoError × State :=
  let err := env.UnmountCloudInitISO st.scope.VirtualMachine CloudInitISODevice
  (err, st.record (.UnmountCloudInitISO st.scope.VirtualMachine CloudInitISODevice err))

/-! ## Orchestrator -/

/-- The call of `taskservice.ReconcileInFlightTask`. -/
def callReconcileInFlightTask (env : Env) (st : State) : (Bool × Option GoError) × State :=
  match env.ReconcileInFlightTask st.scope with
  | ((inFlight, err), sc) =>
    ((inFlight, err), { scope := sc, calls := st.calls ++ [.ReconcileInFlightTask inFlight err] })

/-- The call of the sibling reconciler `reconcileIPAddresses`. -/
def callReconcileIPAddresses (env : Env) (st : State) : (Bool × Option GoError) × State :=
  match env.reconcileIPAddresses st.scope with
  | ((requeue, err), sc) =>
    ((requeue, err), { scope := sc, calls := st.calls ++ [.reconcileIPAddresses requeue err] })

/-- The call of the sibling reconciler `reconcileBootstrapData`. -/
def callReconcileBootstrapData (env : Env) (st : State) : (Bool × Option GoError) × State :=
  match env.reconcileBootstrapData st.scope with
  | ((requeue, err), sc) =>
    ((requeue, err), { scope := sc, calls := st.calls ++ [.reconcileBootstrapData requeue err] })

/-- The call of the sibling reconciler `reconcilePowerState`. -/
def callReconcilePowerState (env : Env) (st : State) : (Bool × Option GoError) × State :=
  match env.reconcilePowerState st.scope with
  | ((requeue, err), sc) =>
    ((requeue, err), { scope := sc, calls := st.calls ++ [.reconcilePowerState requeue err] })

/-- Source `ReconcileVM`. -/
def ReconcileVM (env : Env) (st : State) : Option ((VirtualMachineView × Option GoError) × State) :=
  let vm : VirtualMachineView := { Name := st.scope.ProxmoxMachine.Name, State := .Pending }
  match callReconcileInFlightTask env st with
  | ((inFlight, err), st1) =>
  if err ≠ none ∨ inFlight = true then some ((vm, err), st1) else
  match ensureVirtualMachine env st1 with
  | none => none
  | some ((requeue, err), st2) =>
  if err ≠ none ∨ requeue = true then some ((vm, err), st2) else
  match reconcileVirtualMachineConfig env st2 with
  | ((requeue, err), st3) =>
  if err ≠ none ∨ requeue = true then some ((vm, err), st3) else
  match reconcileDisks env st3 with
  | (err, st4) =>
  if err ≠ none then some ((vm, err), st4) else
  match callReconcileIPAddresses env st4 with
  | ((requeue, err), st5) =>
  if err ≠ none ∨ requeue = true then some ((vm, err), st5) else
  match callReconcileBootstrapData env st5 with
  | ((requeue, err), st6) =>
  if err ≠ none ∨ requeue = true then some ((vm, err), st6) else
  match callReconcilePowerState env st6 with
  | ((requeue, err), st7) =>
  if err ≠ none ∨ requeue = true then some ((vm, err), st7) else
  match reconcileMachineAddresses env st7 with
  | (err, st8) =>
  if err ≠ none then some ((vm, err), st8) else
  match checkCloudInitStatus env st8 with
  | ((requeue, err), st9) =>
  if err ≠ none ∨ requeue = true then some ((vm, err), st9) else
  if st9.scope.Machine.BootstrapReady = true ∧ st9.scope.Machine.NodeRef ≠ none then
    match unmountCloudInitISO env st9 with
    | (some err, st10) =>
      some ((vm, some (.wrap ("failed to unmount cloud-init iso for vm " ++
        st10.scope.ProxmoxMachine.Name) err)), st10)
    | (none, st10) => some (({ vm with State := .Ready }, none), st10)
  else
    some (({ vm with State := .Ready }, none), st9)

/-! ## Sample inputs -/

def sampleVM : VirtualMachine :=
  { VMID := 100, Running := false,
    VirtualMachineConfig :=
      { Sockets := 2, Cores := 4, Memory := 4096, Description := "", Tags := "a;c",
        TagsSlice := [], SMBios1 := "uuid=5a6c8d2e" } }

def sampleMachine : ProxmoxMachine :=
  { Name := "machine-0",
    Spec :=
      { VirtualMachineID := none, ProviderID := none, NumSockets := 2, NumCores := 4,
        MemoryMiB := 4096, Description := none, Network := none, Tags := none, Disks := none,
        VMIDRange := some { Start := 100, End := 102 }, Format := none, Full := none,
        Pool := none, SnapName := none, StorageName := none, Target := none,
        AllowedNodes := [] },
    Status :=
      { Ready := false, TaskRef := none, ProxmoxNode := none, IPAddresses := [],
        Addresses := [], FailureReason := none, FailureMessage := none, Conditions := [] } }

/-- A machine with `VMIDRange{100,102}`, no recorded id and no task in flight. -/
def sampleScope : MachineScope :=
  { ProxmoxMachine := sampleMachine,
    Machine := { BootstrapReady := false, NodeRef := none, IsControlPlaneMachine := false },
    InfraCluster :=
      { ProxmoxCluster :=
          { Spec := { IPv4Config := none, IPv6Config := none, AllowedNodes := [] },
            Status := { NodeLocations := none } } },
    VirtualMachine := sampleVM }

def sampleState : State := { scope := sampleScope, calls := [] }

/-- Collaborators for a machine that is not created yet: the lookup fails with
`ErrVMNotCreated`, no sibling machine exists, every id is free, every call succeeds. -/
def sampleEnv : Env :=
  { ReconcileInFlightTask := fun sc => ((false, none), sc)
    FindVM := fun sc => (sc.VirtualMachine, some ErrVMNotCreated)
    updateVMLocation := fun sc => (none, sc)
    extractUUID := fun s => s
    shouldUpdateNetworkDevices := fun _ => false
    formatNetworkDevice := fun model bridge _ _ => model ++ ",bridge=" ++ bridge
    reconcileIPAddresses := fun sc => ((false, none), sc)
    reconcileBootstrapData := fun sc => ((false, none), sc)
    reconcilePowerState := fun sc => ((false, none), sc)
    machineHasIPAddress := fun _ => true
    SkipQemuGuestCheck := fun _ => false
    SkipCloudInitCheck := fun _ => false
    selectNextNode := fun _ => ("node1", none)
    IsInsufficientMemoryError := fun _ => false
    ListProxmoxMachinesForCluster := fun _ => ([], none)
    PatchObject := fun _ => none
    GetNode := fun _ => "node1"
    GetTemplateID := fun _ => 9000
    GetTemplateSelectorTags := fun _ => []
    FormatSize := fun d => toString d.SizeGB ++ "G"
    CheckID := fun _ => (true, none)
    CloneVM := fun _ req => ({ NewID := req.NewID, Task := { ID := "clone", UPID := "UPID:clone" } }, none)
    ConfigureVM := fun _ _ => ({ ID := "config", UPID := "UPID:config" }, none)
    ResizeDisk := fun _ _ _ => none
    FindVMTemplateByTags := fun _ => ("node1", 9000, none)
    QemuAgentStatus := fun _ => none
    CloudInitStatus := fun _ => (false, none)
    UnmountCloudInitISO := fun _ _ => none }

/-- As `sampleEnv`, but the largest `int64` is taken and every other id is free. -/
def maxTakenEnv : Env :=
  { sampleEnv with CheckID := fun id => (decide (id ≠ maxInt64), none) }

/-- As `sampleEnv`, but a sibling machine has recorded the largest `int64` as its id. -/
def maxUsedEnv : Env :=
  { sampleEnv with
    ListProxmoxMachinesForCluster := fun _ =>
      ([{ sampleMachine with Spec.VirtualMachineID := some maxInt64 }], none) }

/-- As `sampleEnv`, but every `CheckID` call fails with `ErrNoVMIDInRangeFree`. -/
def checkFailsEnv : Env :=
  { sampleEnv with CheckID := fun _ => (false, some ErrNoVMIDInRangeFree) }

/-! ## Specification predicates -/

/-- What a scan entered at `i` answers: the first id of `i .. e` outside `U` on which
`CheckID` does not answer `(false, nil)` decides, and without one the range is exhausted. -/
def ScanSpec (env : Env) (U : List Int) (e i : Int) (r : Int × Option GoError) : Prop :=
  (∃ j, r = (j, none) ∧ i ≤ j ∧ j ≤ e ∧ j ∉ U ∧ env.CheckID j = (true, none) ∧
      ∀ k, i ≤ k → k < j → k ∉ U → env.CheckID k = (false, none)) ∨
  (∃ j err, r = (0, some err) ∧ i ≤ j ∧ j ≤ e ∧ j ∉ U ∧ (env.CheckID j).2 = some err ∧
      ∀ k, i ≤ k → k < j → k ∉ U → env.CheckID k = (false, none)) ∨
  (r = (0, some ErrNoVMIDInRangeFree) ∧
      ∀ k, i ≤ k → k ≤ e → k ∉ U → env.CheckID k = (false, none))

/-- As `sampleEnv`, but `CheckID` reports every id taken. -/
def noneFreeEnv : Env :=
  { sampleEnv with CheckID := fun _ => (false, none) }

/-- Whether a call is a `CloneVM` call. -/
def Call.isCloneVM : Call → Bool
  | .CloneVM _ _ _ _ => true
  | _ => false

/-- Whether a call is a `PatchObject` call. -/
def Call.isPatchObject : Call → Bool
  | .PatchObject _ => true
  | _ => false

/-- The calls `createVM` adds to the trace `old`, ending in `calls` with the answer
`(resp, err)`: some calls that neither clone nor patch, then either nothing more and an
error, or a failed `CloneVM`, or a successful `CloneVM` followed by `PatchObject`, whose
answer is the error returned. -/
def CloneTrace (old : List Call) (resp : VMCloneResponse) (err : Option GoError)
    (calls : List Call) : Prop :=
  ∃ pre, (∀ c ∈ pre, c.isCloneVM = false ∧ c.isPatchObject = false) ∧
    ((err ≠ none ∧ calls = old ++ pre) ∨
      (∃ t o e, err = some e ∧ calls = old ++ pre ++ [Call.CloneVM t o resp (some e)]) ∨
      (∃ t o, calls = old ++ pre ++ [Call.CloneVM t o resp none, Call.PatchObject err]))

/-- As `sampleEnv`, but persisting the cluster object fails. -/
def patchFailsEnv : Env :=
  { sampleEnv with PatchObject := fun _ => some (.errorsNew "patch failed") }

/-- The clone request built for `sampleScope` with the id 100. -/
def sampleCloneRequest : VMCloneRequest :=
  { Node := "node1", NewID := 100, Name := "machine-0", Description := "", Format := "",
    Full := 0, Pool := "", SnapName := "", Storage := "", Target := "" }

/-- The answer of `sampleEnv.CloneVM` to `sampleCloneRequest`. -/
def sampleCloneResponse : VMCloneResponse :=
  { NewID := 100, Task := { ID := "clone", UPID := "UPID:clone" } }

/-- The trace of a successful creation from `sampleState`. -/
def sampleCreationCalls : List Call :=
  [.FindVM sampleVM (some ErrVMNotCreated), .ListProxmoxMachinesForCluster [] none,
    .CheckID 100 true none, .CloneVM 9000 sampleCloneRequest sampleCloneResponse none,
    .PatchObject none]

/-- As `sampleState`, but a task reference is recorded on the machine. -/
def inFlightState : State :=
  { sampleState with scope.ProxmoxMachine.Status.TaskRef := some "UPID:earlier" }

/-! ## The orchestrator as a list of stages -/

/-- One stage of the reconciliation: it answers a requeue flag and an error and leaves
a new state, or never returns. -/
abbrev Stage := State → Option ((Bool × Option GoError) × State)

/-- Stage 4: `reconcileDisks`, which has no requeue flag. -/
def disksStage (env : Env) : Stage := fun st =>
  match reconcileDisks env st with
  | (err, st1) => some ((false, err), st1)

/-- Stage 8: `reconcileMachineAddresses`, which has no requeue flag. -/
def machineAddressesStage (env : Env) : Stage := fun st =>
  match reconcileMachineAddresses env st with
  | (err, st1) => some ((false, err), st1)

/-- Whether `ReconcileVM` has to unmount the cloud-init ISO: the owning machine is
bootstrap-ready and has a node reference. -/
def unmountRequired (st : State) : Prop :=
  st.scope.Machine.BootstrapReady = true ∧ st.scope.Machine.NodeRef ≠ none

instance (st : State) : Decidable (unmountRequired st) := by
  unfold unmountRequired; infer_instance

/-- Stage 10: the unmount of the cloud-init ISO where it is required; the client's error
comes back wrapped. -/
def unmountStage (env : Env) : Stage := fun st =>
  if unmountRequired st then
    match unmountCloudInitISO env st with
    | (some err, st1) =>
      some ((false, some (.wrap ("failed to unmount cloud-init iso for vm " ++
        st1.scope.ProxmoxMachine.Name) err)), st1)
    | (none, st1) => some ((false, none), st1)
  else some ((false, none), st)

/-- The stages in the order the spec lists them: task tracker, existence/creation,
configuration, disks, IP addresses, bootstrap data, power state, machine addresses,
cloud-init, unmount. -/
def stages (env : Env) : List Stage :=
  [ fun st => some (callReconcileInFlightTask env st),
    ensureVirtualMachine env,
    fun st => some (reconcileVirtualMachineConfig env st),
    disksStage env,
    fun st => some (callReconcileIPAddresses env st),
    fun st => some (callReconcileBootstrapData env st),
    fun st => some (callReconcilePowerState env st),
    machineAddressesStage env,
    fun st => some (checkCloudInitStatus env st),
    unmountStage env ]

/-- Runs stages in order; the first stage that answers an error or a requeue ends the run
with its answer and its state, and when every stage passes the answer is `(false, nil)`. -/
def runStages : List Stage → State → Option ((Bool × Option GoError) × State)
  | [], st => some ((false, none), st)
  | s :: rest, st =>
    match s st with
    | none => none
    | some ((requeue, err), st1) =>
      if err ≠ none ∨ requeue = true then some ((requeue, err), st1) else runStages rest st1

/-- Every stage of the list, run in order from `st`, answers no requeue and no error,
and the last one leaves `st'`. -/
def passAll : List Stage → State → State → Prop
  | [], st, st' => st' = st
  | s :: rest, st, st' => ∃ st1, s st = some ((false, none), st1) ∧ passAll rest st1 st'

/-- The view and error `ReconcileVM` returns for the outcome of the stages: `Ready` when
all stages passed, `Pending` otherwise, under the name read at the start. -/
def viewOf (name : String) (x : (Bool × Option GoError) × State) :
    (VirtualMachineView × Option GoError) × State :=
  (({ Name := name, State := if x.1.1 = false ∧ x.1.2 = none then .Ready else .Pending }, x.1.2),
    x.2)

/-- The VM of `sampleVM`, found running. -/
def runningVM : VirtualMachine := { sampleVM with Running := true }

/-- As `sampleEnv`, but the lookup finds the VM running. -/
def readyEnv : Env :=
  { sampleEnv with FindVM := fun _ => (runningVM, none) }

/-- As `sampleEnv`, but the task tracker reports a task in flight. -/
def pendingTaskEnv : Env :=
  { sampleEnv with ReconcileInFlightTask := fun sc => ((true, none), sc) }

/-! ## Configuration: specification side -/

/-- The tags a semicolon-joined tag string holds: none for the empty string, otherwise
the pieces between the semicolons. -/
def observedTags (s : String) : List String :=
  if s = "" then [] else stringsSplit s

/-- Keeps the first occurrence of every element, in order. -/
def dedupKeepFirst : List String → List String
  | [] => []
  | t :: rest => t :: (dedupKeepFirst rest).filter (fun x => x != t)

/-- The desired tags that are absent from the observed ones, each once, in desired order. -/
def absentTags (observed desired : List String) : List String :=
  dedupKeepFirst (desired.filter (fun t => decide (t ∉ observed)))

/-- A stopped, not yet ready machine whose desired cores differ from the observed ones. -/
def coresDifferState : State :=
  { sampleState with scope.ProxmoxMachine.Spec.NumCores := 8 }

/-- A stopped, not yet ready machine that wants the tags `a` and `b`. -/
def tagsState : State :=
  { sampleState with scope.ProxmoxMachine.Spec.Tags := some ["a", "b"] }

/-- As `sampleEnv`, but `ConfigureVM` fails. -/
def configureFailsEnv : Env :=
  { sampleEnv with
    ConfigureVM := fun _ _ => ({ ID := "", UPID := "" }, some (.errorsNew "configure failed")) }

/-- A stopped, not yet ready machine without tags on the remote VM that wants the tag `a`. -/
def untaggedScope : MachineScope :=
  { sampleScope with
    ProxmoxMachine.Spec.Tags := some ["a"]
    VirtualMachine.VirtualMachineConfig.Tags := "" }

/-- As `untaggedScope`, but the tag `a` is desired twice. -/
def untaggedTwiceScope : MachineScope :=
  { sampleScope with
    ProxmoxMachine.Spec.Tags := some ["a", "a"]
    VirtualMachine.VirtualMachineConfig.Tags := "" }

/-- As `sampleState`, but the owning machine is bootstrap-ready and has joined a node. -/
def joinedState : State :=
  { sampleState with
    scope.Machine := { BootstrapReady := true, NodeRef := some "node-0",
                       IsControlPlaneMachine := false } }

/-- As `readyEnv`, but unmounting the cloud-init ISO fails. -/
def unmountFailsEnv : Env :=
  { readyEnv with UnmountCloudInitISO := fun _ _ => some (.errorsNew "unmount failed") }

/-- As `sampleState`, but the VM attached to the scope is running. -/
def runningState : State :=
  { sampleState with scope.VirtualMachine := runningVM }

/-- A stopped, not yet ready machine that declares a boot volume of 100 GB on `scsi0`. -/
def disksState : State :=
  { sampleState with
    scope.ProxmoxMachine.Spec.Disks := some { BootVolume := some { Disk := "scsi0", SizeGB := 100 } } }

/-- A running machine with the addresses of `net0` assigned, in a cluster that declares an
IPv4 configuration only. -/
def addressedScope : MachineScope :=
  { sampleScope with
    VirtualMachine := runningVM
    ProxmoxMachine.Status.IPAddresses := [("net0", { IPV4 := "10.0.0.10", IPV6 := "2001:db8::10" })]
    InfraCluster.ProxmoxCluster.Spec.IPv4Config :=
      some { Addresses := ["10.0.0.10-10.0.0.20"], Prefix := 24, Gateway := "10.0.0.1" } }

/-- As `sampleEnv`, but no machine has an IP address assigned yet. -/
def noAddressEnv : Env :=
  { sampleEnv with machineHasIPAddress := fun _ => false }

/-- As `sampleEnv`, but cloud-init is reported as still running. -/
def cloudInitRunningEnv : Env :=
  { sampleEnv with CloudInitStatus := fun _ => (true, none) }

/-- As `sampleEnv`, but the cloud-init status check fails with an error that wraps
`ErrCloudInitFailed`. -/
def cloudInitWrappedFailureEnv : Env :=
  { sampleEnv with
    CloudInitStatus := fun _ => (false, some (.wrap "cloud-init status" ErrCloudInitFailed)) }

/-- As `sampleEnv`, but the cloud-init status check fails with `ErrCloudInitFailed` itself. -/
def cloudInitFailureEnv : Env :=
  { sampleEnv with CloudInitStatus := fun _ => (false, some ErrCloudInitFailed) }

/-- The calls a scan entered at `i` adds to the trace `old`, ending in `calls` with the
answer `r`: `CheckID` calls answered `(false, nil)` on ids outside `U`, then either
nothing more (the range is exhausted), or one call answered `(true, nil)`, or one call
answered with an error. `ordered id` says where the last id lies. -/
def ScanTrace (env : Env) (U : List Int) (old : List Call) (r : Int × Option GoError)
    (calls : List Call) (ordered : List Call → Int → Prop) : Prop :=
  ∃ falses, (∀ c ∈ falses, ∃ id, c = Call.CheckID id false none ∧ id ∉ U) ∧
    ((calls = old ++ falses ∧ r = (0, some ErrNoVMIDInRangeFree)) ∨
      (∃ id, calls = old ++ falses ++ [Call.CheckID id true none] ∧ r = (id, none) ∧
        id ∉ U ∧ ordered falses id) ∨
      (∃ id free err, calls = old ++ falses ++ [Call.CheckID id free (some err)] ∧
        r = (0, some err) ∧ id ∉ U ∧ env.CheckID id = (free, some err) ∧ ordered falses id))

/-- In a range that ends below the largest `int64`, the last id checked by a scan entered
at `i` is at least `i`, and the ids checked before it lie between `i` and it. -/
def ScanOrdered (e i : Int) (falses : List Call) (id : Int) : Prop :=
  e < maxInt64 → minInt64 ≤ i →
    i ≤ id ∧ ∀ c ∈ falses, ∃ id', c = Call.CheckID id' false none ∧ i ≤ id' ∧ id' < id

/-- As `sampleEnv`, but id 100 is taken and `CheckID` fails on every other id. -/
def checkErrorEnv : Env :=
  { sampleEnv with
    CheckID := fun id => if id = 100 then (false, none) else (false, some (.errorsNew "api down")) }

/-- As `sampleEnv`, but the lookup fails with `ErrVMNotInitialized`. -/
def notInitializedEnv : Env :=
  { sampleEnv with FindVM := fun sc => (sc.VirtualMachine, some ErrVMNotInitialized) }

/-- As `sampleState`, but no VMID range is configured. -/
def noRangeState : State :=
  { sampleState with scope.ProxmoxMachine.Spec.VMIDRange := none }

/-- As `sampleEnv`, but two sibling machines exist: one with the recorded id 100 and one
without a recorded id. -/
def siblingsEnv : Env :=
  { sampleEnv with
    ListProxmoxMachinesForCluster := fun _ =>
      ([{ sampleMachine with Spec.VirtualMachineID := some 100 }, sampleMachine], none) }

/-- A stopped, not yet ready machine whose desired cores differ from the observed ones and
whose observed memory, `2^32 + 4096`, differs from the desired 4096 by a multiple of
`2^32`. -/
def memoryWrapState : State :=
  { sampleState with
    scope.ProxmoxMachine.Spec.NumCores := 8
    scope.VirtualMachine.VirtualMachineConfig.Memory := 4294971392 }

/-- A stopped, not yet ready machine whose observed memory, 8192, differs from the desired
4096. -/
def memoryDiffersState : State :=
  { sampleState with scope.VirtualMachine.VirtualMachineConfig.Memory := 8192 }

/-- As `sampleEnv`, but the largest `int64` is reported taken and `CheckID` fails on every
other id. -/
def maxTakenCheckErrorEnv : Env :=
  { sampleEnv with
    CheckID := fun id =>
      if id = maxInt64 then (false, none) else (false, some (.errorsNew "api down")) }

/-! ## VMID allocation: properties -/

theorem wrapInt64_eq_self (x : Int) (h1 : minInt64 ≤ x) (h2 : x ≤ maxInt64) : wrapInt64 x = x := by
  unfold wrapInt64
  unfold minInt64 at h1
  unfold maxInt64 at h2
  omega

theorem ScanSpec_step (env : Env) (U : List Int) (e i : Int) (r : Int × Option GoError)
    (h : ScanSpec env U e (i + 1) r) (hi : i ∉ U → env.CheckID i = (false, none)) :
    ScanSpec env U e i r := by
  have key : ∀ k, i ≤ k → k = i ∨ i + 1 ≤ k := by intro k hk; omega
  rcases h with ⟨j, hr, h1, h2, h3, h4, h5⟩ | ⟨j, err, hr, h1, h2, h3, h4, h5⟩ | ⟨hr, h5⟩
  · refine Or.inl ⟨j, hr, by omega, h2, h3, h4, ?_⟩
    intro k hk hkj hkU
    rcases key k hk with rfl | hk'
    · exact hi hkU
    · exact h5 k hk' hkj hkU
  · refine Or.inr (Or.inl ⟨j, err, hr, by omega, h2, h3, h4, ?_⟩)
    intro k hk hkj hkU
    rcases key k hk with rfl | hk'
    · exact hi hkU
    · exact h5 k hk' hkj hkU
  · refine Or.inr (Or.inr ⟨hr, ?_⟩)
    intro k hk hke hkU
    rcases key k hk with rfl | hk'
    · exact hi hkU
    · exact h5 k hk' hke hkU

/-- For a range that ends below the largest `int64` the scan returns, given fuel for one
more condition test than ids are left, and its answer satisfies `ScanSpec`. -/
theorem scanVMIDRange_spec (env : Env) (U : List Int) (e : Int) (he : e < maxInt64) :
    ∀ (n fuel : Nat) (i : Int) (st : State), (e + 1 - i).toNat ≤ n → n < fuel → minInt64 ≤ i →
      ∃ r st', scanVMIDRange env U e fuel i st = some (r, st') ∧ ScanSpec env U e i r := by
  intro n
  induction n with
  | zero =>
    intro fuel i st hn hf hi
    obtain ⟨fuel', rfl⟩ : ∃ f, fuel = f + 1 := ⟨fuel - 1, by omega⟩
    have hlt : ¬ i ≤ e := by omega
    refine ⟨(0, some ErrNoVMIDInRangeFree), st, ?_, Or.inr (Or.inr ⟨rfl, ?_⟩)⟩
    · simp [scanVMIDRange, hlt]
    · intro k hk hke; omega
  | succ n ih =>
    intro fuel i st hn hf hi
    obtain ⟨fuel', rfl⟩ : ∃ f, fuel = f + 1 := ⟨fuel - 1, by omega⟩
    by_cases hle : i ≤ e
    · have hw : wrapInt64 (i + 1) = i + 1 :=
        wrapInt64_eq_self _ (by omega) (by omega)
      have hn' : (e + 1 - (i + 1)).toNat ≤ n := by omega
      by_cases hU : i ∈ U
      · obtain ⟨r, st', hr, hs⟩ := ih fuel' (i + 1) st hn' (by omega) (by omega)
        refine ⟨r, st', ?_, ScanSpec_step env U e i r hs (fun h => absurd hU h)⟩
        simp [scanVMIDRange, hle, hU, hw, hr]
      · rcases hc : env.CheckID i with ⟨free, _ | err⟩
        · cases free
          · obtain ⟨r, st', hr, hs⟩ :=
              ih fuel' (i + 1) (st.record (.CheckID i false none)) hn' (by omega) (by omega)
            refine ⟨r, st', ?_, ScanSpec_step env U e i r hs (fun _ => hc)⟩
            simp [scanVMIDRange, hle, hU, hw, hr, hc]
          · refine ⟨(i, none), st.record (.CheckID i true none), ?_,
              Or.inl ⟨i, rfl, le_refl _, hle, hU, hc, ?_⟩⟩
            · simp [scanVMIDRange, hle, hU, hc]
            · intro k hk hki; omega
        · refine ⟨(0, some err), st.record (.CheckID i free (some err)), ?_,
            Or.inr (Or.inl ⟨i, err, rfl, le_refl _, hle, hU, ?_, ?_⟩)⟩
          · simp [scanVMIDRange, hle, hU, hc]
          · simp [hc]
          · intro k hk hki; omega
    · refine ⟨(0, some ErrNoVMIDInRangeFree), st, ?_, Or.inr (Or.inr ⟨rfl, ?_⟩)⟩
      · simp [scanVMIDRange, hle]
      · intro k hk hke; omega

/-- After a successful listing, `getNextFreeVMIDfromRange` on a range of `int64` values
that ends below the largest one returns, and its answer satisfies `ScanSpec`. -/
theorem getNextFreeVMIDfromRange_spec (env : Env) (st st1 : State) (U : List Int)
    (vmIDRangeStart vmIDRangeEnd : Int)
    (hstart : minInt64 ≤ vmIDRangeStart) (hend : vmIDRangeEnd < maxInt64)
    (hU : getUsedVMIDs env st = ((U, none), st1)) :
    ∃ r st', getNextFreeVMIDfromRange env st vmIDRangeStart vmIDRangeEnd = some (r, st') ∧
      ScanSpec env U vmIDRangeEnd vmIDRangeStart r := by
  have hfuel : (vmIDRangeEnd + 1 - vmIDRangeStart).toNat < 2 ^ 64 := by
    unfold minInt64 at hstart
    unfold maxInt64 at hend
    omega
  obtain ⟨r, st', hr, hs⟩ := scanVMIDRange_spec env U vmIDRangeEnd hend
    (vmIDRangeEnd + 1 - vmIDRangeStart).toNat (2 ^ 64) vmIDRangeStart st1 (le_refl _) hfuel hstart
  refine ⟨r, st', ?_, hs⟩
  unfold getNextFreeVMIDfromRange
  rw [hU]
  exact hr

/-- Away from the overflow of the loop counter: for a range `[start, end]` of `int64`
values with `end` below the largest `int64`, a used-ID list `U` produced by `getUsedVMIDs`
and any `CheckID` oracle,
`getNextFreeVMIDfromRange` returns `(i, nil)` exactly when `i` is the least id of the range
that is not in `U` and for which `CheckID` answers `(true, nil)`, `CheckID` having answered
`(false, nil)` for every smaller id of the range outside `U`; when `CheckID` reports every
id available, that is the smallest element of the range outside `U`. -/
theorem getNextFreeVMIDfromRange_least_free (env : Env) (st st1 : State) (U : List Int)
    (vmIDRangeStart vmIDRangeEnd i : Int)
    (hstart : minInt64 ≤ vmIDRangeStart) (hend : vmIDRangeEnd < maxInt64)
    (hU : getUsedVMIDs env st = ((U, none), st1)) :
    ((∃ st', getNextFreeVMIDfromRange env st vmIDRangeStart vmIDRangeEnd = some ((i, none), st')) ↔
      (vmIDRangeStart ≤ i ∧ i ≤ vmIDRangeEnd ∧ i ∉ U ∧ env.CheckID i = (true, none) ∧
        ∀ k, vmIDRangeStart ≤ k → k < i → k ∉ U → env.CheckID k = (false, none))) ∧
    ((∀ k, env.CheckID k = (true, none)) →
      ((∃ st', getNextFreeVMIDfromRange env st vmIDRangeStart vmIDRangeEnd =
          some ((i, none), st')) ↔
        (vmIDRangeStart ≤ i ∧ i ≤ vmIDRangeEnd ∧ i ∉ U ∧
          ∀ k, vmIDRangeStart ≤ k → k < i → k ∈ U))) := by
  obtain ⟨r, st2, hr, hs⟩ :=
    getNextFreeVMIDfromRange_spec env st st1 U vmIDRangeStart vmIDRangeEnd hstart hend hU
  have main : (∃ st', getNextFreeVMIDfromRange env st vmIDRangeStart vmIDRangeEnd =
        some ((i, none), st')) ↔
      (vmIDRangeStart ≤ i ∧ i ≤ vmIDRangeEnd ∧ i ∉ U ∧ env.CheckID i = (true, none) ∧
        ∀ k, vmIDRangeStart ≤ k → k < i → k ∉ U → env.CheckID k = (false, none)) := by
    constructor
    · rintro ⟨st', h⟩
      rw [hr] at h
      have hri : r = (i, none) := by
        have := Option.some.inj h
        exact congrArg Prod.fst this
      rcases hs with ⟨j, hj, h1, h2, h3, h4, h5⟩ | ⟨j, err, hj, _⟩ | ⟨hj, _⟩
      · rw [hri] at hj
        have hij : i = j := congrArg Prod.fst hj
        subst hij
        exact ⟨h1, h2, h3, h4, h5⟩
      · rw [hri] at hj
        exact absurd (congrArg Prod.snd hj) (by simp)
      · rw [hri] at hj
        exact absurd (congrArg Prod.snd hj) (by simp)
    · rintro ⟨g1, g2, g3, g4, g5⟩
      refine ⟨st2, ?_⟩
      rw [hr]
      rcases hs with ⟨j, hj, h1, h2, h3, h4, h5⟩ | ⟨j, err, hj, h1, h2, h3, h4, h5⟩ | ⟨hj, h5⟩
      · have hij : j = i := by
          rcases lt_trichotomy j i with hlt | heq | hgt
          · have := g5 j h1 hlt h3
            rw [h4] at this
            exact absurd this (by simp)
          · exact heq
          · have := h5 i g1 hgt g3
            rw [g4] at this
            exact absurd this (by simp)
        rw [hj, hij]
      · exfalso
        rcases lt_trichotomy j i with hlt | heq | hgt
        · have := g5 j h1 hlt h3
          rw [this] at h4
          exact absurd h4 (by simp)
        · rw [heq, g4] at h4
          exact absurd h4 (by simp)
        · have := h5 i g1 hgt g3
          rw [g4] at this
          exact absurd this (by simp)
      · exfalso
        have := h5 i g1 g2 g3
        rw [g4] at this
        exact absurd this (by simp)
  refine ⟨main, fun hall => ?_⟩
  rw [main]
  constructor
  · rintro ⟨g1, g2, g3, _, g5⟩
    refine ⟨g1, g2, g3, fun k hk hki => ?_⟩
    by_contra hkU
    have := g5 k hk hki hkU
    rw [hall k] at this
    exact absurd this (by simp)
  · rintro ⟨g1, g2, g3, g5⟩
    exact ⟨g1, g2, g3, hall i, fun k hk hki hkU => absurd (g5 k hk hki) hkU⟩

/-- The least free id at a concrete input: range `{100, 102}`, no used id, every id
available, result 100. -/
theorem getNextFreeVMIDfromRange_least_free_witness :
    minInt64 ≤ 100 ∧ (102 : Int) < maxInt64 ∧
      getUsedVMIDs sampleEnv sampleState =
        (([], none), sampleState.record (.ListProxmoxMachinesForCluster [] none)) ∧
      ∃ st', getNextFreeVMIDfromRange sampleEnv sampleState 100 102 = some ((100, none), st') :=
  ⟨by decide, by decide, by rfl,
    ((getNextFreeVMIDfromRange_least_free sampleEnv sampleState _ [] 100 102 100 (by decide)
      (by decide) (by rfl)).1).2
      ⟨by decide, by decide, by simp, by rfl, fun k h1 h2 => by omega⟩⟩

/-- C1 at the failing input: on the range `[maxInt64, maxInt64]` with no used id, where
`CheckID` reports the largest `int64` taken and every other id free, the loop counter
wraps around and the call returns the smallest `int64`, which lies outside the range,
where the comment on the loop says "Get next free vmid from the range". -/
theorem getNextFreeVMIDfromRange_leaves_range :
    (getUsedVMIDs maxTakenEnv sampleState).1 = ([], none) ∧
      (getNextFreeVMIDfromRange maxTakenEnv sampleState maxInt64 maxInt64).map (fun r => r.1) =
        some (minInt64, none) ∧
      ¬ (maxInt64 ≤ minInt64 ∧ minInt64 ≤ maxInt64) := by
  refine ⟨by rfl, by decide, by decide⟩

/-- The two ways `getUsedVMIDs` ends: a list of ids without error, or the listing's error
with an empty list. -/
theorem getUsedVMIDs_cases (env : Env) (st : State) :
    (∃ U st1, getUsedVMIDs env st = ((U, none), st1) ∧
        (env.ListProxmoxMachinesForCluster st.scope).2 = none) ∨
    (∃ err st1, getUsedVMIDs env st = (([], some err), st1) ∧
        (env.ListProxmoxMachinesForCluster st.scope).2 = some err) := by
  unfold getUsedVMIDs
  rcases h : env.ListProxmoxMachinesForCluster st.scope with ⟨ms, _ | err⟩
  · exact Or.inl ⟨_, _, rfl, rfl⟩
  · exact Or.inr ⟨err, _, rfl, rfl⟩

/-- In a range that ends below the largest `int64`, a scan that answers an error answers
the id 0, and either the range is exhausted from `i` on and the error is
`ErrNoVMIDInRangeFree`, or the error is the one of the `CheckID` call on the first id of
the range outside `U` that was not reported taken, and that call is the last one made. -/
theorem scanVMIDRange_error_call (env : Env) (U : List Int) (e : Int) (he : e < maxInt64) :
    ∀ (fuel : Nat) (i : Int) (st : State) (v : Int) (err : GoError) (st' : State),
      minInt64 ≤ i → scanVMIDRange env U e fuel i st = some ((v, some err), st') →
      v = 0 ∧
      ((err = ErrNoVMIDInRangeFree ∧
          ∀ k, i ≤ k → k ≤ e → k ∉ U → env.CheckID k = (false, none)) ∨
        (∃ k free, i ≤ k ∧ k ≤ e ∧ k ∉ U ∧ env.CheckID k = (free, some err) ∧
          (∀ j, i ≤ j → j < k → j ∉ U → env.CheckID j = (false, none)) ∧
          ∃ pre, st'.calls = st.calls ++ pre ++ [Call.CheckID k free (some err)])) := by
  intro fuel
  induction fuel with
  | zero => intro i st v err st' _ h; simp [scanVMIDRange] at h
  | succ fuel ih =>
    intro i st v err st' hi h
    have key : ∀ k, i ≤ k → k = i ∨ i + 1 ≤ k := by intro k hk; omega
    by_cases hle : i ≤ e
    · have hw : wrapInt64 (i + 1) = i + 1 := wrapInt64_eq_self _ (by omega) (by omega)
      by_cases hU : i ∈ U
      · simp [scanVMIDRange, hle, hU, hw] at h
        obtain ⟨hv, hcase⟩ := ih (i + 1) st v err st' (by omega) h
        refine ⟨hv, ?_⟩
        rcases hcase with ⟨h1, h2⟩ | ⟨k, free, h1, h2, h3, h4, h5, h6⟩
        · refine Or.inl ⟨h1, fun k hk hke hkU => ?_⟩
          rcases key k hk with rfl | hk'
          · exact absurd hU hkU
          · exact h2 k hk' hke hkU
        · refine Or.inr ⟨k, free, by omega, h2, h3, h4, fun j hj hjk hjU => ?_, h6⟩
          rcases key j hj with rfl | hj'
          · exact absurd hU hjU
          · exact h5 j hj' hjk hjU
      · rcases hc : env.CheckID i with ⟨free, _ | err'⟩
        · cases free
          · simp [scanVMIDRange, hle, hU, hw, hc] at h
            obtain ⟨hv, hcase⟩ :=
              ih (i + 1) (st.record (.CheckID i false none)) v err st' (by omega) h
            refine ⟨hv, ?_⟩
            rcases hcase with ⟨h1, h2⟩ | ⟨k, free, h1, h2, h3, h4, h5, pre, h6⟩
            · refine Or.inl ⟨h1, fun k hk hke hkU => ?_⟩
              rcases key k hk with rfl | hk'
              · exact hc
              · exact h2 k hk' hke hkU
            · refine Or.inr ⟨k, free, by omega, h2, h3, h4, fun j hj hjk hjU => ?_,
                Call.CheckID i false none :: pre, ?_⟩
              · rcases key j hj with rfl | hj'
                · exact hc
                · exact h5 j hj' hjk hjU
              · rw [h6]; simp [State.record]
          · simp [scanVMIDRange, hle, hU, hc] at h
        · simp [scanVMIDRange, hle, hU, hc] at h
          obtain ⟨⟨hv, he'⟩, hst⟩ := h
          subst he'
          refine ⟨hv.symm, Or.inr ⟨i, free, le_refl _, hle, hU, hc,
            fun j hj hji => by omega, [], ?_⟩⟩
          rw [← hst]; simp [State.record]
    · simp [scanVMIDRange, hle] at h
      obtain ⟨⟨hv, he'⟩, _⟩ := h
      refine ⟨hv.symm, Or.inl ⟨he'.symm, fun k hk hke => by omega⟩⟩

/-- C2 (amended): for every range `[start, end]` of `int64` values with `end` below the
largest `int64` (also when `start > end`): if listing the sibling machines succeeds with
a used-ID list `U` and every id of the range is in `U` or reported not free by `CheckID`
without error, `getNextFreeVMIDfromRange` returns `(0, ErrNoVMIDInRangeFree)`; and when it
returns `ErrNoVMIDInRangeFree`, the id returned is 0 and either that is the case, or the
listing call itself failed with that error, or the scan reached an id `k` of the range
outside `U` (every id of the range before it being in `U` or reported not free without
error) on which the `CheckID` call itself failed with that error, that call being the
last call made. -/
theorem getNextFreeVMIDfromRange_exhausted (env : Env) (st : State)
    (vmIDRangeStart vmIDRangeEnd : Int)
    (hstart : minInt64 ≤ vmIDRangeStart) (hend : vmIDRangeEnd < maxInt64) :
    (∀ U st1, getUsedVMIDs env st = ((U, none), st1) →
      (∀ k, vmIDRangeStart ≤ k → k ≤ vmIDRangeEnd → k ∈ U ∨ env.CheckID k = (false, none)) →
      ∃ st', getNextFreeVMIDfromRange env st vmIDRangeStart vmIDRangeEnd =
        some ((0, some ErrNoVMIDInRangeFree), st')) ∧
    (∀ v st', getNextFreeVMIDfromRange env st vmIDRangeStart vmIDRangeEnd =
        some ((v, some ErrNoVMIDInRangeFree), st') →
      v = 0 ∧
      ((∃ U st1, getUsedVMIDs env st = ((U, none), st1) ∧
        ∀ k, vmIDRangeStart ≤ k → k ≤ vmIDRangeEnd → k ∈ U ∨ env.CheckID k = (false, none)) ∨
      (∃ ms, env.ListProxmoxMachinesForCluster st.scope = (ms, some ErrNoVMIDInRangeFree) ∧
        st'.calls = st.calls ++
          [Call.ListProxmoxMachinesForCluster ms (some ErrNoVMIDInRangeFree)]) ∨
      (∃ U st1 k free, getUsedVMIDs env st = ((U, none), st1) ∧
        vmIDRangeStart ≤ k ∧ k ≤ vmIDRangeEnd ∧ k ∉ U ∧
        env.CheckID k = (free, some ErrNoVMIDInRangeFree) ∧
        (∀ j, vmIDRangeStart ≤ j → j < k → j ∈ U ∨ env.CheckID j = (false, none)) ∧
        ∃ pre, st'.calls =
          st.calls ++ pre ++ [Call.CheckID k free (some ErrNoVMIDInRangeFree)]))) := by
  constructor
  · intro U st1 hU hex
    obtain ⟨r, st2, hr, hs⟩ :=
      getNextFreeVMIDfromRange_spec env st st1 U vmIDRangeStart vmIDRangeEnd hstart hend hU
    refine ⟨st2, ?_⟩
    rw [hr]
    rcases hs with ⟨j, _, h1, h2, h3, h4, _⟩ | ⟨j, err, _, h1, h2, h3, h4, _⟩ | ⟨hj, _⟩
    · exfalso
      rcases hex j h1 h2 with h | h
      · exact h3 h
      · rw [h4] at h
        exact absurd h (by simp)
    · exfalso
      rcases hex j h1 h2 with h | h
      · exact h3 h
      · rw [h] at h4
        exact absurd h4 (by simp)
    · rw [hj]
  · intro v st' h
    unfold getNextFreeVMIDfromRange at h
    rcases hl : env.ListProxmoxMachinesForCluster st.scope with ⟨ms, _ | lerr⟩
    · have hU : getUsedVMIDs env st =
          ((((ms.filter (fun m => m.GetVirtualMachineID != -1)).map
            ProxmoxMachine.GetVirtualMachineID), none),
            st.record (.ListProxmoxMachinesForCluster ms none)) := by
        simp [getUsedVMIDs, hl]
      rw [hU] at h
      simp only at h
      obtain ⟨hv, hcase⟩ := scanVMIDRange_error_call env _ vmIDRangeEnd hend _ _ _ _ _ _ hstart h
      refine ⟨hv, ?_⟩
      rcases hcase with ⟨_, h2⟩ | ⟨k, free, h1, h2, h3, h4, h5, pre, h6⟩
      · refine Or.inl ⟨_, _, hU, fun k hk1 hk2 => ?_⟩
        by_cases hkU : k ∈ (ms.filter (fun m => m.GetVirtualMachineID != -1)).map
            ProxmoxMachine.GetVirtualMachineID
        · exact Or.inl hkU
        · exact Or.inr (h2 k hk1 hk2 hkU)
      · refine Or.inr (Or.inr ⟨_, _, k, free, hU, h1, h2, h3, h4, fun j hj hjk => ?_,
          Call.ListProxmoxMachinesForCluster ms none :: pre, ?_⟩)
        · by_cases hjU : j ∈ (ms.filter (fun m => m.GetVirtualMachineID != -1)).map
              ProxmoxMachine.GetVirtualMachineID
          · exact Or.inl hjU
          · exact Or.inr (h5 j hj hjk hjU)
        · rw [h6]; simp [State.record]
    · have hU : getUsedVMIDs env st =
          (([], some lerr), st.record (.ListProxmoxMachinesForCluster ms (some lerr))) := by
        simp [getUsedVMIDs, hl]
      rw [hU] at h
      simp only [Option.some.injEq, Prod.mk.injEq] at h
      obtain ⟨⟨hv, he⟩, hst⟩ := h
      subst he
      refine ⟨hv.symm, Or.inr (Or.inl ⟨ms, rfl, ?_⟩)⟩
      rw [← hst]; simp [State.record]

/-- Witness of C2 (amended): range `{100, 102}`, no used id, `CheckID` reports every id
taken, and the call answers `ErrNoVMIDInRangeFree`. -/
theorem getNextFreeVMIDfromRange_exhausted_witness :
    minInt64 ≤ 100 ∧ (102 : Int) < maxInt64 ∧
      ∃ st', getNextFreeVMIDfromRange noneFreeEnv sampleState 100 102 =
        some ((0, some ErrNoVMIDInRangeFree), st') :=
  ⟨by decide, by decide,
    (getNextFreeVMIDfromRange_exhausted noneFreeEnv sampleState 100 102 (by decide)
      (by decide)).1 [] _ (by rfl) (fun _ _ _ => Or.inr rfl)⟩

/-- Counterexample to C2 as stated: on the range `[100, 102]` with no used id, where
`CheckID` itself fails with `ErrNoVMIDInRangeFree` on every id, the call returns that
error after the single check of id 100, although id 100 is neither used nor reported not
free without error: the range is not exhausted. -/
theorem getNextFreeVMIDfromRange_exhausted_counterexample :
    (getUsedVMIDs checkFailsEnv sampleState).1 = ([], none) ∧
      getNextFreeVMIDfromRange checkFailsEnv sampleState 100 102 =
        some ((0, some ErrNoVMIDInRangeFree),
          { scope := sampleScope,
            calls := [Call.ListProxmoxMachinesForCluster [] none,
              Call.CheckID 100 false (some ErrNoVMIDInRangeFree)] }) ∧
      ¬ ((100 : Int) ∈ ([] : List Int) ∨ checkFailsEnv.CheckID 100 = (false, none)) := by
  refine ⟨by decide, by decide, by decide⟩

/-- The overflow of the loop counter on an exhausted range: on the range
`[maxInt64, maxInt64]` whose only id is used by a sibling machine, the call does not
answer `ErrNoVMIDInRangeFree` but returns the smallest `int64`. -/
theorem getNextFreeVMIDfromRange_exhausted_wraps :
    (getUsedVMIDs maxUsedEnv sampleState).1 = ([maxInt64], none) ∧
      (getNextFreeVMIDfromRange maxUsedEnv sampleState maxInt64 maxInt64).map (fun r => r.1) =
        some (minInt64, none) := by
  refine ⟨by decide, by decide⟩

/-! ## Existence and creation: properties -/

theorem CloneTrace_prepend {old p : List Call} {resp : VMCloneResponse} {err : Option GoError}
    {calls : List Call} (h : CloneTrace (old ++ p) resp err calls)
    (hp : ∀ c ∈ p, c.isCloneVM = false ∧ c.isPatchObject = false) :
    CloneTrace old resp err calls := by
  obtain ⟨pre, hpre, h⟩ := h
  refine ⟨p ++ pre, ?_, ?_⟩
  · intro c hc
    rcases List.mem_append.mp hc with h1 | h1
    · exact hp c h1
    · exact hpre c h1
  · simpa [List.append_assoc] using h

/-- The scan leaves the scope alone and adds only `CheckID` calls to the trace. -/
theorem scanVMIDRange_frame (env : Env) (U : List Int) (e : Int) :
    ∀ (fuel : Nat) (i : Int) (st : State) (r : Int × Option GoError) (st' : State),
      scanVMIDRange env U e fuel i st = some (r, st') →
      st'.scope = st.scope ∧
        ∃ new, st'.calls = st.calls ++ new ∧
          ∀ c ∈ new, ∃ id free err, c = Call.CheckID id free err := by
  intro fuel
  induction fuel with
  | zero => intro i st r st' h; simp [scanVMIDRange] at h
  | succ fuel ih =>
    intro i st r st' h
    by_cases hle : i ≤ e
    · by_cases hU : i ∈ U
      · simp [scanVMIDRange, hle, hU] at h
        exact ih _ _ _ _ h
      · rcases hc : env.CheckID i with ⟨free, _ | err⟩
        · cases free
          · simp [scanVMIDRange, hle, hU, hc] at h
            obtain ⟨hs, new, hn, hall⟩ := ih _ _ _ _ h
            refine ⟨hs, Call.CheckID i false none :: new, ?_, ?_⟩
            · rw [hn]; simp [State.record]
            · intro c hc
              rcases List.mem_cons.mp hc with rfl | hc
              · exact ⟨_, _, _, rfl⟩
              · exact hall c hc
          · simp [scanVMIDRange, hle, hU, hc] at h
            rw [← h.2]
            refine ⟨rfl, [Call.CheckID i true none], rfl, ?_⟩
            intro c hc
            rw [List.mem_singleton.mp hc]
            exact ⟨_, _, _, rfl⟩
        · simp [scanVMIDRange, hle, hU, hc] at h
          rw [← h.2]
          refine ⟨rfl, [Call.CheckID i free (some err)], rfl, ?_⟩
          intro c hc
          rw [List.mem_singleton.mp hc]
          exact ⟨_, _, _, rfl⟩
    · simp [scanVMIDRange, hle] at h
      rw [← h.2]
      exact ⟨rfl, [], by simp, by simp⟩

/-- `getVMID` leaves the scope alone and adds only listing and `CheckID` calls. -/
theorem getVMID_frame (env : Env) (st : State) (r : Int × Option GoError) (st' : State)
    (h : getVMID env st = some (r, st')) :
    st'.scope = st.scope ∧
      ∃ new, st'.calls = st.calls ++ new ∧
        ∀ c ∈ new, c.isCloneVM = false ∧ c.isPatchObject = false := by
  have nothing : st = st' → st'.scope = st.scope ∧
      ∃ new, st'.calls = st.calls ++ new ∧
        ∀ c ∈ new, c.isCloneVM = false ∧ c.isPatchObject = false := by
    intro h; subst h; exact ⟨rfl, [], by simp, by simp⟩
  unfold getVMID at h
  split at h
  · split at h
    · unfold getNextFreeVMIDfromRange getUsedVMIDs at h
      rcases hl : env.ListProxmoxMachinesForCluster st.scope with ⟨ms, _ | err⟩
      · rw [hl] at h
        obtain ⟨hs, new, hn, hall⟩ := scanVMIDRange_frame _ _ _ _ _ _ _ _ h
        refine ⟨hs, Call.ListProxmoxMachinesForCluster ms none :: new, ?_, ?_⟩
        · rw [hn]; simp [State.record]
        · intro c hc
          rcases List.mem_cons.mp hc with rfl | hc
          · exact ⟨rfl, rfl⟩
          · obtain ⟨id, free, err, rfl⟩ := hall c hc
            exact ⟨rfl, rfl⟩
      · rw [hl] at h
        have h2 := Option.some.inj h
        have h3 : st' = st.record (Call.ListProxmoxMachinesForCluster ms (some err)) :=
          (congrArg Prod.snd h2).symm
        subst h3
        refine ⟨rfl, [_], rfl, ?_⟩
        intro c hc
        rw [List.mem_singleton.mp hc]
        exact ⟨rfl, rfl⟩
    · exact nothing (congrArg Prod.snd (Option.some.inj h))
  · exact nothing (congrArg Prod.snd (Option.some.inj h))

theorem cloneAndRecord_trace (env : Env) (st : State) (templateID : Int)
    (options : VMCloneRequest) :
    CloneTrace st.calls (cloneAndRecord env st templateID options).1.1
      (cloneAndRecord env st templateID options).1.2
      (cloneAndRecord env st templateID options).2.calls := by
  unfold cloneAndRecord
  rcases h : env.CloneVM templateID options with ⟨res, _ | e⟩
  · exact ⟨[], by simp, Or.inr (Or.inr ⟨templateID, options, by simp [State.record]⟩)⟩
  · exact ⟨[], by simp, Or.inr (Or.inl ⟨templateID, options, e, rfl, by simp [State.record]⟩)⟩

theorem resolveTemplateAndClone_trace (env : Env) (st : State) (options : VMCloneRequest) :
    CloneTrace st.calls (resolveTemplateAndClone env st options).1.1
      (resolveTemplateAndClone env st options).1.2
      (resolveTemplateAndClone env st options).2.calls := by
  unfold resolveTemplateAndClone
  simp only
  split
  · rcases h : env.FindVMTemplateByTags (env.GetTemplateSelectorTags st.scope.ProxmoxMachine)
      with ⟨node, templateID, _ | e⟩
    · refine CloneTrace_prepend (p := [Call.FindVMTemplateByTags _ node templateID none])
        (cloneAndRecord_trace env _ templateID _) ?_
      intro c hc
      rw [List.mem_singleton.mp hc]
      exact ⟨rfl, rfl⟩
    · refine ⟨[Call.FindVMTemplateByTags (env.GetTemplateSelectorTags st.scope.ProxmoxMachine)
        node templateID (some e)], ?_, Or.inl ⟨by simp, ?_⟩⟩
      · intro c hc
        rw [List.mem_singleton.mp hc]
        exact ⟨rfl, rfl⟩
      · simp only
        split <;> rfl
  · exact cloneAndRecord_trace env st _ options

theorem placeAndClone_trace (env : Env) (st : State) (vmid : Int) :
    CloneTrace st.calls (placeAndClone env st vmid).1.1 (placeAndClone env st vmid).1.2
      (placeAndClone env st vmid).2.calls := by
  unfold placeAndClone
  simp only
  have hcalls : (match st.scope.InfraCluster.ProxmoxCluster.Status.NodeLocations with
      | none => ({ st with scope.InfraCluster.ProxmoxCluster.Status.NodeLocations :=
                              some ⟨[], []⟩ } : State)
      | some _ => st).calls = st.calls := by
    split <;> rfl
  split
  · rcases h : env.selectNextNode _ with ⟨node, _ | e⟩
    · simp only
      refine CloneTrace_prepend (p := [Call.selectNextNode node none]) ?_ ?_
      · have := resolveTemplateAndClone_trace env
          ((match st.scope.InfraCluster.ProxmoxCluster.Status.NodeLocations with
            | none => ({ st with scope.InfraCluster.ProxmoxCluster.Status.NodeLocations :=
                                    some ⟨[], []⟩ } : State)
            | some _ => st).record (Call.selectNextNode node none))
          { cloneRequest env st.scope.ProxmoxMachine vmid with Target := node }
        simpa [State.record, hcalls] using this
      · intro c hc
        rw [List.mem_singleton.mp hc]
        exact ⟨rfl, rfl⟩
    · refine ⟨[Call.selectNextNode node (some e)], ?_, Or.inl ⟨by simp, ?_⟩⟩
      · intro c hc
        rw [List.mem_singleton.mp hc]
        exact ⟨rfl, rfl⟩
      · simp only
        split <;> simp [State.record, SetFailureReason, SetFailureMessage, hcalls]
  · have := resolveTemplateAndClone_trace env
      (match st.scope.InfraCluster.ProxmoxCluster.Status.NodeLocations with
        | none => ({ st with scope.InfraCluster.ProxmoxCluster.Status.NodeLocations :=
                                some ⟨[], []⟩ } : State)
        | some _ => st)
      (cloneRequest env st.scope.ProxmoxMachine vmid)
    rw [hcalls] at this
    exact this

/-- The calls of `createVM`: at most one `CloneVM`, after it only `PatchObject`. -/
theorem createVM_trace (env : Env) (st : State) (resp : VMCloneResponse)
    (err : Option GoError) (st' : State) (h : createVM env st = some ((resp, err), st')) :
    CloneTrace st.calls resp err st'.calls := by
  unfold createVM at h
  split at h
  · exact absurd h (by simp)
  · rename_i v e st1 hg
    obtain ⟨_, new, hn, hall⟩ := getVMID_frame env st _ _ hg
    have h2 := Option.some.inj h
    have hr : err = some e := (congrArg (fun x => x.1.2) h2).symm
    have hst : st'.calls = st1.calls := by
      have hst' : st' = _ := (congrArg Prod.snd h2).symm
      rw [hst']
      split <;> rfl
    exact ⟨new, hall, Or.inl ⟨by simp [hr], by rw [hst, hn]⟩⟩
  · rename_i vmid st1 hg
    obtain ⟨_, new, hn, hall⟩ := getVMID_frame env st _ _ hg
    have h2 := Option.some.inj h
    have := placeAndClone_trace env st1 vmid
    rw [h2, hn] at this
    exact CloneTrace_prepend this hall

theorem CloneTrace_count {old : List Call} {resp : VMCloneResponse} {err : Option GoError}
    {calls : List Call} (h : CloneTrace old resp err calls) :
    ∃ new, calls = old ++ new ∧ new.countP Call.isCloneVM ≤ 1 := by
  obtain ⟨pre, hpre, h⟩ := h
  have h0 : pre.countP Call.isCloneVM = 0 :=
    List.countP_eq_zero.mpr (fun c hc => by simp [(hpre c hc).1])
  rcases h with ⟨_, hc⟩ | ⟨t, o, e, _, hc⟩ | ⟨t, o, hc⟩
  · exact ⟨pre, hc, by omega⟩
  · exact ⟨pre ++ [Call.CloneVM t o resp (some e)], by simp [hc],
      by simp [List.countP_append, h0, Call.isCloneVM]⟩
  · exact ⟨pre ++ [Call.CloneVM t o resp none, Call.PatchObject err], by simp [hc],
      by simp [List.countP_append, List.countP_cons, h0, Call.isCloneVM]⟩

/-- A successful `CloneVM` and a successful `PatchObject` in the calls of `createVM` mean
that `createVM` answered the clone response without error. -/
theorem CloneTrace_success {old new : List Call} {resp res : VMCloneResponse}
    {err : Option GoError} {calls : List Call} {t : Int} {o : VMCloneRequest}
    (h : CloneTrace old resp err calls) (hnew : calls = old ++ new)
    (hclone : Call.CloneVM t o res none ∈ new) (hpatch : Call.PatchObject none ∈ new) :
    resp = res ∧ err = none := by
  obtain ⟨pre, hpre, h⟩ := h
  have notClone : Call.CloneVM t o res none ∉ pre := fun hc => by
    have := (hpre _ hc).1
    simp [Call.isCloneVM] at this
  have notPatch : Call.PatchObject none ∉ pre := fun hc => by
    have := (hpre _ hc).2
    simp [Call.isPatchObject] at this
  rcases h with ⟨_, hc⟩ | ⟨t', o', e, _, hc⟩ | ⟨t', o', hc⟩
  · rw [hnew] at hc
    have := List.append_cancel_left hc
    rw [this] at hclone
    exact absurd hclone notClone
  · rw [hnew, List.append_assoc] at hc
    have := List.append_cancel_left hc
    rw [this] at hclone
    rcases List.mem_append.mp hclone with h1 | h1
    · exact absurd h1 notClone
    · simp at h1
  · rw [hnew, List.append_assoc] at hc
    have := List.append_cancel_left hc
    rw [this] at hclone hpatch
    constructor
    · rcases List.mem_append.mp hclone with h1 | h1
      · exact absurd h1 notClone
      · simp at h1
        exact h1.2.2.symm
    · rcases List.mem_append.mp hpatch with h1 | h1
      · exact absurd h1 notPatch
      · simp at h1
        exact h1.symm

/-- The shapes of a return of `ensureVirtualMachine`: a return that made no `CloneVM`
call, or the creation path with the calls of `createVM` behind the lookup. -/
theorem ensureVirtualMachine_cases (env : Env) (st : State) (r : Bool × Option GoError)
    (st' : State) (h : ensureVirtualMachine env st = some (r, st')) :
    (∃ new, st'.calls = st.calls ++ new ∧ ∀ c ∈ new, c.isCloneVM = false) ∨
    (st.scope.ProxmoxMachine.Status.TaskRef = none ∧
      ∃ vmRef err resp cerr, env.FindVM st.scope = (vmRef, some err) ∧
        errorsIs err ErrVMNotFound = false ∧ errorsIs err ErrVMNotInitialized = false ∧
        errorsIs err ErrVMNotCreated = true ∧
        CloneTrace (st.calls ++ [Call.FindVM vmRef (some err)]) resp cerr st'.calls ∧
        ((cerr = none ∧ r = (true, none) ∧
            st'.scope.ProxmoxMachine.Status.TaskRef = some resp.Task.UPID ∧
            st'.scope.ProxmoxMachine.Spec.VirtualMachineID = some resp.NewID) ∨
          (∃ e, cerr = some e ∧ r = (false, some e)))) := by
  unfold ensureVirtualMachine at h
  split at h
  · have h2 : st' = st := (congrArg Prod.snd (Option.some.inj h)).symm
    subst h2
    exact Or.inl ⟨[], by simp, by simp⟩
  · rename_i hT
    have hT' : st.scope.ProxmoxMachine.Status.TaskRef = none := by
      by_contra hne; exact hT hne
    rcases hF : env.FindVM st.scope with ⟨vmRef, _ | err⟩
    · rw [hF] at h
      have h2 : st' = _ := (congrArg Prod.snd (Option.some.inj h)).symm
      subst h2
      refine Or.inl ⟨[Call.FindVM vmRef none], rfl, ?_⟩
      intro c hc
      rw [List.mem_singleton.mp hc]
      rfl
    · rw [hF] at h
      simp only at h
      by_cases h1 : errorsIs err ErrVMNotFound = true
      · rw [if_pos h1] at h
        rcases hL : env.updateVMLocation (st.record (Call.FindVM vmRef (some err))).scope
          with ⟨_ | e2, sc⟩
        · rw [hL] at h
          have h2 : st' = _ := (congrArg Prod.snd (Option.some.inj h)).symm
          subst h2
          refine Or.inl ⟨[Call.FindVM vmRef (some err), Call.updateVMLocation none],
            by simp [State.record], ?_⟩
          intro c hc
          simp at hc
          rcases hc with rfl | rfl <;> rfl
        · rw [hL] at h
          have h2 : st' = _ := (congrArg Prod.snd (Option.some.inj h)).symm
          subst h2
          refine Or.inl ⟨[Call.FindVM vmRef (some err), Call.updateVMLocation (some e2)],
            by simp [State.record], ?_⟩
          intro c hc
          simp at hc
          rcases hc with rfl | rfl <;> rfl
      · rw [if_neg h1] at h
        by_cases h2 : errorsIs err ErrVMNotInitialized = true
        · rw [if_pos h2] at h
          have h3 : st' = _ := (congrArg Prod.snd (Option.some.inj h)).symm
          subst h3
          refine Or.inl ⟨[Call.FindVM vmRef (some err)], rfl, ?_⟩
          intro c hc
          rw [List.mem_singleton.mp hc]
          rfl
        · rw [if_neg h2] at h
          by_cases h3 : errorsIs err ErrVMNotCreated = true
          · have h3' : ¬ ((!errorsIs err ErrVMNotCreated) = true) := by simp [h3]
            rw [if_neg h3'] at h
            split at h
            · exact absurd h (by simp)
            · rename_i resp' e3 st3 hc
              have htr := createVM_trace env _ _ _ _ hc
              have hr : r = (false, some e3) := (congrArg Prod.fst (Option.some.inj h)).symm
              have hs : st' = _ := (congrArg Prod.snd (Option.some.inj h)).symm
              refine Or.inr ⟨hT', vmRef, err, resp', some e3, rfl, by simpa using h1,
                by simpa using h2, h3, ?_, Or.inr ⟨e3, rfl, hr⟩⟩
              rw [hs]
              have hcalls : ∀ s : State, (if (!conditionsHas s.scope.ProxmoxMachine.Status.Conditions
                  VMProvisionedCondition) = true then
                    MarkFalse s VMProvisionedCondition CloningReason ConditionSeverityInfo ""
                  else s).calls = s.calls := by
                intro s; split <;> rfl
              rw [hcalls] at htr
              exact htr
            · rename_i resp' st3 hc
              have htr := createVM_trace env _ _ _ _ hc
              have hr : r = (true, none) := (congrArg Prod.fst (Option.some.inj h)).symm
              have hs : st' = _ := (congrArg Prod.snd (Option.some.inj h)).symm
              refine Or.inr ⟨hT', vmRef, err, resp', none, rfl, by simpa using h1,
                by simpa using h2, h3, ?_, Or.inl ⟨rfl, hr, ?_, ?_⟩⟩
              · rw [hs]
                have hcalls : ∀ s : State,
                    (if (!conditionsHas s.scope.ProxmoxMachine.Status.Conditions
                      VMProvisionedCondition) = true then
                        MarkFalse s VMProvisionedCondition CloningReason ConditionSeverityInfo ""
                      else s).calls = s.calls := by
                  intro s; split <;> rfl
                rw [hcalls] at htr
                exact htr
              · rw [hs]; rfl
              · rw [hs]; rfl
          · have h3' : ((!errorsIs err ErrVMNotCreated) = true) := by simpa using h3
            rw [if_pos h3'] at h
            have h4 : st' = _ := (congrArg Prod.snd (Option.some.inj h)).symm
            subst h4
            refine Or.inl ⟨[Call.FindVM vmRef (some err)], rfl, ?_⟩
            intro c hc
            rw [List.mem_singleton.mp hc]
            rfl

/-- C3: `ensureVirtualMachine` issues at most one `CloneVM` call per invocation, and one
only when `Status.TaskRef` is nil and `FindVM` failed with an error matching
`ErrVMNotCreated`; with a task reference recorded it returns `(true, nil)` and leaves the
scope and the trace as they were (no `FindVM`, no `CloneVM`); and when `FindVM` fails
with `ErrVMNotFound` or `ErrVMNotInitialized` it returns without a `CloneVM` call. -/
theorem ensureVirtualMachine_clone_once (env : Env) (st : State) :
    (∀ r st', ensureVirtualMachine env st = some (r, st') →
      ∃ new, st'.calls = st.calls ++ new ∧ new.countP Call.isCloneVM ≤ 1 ∧
        (0 < new.countP Call.isCloneVM →
          st.scope.ProxmoxMachine.Status.TaskRef = none ∧
          ∃ err, (env.FindVM st.scope).2 = some err ∧ errorsIs err ErrVMNotCreated = true)) ∧
    (st.scope.ProxmoxMachine.Status.TaskRef ≠ none →
      ensureVirtualMachine env st = some ((true, none), st)) ∧
    (∀ err, (env.FindVM st.scope).2 = some err →
      (errorsIs err ErrVMNotFound = true ∨ errorsIs err ErrVMNotInitialized = true) →
      ∃ r st', ensureVirtualMachine env st = some (r, st') ∧
        ∃ new, st'.calls = st.calls ++ new ∧ new.countP Call.isCloneVM = 0) := by
  have noClone : ∀ {new : List Call}, (∀ c ∈ new, c.isCloneVM = false) →
      new.countP Call.isCloneVM = 0 :=
    fun h => List.countP_eq_zero.mpr (fun c hc => by simp [h c hc])
  refine ⟨?_, ?_, ?_⟩
  · intro r st' h
    rcases ensureVirtualMachine_cases env st r st' h with
      ⟨new, hn, hall⟩ | ⟨hT, vmRef, err, resp, cerr, hF, _, _, h3, htr, _⟩
    · exact ⟨new, hn, by rw [noClone hall]; omega, by rw [noClone hall]; omega⟩
    · obtain ⟨new, hn, hc⟩ := CloneTrace_count htr
      refine ⟨Call.FindVM vmRef (some err) :: new, by simp [hn], ?_, ?_⟩
      · simpa [List.countP_cons, Call.isCloneVM] using hc
      · intro _
        exact ⟨hT, err, by rw [hF], h3⟩
  · intro hT
    unfold ensureVirtualMachine
    rw [if_pos hT]
  · intro err hF hIs
    by_cases hT : st.scope.ProxmoxMachine.Status.TaskRef ≠ none
    · refine ⟨(true, none), st, ?_, [], by simp, by simp⟩
      unfold ensureVirtualMachine
      rw [if_pos hT]
    · have hret : ∃ r st', ensureVirtualMachine env st = some (r, st') := by
        unfold ensureVirtualMachine
        rw [if_neg hT]
        rcases hF' : env.FindVM st.scope with ⟨vmRef, e⟩
        rw [hF'] at hF
        simp only at hF
        subst hF
        simp only
        by_cases h1 : errorsIs err ErrVMNotFound = true
        · rw [if_pos h1]
          rcases env.updateVMLocation (st.record (Call.FindVM vmRef (some err))).scope
            with ⟨_ | e2, sc⟩
          · exact ⟨_, _, rfl⟩
          · exact ⟨_, _, rfl⟩
        · rw [if_neg h1]
          have h2 : errorsIs err ErrVMNotInitialized = true := by
            rcases hIs with h | h
            · exact absurd h h1
            · exact h
          rw [if_pos h2]
          exact ⟨_, _, rfl⟩
      obtain ⟨r, st', h⟩ := hret
      refine ⟨r, st', h, ?_⟩
      rcases ensureVirtualMachine_cases env st r st' h with
        ⟨new, hn, hall⟩ | ⟨_, vmRef, err', _, _, hF', h1, h2, _⟩
      · exact ⟨new, hn, noClone hall⟩
      · rw [hF'] at hF
        have : err' = err := Option.some.inj hF
        subst this
        rcases hIs with h | h
        · rw [h1] at h; exact absurd h (by simp)
        · rw [h2] at h; exact absurd h (by simp)

/-- Witness of C3: the creation from `sampleState` makes one `CloneVM` call; with a task
reference recorded the call returns `(true, nil)` and changes nothing. -/
theorem ensureVirtualMachine_clone_once_witness :
    (∃ st', ensureVirtualMachine sampleEnv sampleState = some ((true, none), st') ∧
      st'.calls = sampleState.calls ++ sampleCreationCalls ∧
      sampleCreationCalls.countP Call.isCloneVM = 1) ∧
    ensureVirtualMachine sampleEnv inFlightState = some ((true, none), inFlightState) :=
  ⟨⟨_, rfl, by decide, by decide⟩,
    (ensureVirtualMachine_clone_once sampleEnv inFlightState).2.1 (by decide)⟩

/-- C4 (amended): on every return of `ensureVirtualMachine` whose calls contain a `CloneVM`
call that succeeded and a `PatchObject` call that succeeded, the machine's
`Status.TaskRef` is the UPID of the clone task, its virtual machine ID is the `NewID` of
the clone response, and the result is `(true, nil)`. -/
theorem ensureVirtualMachine_clone_recorded (env : Env) (st : State)
    (r : Bool × Option GoError) (st' : State) (new : List Call) (templateID : Int)
    (options : VMCloneRequest) (res : VMCloneResponse)
    (h : ensureVirtualMachine env st = some (r, st'))
    (hnew : st'.calls = st.calls ++ new)
    (hclone : Call.CloneVM templateID options res none ∈ new)
    (hpatch : Call.PatchObject none ∈ new) :
    st'.scope.ProxmoxMachine.Status.TaskRef = some res.Task.UPID ∧
      st'.scope.ProxmoxMachine.Spec.VirtualMachineID = some res.NewID ∧
      r = (true, none) := by
  rcases ensureVirtualMachine_cases env st r st' h with
    ⟨new', hn, hall⟩ | ⟨_, vmRef, err, resp, cerr, _, _, _, _, htr, hres⟩
  · rw [hnew] at hn
    have := List.append_cancel_left hn
    rw [this] at hclone
    have := hall _ hclone
    simp [Call.isCloneVM] at this
  · have hnew' : st'.calls = (st.calls ++ [Call.FindVM vmRef (some err)]) ++
        new.tail := by
      obtain ⟨new2, hn2, _⟩ := CloneTrace_count htr
      rw [hnew, List.append_assoc] at hn2
      have := List.append_cancel_left hn2
      rw [hnew, this]
      simp
    have hmem : ∀ c, c ∈ new → c.isCloneVM = true ∨ c.isPatchObject = true → c ∈ new.tail := by
      obtain ⟨new2, hn2, _⟩ := CloneTrace_count htr
      rw [hnew, List.append_assoc] at hn2
      have := List.append_cancel_left hn2
      intro c hc hk
      rw [this] at hc ⊢
      simp only [List.singleton_append, List.tail_cons]
      rcases List.mem_cons.mp hc with rfl | hc
      · simp [Call.isCloneVM, Call.isPatchObject] at hk
      · exact hc
    obtain ⟨hresp, hcerr⟩ := CloneTrace_success htr hnew'
      (hmem _ hclone (Or.inl rfl)) (hmem _ hpatch (Or.inr rfl))
    rcases hres with ⟨_, hr, h1, h2⟩ | ⟨e, he, _⟩
    · rw [← hresp]
      exact ⟨h1, h2, hr⟩
    · rw [he] at hcerr
      exact absurd hcerr (by simp)

/-- Witness of C4 (amended): `VMIDRange{100,102}`, no used id, a successful clone and a
successful patch give the task reference, the id 100 and a requeue without error. -/
theorem ensureVirtualMachine_clone_recorded_witness :
    ∃ st', ensureVirtualMachine sampleEnv sampleState = some ((true, none), st') ∧
      st'.calls = sampleState.calls ++ sampleCreationCalls ∧
      Call.CloneVM 9000 sampleCloneRequest sampleCloneResponse none ∈ sampleCreationCalls ∧
      Call.PatchObject none ∈ sampleCreationCalls ∧
      st'.scope.ProxmoxMachine.Status.TaskRef = some "UPID:clone" ∧
      st'.scope.ProxmoxMachine.Spec.VirtualMachineID = some 100 :=
  ⟨_, rfl, by decide, by decide, by decide,
    (ensureVirtualMachine_clone_recorded sampleEnv sampleState (true, none) _
      sampleCreationCalls 9000 sampleCloneRequest sampleCloneResponse rfl (by decide)
      (by decide) (by decide)).1,
    (ensureVirtualMachine_clone_recorded sampleEnv sampleState (true, none) _
      sampleCreationCalls 9000 sampleCloneRequest sampleCloneResponse rfl (by decide)
      (by decide) (by decide)).2.1⟩

/-- Counterexample to C4 as stated: `CloneVM` succeeds on the creation path from
`sampleState`, but persisting the cluster object fails; `ensureVirtualMachine` then
returns that error without requeue and records neither the task reference nor the id. -/
theorem ensureVirtualMachine_clone_not_recorded :
    (ensureVirtualMachine patchFailsEnv sampleState).map
        (fun x => (x.1, x.2.scope.ProxmoxMachine.Status.TaskRef,
          x.2.scope.ProxmoxMachine.Spec.VirtualMachineID,
          x.2.calls.filter Call.isCloneVM)) =
      some ((false, some (.errorsNew "patch failed")), none, none,
        [Call.CloneVM 9000 sampleCloneRequest sampleCloneResponse none]) := by
  decide

/-! ## Orchestrator: properties -/

/-- `ReconcileVM` runs the ten stages in order and stops at the first one that answers
an error or a requeue. -/
theorem ReconcileVM_eq_runStages (env : Env) (st : State) :
    ReconcileVM env st =
      (runStages (stages env) st).map (viewOf st.scope.ProxmoxMachine.Name) := by
  unfold ReconcileVM
  simp only [stages, runStages, disksStage, machineAddressesStage, unmountStage, viewOf]
  rcases h1 : callReconcileInFlightTask env st with ⟨⟨b1, e1⟩, st1⟩
  by_cases c1 : e1 ≠ none ∨ b1 = true
  · rcases c1 with c | c <;> simp [c, viewOf]
  simp only [c1, if_false]
  rcases h2 : ensureVirtualMachine env st1 with _ | ⟨⟨b2, e2⟩, st2⟩
  · simp
  by_cases c2 : e2 ≠ none ∨ b2 = true
  · rcases c2 with c | c <;> simp [c, viewOf]
  simp only [c2, if_false]
  rcases h3 : reconcileVirtualMachineConfig env st2 with ⟨⟨b3, e3⟩, st3⟩
  by_cases c3 : e3 ≠ none ∨ b3 = true
  · rcases c3 with c | c <;> simp [c, viewOf]
  simp only [c3, if_false]
  rcases h4 : reconcileDisks env st3 with ⟨e4, st4⟩
  by_cases c4 : e4 ≠ none
  · simp [c4, viewOf]
  simp only [c4, if_false, false_or, Bool.false_eq_true]
  rcases h5 : callReconcileIPAddresses env st4 with ⟨⟨b5, e5⟩, st5⟩
  by_cases c5 : e5 ≠ none ∨ b5 = true
  · rcases c5 with c | c <;> simp [c, viewOf]
  simp only [c5, if_false]
  rcases h6 : callReconcileBootstrapData env st5 with ⟨⟨b6, e6⟩, st6⟩
  by_cases c6 : e6 ≠ none ∨ b6 = true
  · rcases c6 with c | c <;> simp [c, viewOf]
  simp only [c6, if_false]
  rcases h7 : callReconcilePowerState env st6 with ⟨⟨b7, e7⟩, st7⟩
  by_cases c7 : e7 ≠ none ∨ b7 = true
  · rcases c7 with c | c <;> simp [c, viewOf]
  simp only [c7, if_false]
  rcases h8 : reconcileMachineAddresses env st7 with ⟨e8, st8⟩
  by_cases c8 : e8 ≠ none
  · simp [c8, viewOf]
  simp only [c8, if_false, false_or, Bool.false_eq_true]
  rcases h9 : checkCloudInitStatus env st8 with ⟨⟨b9, e9⟩, st9⟩
  by_cases c9 : e9 ≠ none ∨ b9 = true
  · rcases c9 with c | c <;> simp [c, viewOf]
  simp only [c9, if_false]
  by_cases c10 : unmountRequired st9
  · have c10' := c10
    unfold unmountRequired at c10'
    rcases h10 : unmountCloudInitISO env st9 with ⟨_ | e10, st10⟩
    · simp [c10, c10', viewOf]
    · simp [c10, c10', viewOf]
  · have c10' := c10
    unfold unmountRequired at c10'
    simp [c10, c10', viewOf]

theorem runStages_pass_iff (l : List Stage) :
    ∀ st st', runStages l st = some ((false, none), st') ↔ passAll l st st' := by
  induction l with
  | nil =>
    intro st st'
    simp [runStages, passAll, eq_comm]
  | cons s rest ih =>
    intro st st'
    unfold runStages passAll
    rcases hs : s st with _ | ⟨⟨b, e⟩, st1⟩
    · simp
    · by_cases c : e ≠ none ∨ b = true
      · dsimp only
        rw [if_pos c]
        constructor
        · intro h
          have h2 := congrArg Prod.fst (Option.some.inj h)
          have hb : b = false := congrArg Prod.fst h2
          have he : e = none := congrArg Prod.snd h2
          rcases c with c | c
          · exact absurd he c
          · rw [hb] at c; exact absurd c (by simp)
        · rintro ⟨st2, h, _⟩
          have h2 := congrArg Prod.fst (Option.some.inj h)
          have hb : b = false := congrArg Prod.fst h2
          have he : e = none := congrArg Prod.snd h2
          rcases c with c | c
          · exact absurd he c
          · rw [hb] at c; exact absurd c (by simp)
      · dsimp only
        rw [if_neg c]
        have hb : b = false := by
          cases b
          · rfl
          · exact absurd (Or.inr rfl) c
        have he : e = none := by
          by_contra hne; exact c (Or.inl hne)
        subst hb he
        rw [ih]
        constructor
        · intro h; exact ⟨st1, rfl, h⟩
        · rintro ⟨st2, h, hp⟩
          have : st1 = st2 := congrArg Prod.snd (Option.some.inj h)
          rw [this]; exact hp

theorem runStages_stop (pre : List Stage) (s : Stage) (post : List Stage) :
    ∀ (st st1 st2 : State) (r : Bool × Option GoError), passAll pre st st1 →
      s st1 = some (r, st2) → (r.2 ≠ none ∨ r.1 = true) →
      runStages (pre ++ s :: post) st = some (r, st2) := by
  induction pre with
  | nil =>
    intro st st1 st2 r hp hs hstop
    have : st1 = st := hp
    subst this
    simp only [List.nil_append, runStages, hs]
    rw [if_pos hstop]
  | cons p pre ih =>
    intro st st1 st2 r hp hs hstop
    obtain ⟨st0, h0, hp'⟩ := hp
    simp only [List.cons_append, runStages, h0]
    rw [if_neg (by simp)]
    exact ih st0 st1 st2 r hp' hs hstop

/-- C6 (amended): `ReconcileVM` is the run of the stages task tracker, existence/creation,
configuration, disks, IP addresses, bootstrap data, power state, machine addresses,
cloud-init, unmount, in this order; the first stage that answers an error or a requeue
ends the call with a Pending view, that stage's error and the state that stage left (no
later stage runs), where the error of the unmount stage is the client's error wrapped
with the message "failed to unmount cloud-init iso for vm" and the machine's name; and
when the task tracker reports an error or a pending task, the only call made is the one
to the tracker. -/
theorem ReconcileVM_first_stop_wins (env : Env) (st : State) :
    ReconcileVM env st =
        (runStages (stages env) st).map (viewOf st.scope.ProxmoxMachine.Name) ∧
    (∀ pre s post st1 r st2, stages env = pre ++ s :: post → passAll pre st st1 →
      s st1 = some (r, st2) → (r.2 ≠ none ∨ r.1 = true) →
      ReconcileVM env st =
        some (({ Name := st.scope.ProxmoxMachine.Name, State := .Pending }, r.2), st2)) ∧
    (∀ st9 e, unmountRequired st9 →
      env.UnmountCloudInitISO st9.scope.VirtualMachine CloudInitISODevice = some e →
      unmountStage env st9 =
        some ((false, some (.wrap ("failed to unmount cloud-init iso for vm " ++
            st9.scope.ProxmoxMachine.Name) e)),
          st9.record
            (Call.UnmountCloudInitISO st9.scope.VirtualMachine CloudInitISODevice (some e)))) ∧
    (∀ inFlight err sc, env.ReconcileInFlightTask st.scope = ((inFlight, err), sc) →
      (err ≠ none ∨ inFlight = true) →
      ReconcileVM env st =
        some (({ Name := st.scope.ProxmoxMachine.Name, State := .Pending }, err),
          { scope := sc, calls := st.calls ++ [Call.ReconcileInFlightTask inFlight err] })) := by
  refine ⟨ReconcileVM_eq_runStages env st, ?_, ?_, ?_⟩
  · intro pre s post st1 r st2 hsplit hp hs hstop
    rw [ReconcileVM_eq_runStages, hsplit, runStages_stop pre s post st st1 st2 r hp hs hstop]
    have : ¬ (r.1 = false ∧ r.2 = none) := by
      rintro ⟨h1, h2⟩
      rcases hstop with h | h
      · exact h h2
      · rw [h1] at h; exact absurd h (by simp)
    simp [viewOf, this]
  · intro st9 e hreq hu
    unfold unmountStage unmountCloudInitISO
    rw [if_pos hreq]
    simp only [hu]
    rfl
  · intro inFlight err sc htask hstop
    unfold ReconcileVM callReconcileInFlightTask
    rw [htask]
    simp only
    rw [if_pos hstop]

/-- Witness of C6 (amended): with a task in flight on `sampleState` the call returns a
Pending view without error after the single call to the tracker. -/
theorem ReconcileVM_first_stop_wins_witness :
    ReconcileVM pendingTaskEnv sampleState =
      some (({ Name := "machine-0", State := .Pending }, none),
        { scope := sampleScope, calls := [Call.ReconcileInFlightTask true none] }) :=
  (ReconcileVM_first_stop_wins pendingTaskEnv sampleState).2.2.2 true none sampleScope rfl
    (Or.inr rfl)

/-- Counterexample to C6 as stated: every stage before the unmount passes, the unmount
fails with the client's error "unmount failed", and `ReconcileVM` returns another error,
the one that wraps it. -/
theorem ReconcileVM_unmount_error_wrapped :
    unmountFailsEnv.UnmountCloudInitISO runningVM CloudInitISODevice =
        some (.errorsNew "unmount failed") ∧
      (ReconcileVM unmountFailsEnv joinedState).map (fun x => x.1) =
        some ({ Name := "machine-0", State := .Pending },
          some (.wrap "failed to unmount cloud-init iso for vm machine-0"
            (.errorsNew "unmount failed"))) ∧
      GoError.wrap "failed to unmount cloud-init iso for vm machine-0"
          (.errorsNew "unmount failed") ≠ .errorsNew "unmount failed" := by
  refine ⟨by rfl, by decide, by decide⟩

theorem callReconcileInFlightTask_pass (env : Env) (st st1 : State) :
    callReconcileInFlightTask env st = ((false, none), st1) ↔
      ∃ sc, env.ReconcileInFlightTask st.scope = ((false, none), sc) ∧
        st1 = { scope := sc, calls := st.calls ++ [Call.ReconcileInFlightTask false none] } := by
  unfold callReconcileInFlightTask
  rcases env.ReconcileInFlightTask st.scope with ⟨⟨b, e⟩, sc⟩
  constructor
  · intro h
    simp only [Prod.mk.injEq] at h
    obtain ⟨⟨hb, he⟩, hs⟩ := h
    subst hb he
    exact ⟨sc, rfl, hs.symm⟩
  · rintro ⟨sc', h, hs⟩
    simp only [Prod.mk.injEq] at h
    obtain ⟨⟨hb, he⟩, hsc⟩ := h
    subst hb he hsc hs
    rfl

theorem callReconcileIPAddresses_pass (env : Env) (st st1 : State) :
    callReconcileIPAddresses env st = ((false, none), st1) ↔
      ∃ sc, env.reconcileIPAddresses st.scope = ((false, none), sc) ∧
        st1 = { scope := sc, calls := st.calls ++ [Call.reconcileIPAddresses false none] } := by
  unfold callReconcileIPAddresses
  rcases env.reconcileIPAddresses st.scope with ⟨⟨b, e⟩, sc⟩
  constructor
  · intro h
    simp only [Prod.mk.injEq] at h
    obtain ⟨⟨hb, he⟩, hs⟩ := h
    subst hb he
    exact ⟨sc, rfl, hs.symm⟩
  · rintro ⟨sc', h, hs⟩
    simp only [Prod.mk.injEq] at h
    obtain ⟨⟨hb, he⟩, hsc⟩ := h
    subst hb he hsc hs
    rfl

theorem callReconcileBootstrapData_pass (env : Env) (st st1 : State) :
    callReconcileBootstrapData env st = ((false, none), st1) ↔
      ∃ sc, env.reconcileBootstrapData st.scope = ((false, none), sc) ∧
        st1 = { scope := sc, calls := st.calls ++ [Call.reconcileBootstrapData false none] } := by
  unfold callReconcileBootstrapData
  rcases env.reconcileBootstrapData st.scope with ⟨⟨b, e⟩, sc⟩
  constructor
  · intro h
    simp only [Prod.mk.injEq] at h
    obtain ⟨⟨hb, he⟩, hs⟩ := h
    subst hb he
    exact ⟨sc, rfl, hs.symm⟩
  · rintro ⟨sc', h, hs⟩
    simp only [Prod.mk.injEq] at h
    obtain ⟨⟨hb, he⟩, hsc⟩ := h
    subst hb he hsc hs
    rfl

theorem callReconcilePowerState_pass (env : Env) (st st1 : State) :
    callReconcilePowerState env st = ((false, none), st1) ↔
      ∃ sc, env.reconcilePowerState st.scope = ((false, none), sc) ∧
        st1 = { scope := sc, calls := st.calls ++ [Call.reconcilePowerState false none] } := by
  unfold callReconcilePowerState
  rcases env.reconcilePowerState st.scope with ⟨⟨b, e⟩, sc⟩
  constructor
  · intro h
    simp only [Prod.mk.injEq] at h
    obtain ⟨⟨hb, he⟩, hs⟩ := h
    subst hb he
    exact ⟨sc, rfl, hs.symm⟩
  · rintro ⟨sc', h, hs⟩
    simp only [Prod.mk.injEq] at h
    obtain ⟨⟨hb, he⟩, hsc⟩ := h
    subst hb he hsc hs
    rfl

theorem disksStage_pass (env : Env) (st st1 : State) :
    disksStage env st = some ((false, none), st1) ↔ reconcileDisks env st = (none, st1) := by
  unfold disksStage
  rcases reconcileDisks env st with ⟨e, s⟩
  simp

theorem machineAddressesStage_pass (env : Env) (st st1 : State) :
    machineAddressesStage env st = some ((false, none), st1) ↔
      reconcileMachineAddresses env st = (none, st1) := by
  unfold machineAddressesStage
  rcases reconcileMachineAddresses env st with ⟨e, s⟩
  simp

/-- What passing all stages of `stages env` means in terms of the collaborators: the
answers of the task tracker, of the stages of `vm.go` and of the sibling reconcilers, each
on the scope and trace the stage before it left. -/
theorem passAll_stages_iff (env : Env) (st st' : State) :
    passAll (stages env) st st' ↔
      ∃ sc1 st2 st3 st4 sc5 sc6 sc7 st8 st9,
        env.ReconcileInFlightTask st.scope = ((false, none), sc1) ∧
        ensureVirtualMachine env
          { scope := sc1, calls := st.calls ++ [Call.ReconcileInFlightTask false none] } =
            some ((false, none), st2) ∧
        reconcileVirtualMachineConfig env st2 = ((false, none), st3) ∧
        reconcileDisks env st3 = (none, st4) ∧
        env.reconcileIPAddresses st4.scope = ((false, none), sc5) ∧
        env.reconcileBootstrapData sc5 = ((false, none), sc6) ∧
        env.reconcilePowerState sc6 = ((false, none), sc7) ∧
        reconcileMachineAddresses env
          { scope := sc7,
            calls := st4.calls ++ [Call.reconcileIPAddresses false none,
              Call.reconcileBootstrapData false none, Call.reconcilePowerState false none] } =
            (none, st8) ∧
        checkCloudInitStatus env st8 = ((false, none), st9) ∧
        ((¬ unmountRequired st9 ∧ st' = st9) ∨
          (unmountRequired st9 ∧
            env.UnmountCloudInitISO st9.scope.VirtualMachine CloudInitISODevice = none ∧
            st' = st9.record
              (Call.UnmountCloudInitISO st9.scope.VirtualMachine CloudInitISODevice none))) := by
  have hum : ∀ st9 st10, unmountStage env st9 = some ((false, none), st10) ↔
      (¬ unmountRequired st9 ∧ st10 = st9) ∨
      (unmountRequired st9 ∧
        env.UnmountCloudInitISO st9.scope.VirtualMachine CloudInitISODevice = none ∧
        st10 = st9.record
          (Call.UnmountCloudInitISO st9.scope.VirtualMachine CloudInitISODevice none)) := by
    intro st9 st10
    unfold unmountStage unmountCloudInitISO
    by_cases c : unmountRequired st9
    · rw [if_pos c]
      rcases hu : env.UnmountCloudInitISO st9.scope.VirtualMachine CloudInitISODevice
        with _ | e
      · simp [c, eq_comm]
      · simp [c]
    · rw [if_neg c]
      simp [c, eq_comm]
  simp only [stages, passAll]
  constructor
  · rintro ⟨s1, h1, s2, h2, s3, h3, s4, h4, s5, h5, s6, h6, s7, h7, s8, h8, s9, h9, s10, h10,
      hst⟩
    subst hst
    obtain ⟨sc1, ht, hs1⟩ := (callReconcileInFlightTask_pass env st s1).mp (Option.some.inj h1)
    subst hs1
    have h3' := Option.some.inj h3
    have h4' := (disksStage_pass env s3 s4).mp h4
    obtain ⟨sc5, hi, hs5⟩ := (callReconcileIPAddresses_pass env s4 s5).mp (Option.some.inj h5)
    subst hs5
    obtain ⟨sc6, hbs, hs6⟩ := (callReconcileBootstrapData_pass env _ s6).mp (Option.some.inj h6)
    subst hs6
    obtain ⟨sc7, hp, hs7⟩ := (callReconcilePowerState_pass env _ s7).mp (Option.some.inj h7)
    subst hs7
    have h8' := (machineAddressesStage_pass env _ s8).mp h8
    refine ⟨sc1, s2, s3, s4, sc5, sc6, sc7, s8, s9, ht, h2, h3', h4', hi, hbs, hp, ?_,
      Option.some.inj h9, (hum _ _).mp h10⟩
    rw [← h8']
    simp
  · rintro ⟨sc1, st2, st3, st4, sc5, sc6, sc7, st8, st9, h1, h2, h3, h4, h5, h6, h7, h8, h9,
      h10⟩
    have e8 : reconcileMachineAddresses env
          { scope := sc7,
            calls := st4.calls ++ [Call.reconcileIPAddresses false none] ++
              [Call.reconcileBootstrapData false none] ++
              [Call.reconcilePowerState false none] } = (none, st8) := by
      rw [← h8]
      simp
    exact ⟨_, congrArg some ((callReconcileInFlightTask_pass env st _).mpr ⟨sc1, h1, rfl⟩),
      st2, h2, st3, congrArg some h3, st4, (disksStage_pass env st3 st4).mpr h4,
      _, congrArg some ((callReconcileIPAddresses_pass env st4 _).mpr ⟨sc5, h5, rfl⟩),
      _, congrArg some ((callReconcileBootstrapData_pass env _ _).mpr ⟨sc6, h6, rfl⟩),
      _, congrArg some ((callReconcilePowerState_pass env _ _).mpr ⟨sc7, h7, rfl⟩),
      st8, (machineAddressesStage_pass env _ st8).mpr e8, st9, congrArg some h9, st',
      (hum _ _).mpr h10, rfl⟩

/-- C5: `ReconcileVM` returns a Ready view with a nil error exactly when the task tracker,
asked on the scope given, answers no pending task and no error; `ensureVirtualMachine`,
`reconcileVirtualMachineConfig` and `reconcileDisks` then answer no requeue and no error;
the sibling reconcilers `reconcileIPAddresses`, `reconcileBootstrapData` and
`reconcilePowerState`, each asked on the scope the stage before left, answer no requeue
and no error; `reconcileMachineAddresses` and `checkCloudInitStatus` answer no requeue and
no error; and the unmount of the cloud-init ISO is not required or the client call
succeeds. The state returned is the one the last stage left, its trace holding the calls
of the tracker and the sibling reconcilers. Every other return has the state Pending, and
the returned name is the scope's name. -/
theorem ReconcileVM_ready_iff (env : Env) (st : State) :
    (∀ st', ReconcileVM env st =
        some (({ Name := st.scope.ProxmoxMachine.Name, State := .Ready }, none), st') ↔
      ∃ sc1 st2 st3 st4 sc5 sc6 sc7 st8 st9,
        env.ReconcileInFlightTask st.scope = ((false, none), sc1) ∧
        ensureVirtualMachine env
          { scope := sc1, calls := st.calls ++ [Call.ReconcileInFlightTask false none] } =
            some ((false, none), st2) ∧
        reconcileVirtualMachineConfig env st2 = ((false, none), st3) ∧
        reconcileDisks env st3 = (none, st4) ∧
        env.reconcileIPAddresses st4.scope = ((false, none), sc5) ∧
        env.reconcileBootstrapData sc5 = ((false, none), sc6) ∧
        env.reconcilePowerState sc6 = ((false, none), sc7) ∧
        reconcileMachineAddresses env
          { scope := sc7,
            calls := st4.calls ++ [Call.reconcileIPAddresses false none,
              Call.reconcileBootstrapData false none, Call.reconcilePowerState false none] } =
            (none, st8) ∧
        checkCloudInitStatus env st8 = ((false, none), st9) ∧
        ((¬ unmountRequired st9 ∧ st' = st9) ∨
          (unmountRequired st9 ∧
            env.UnmountCloudInitISO st9.scope.VirtualMachine CloudInitISODevice = none ∧
            st' = st9.record
              (Call.UnmountCloudInitISO st9.scope.VirtualMachine CloudInitISODevice none)))) ∧
    (∀ v err st', ReconcileVM env st = some ((v, err), st') →
      v.Name = st.scope.ProxmoxMachine.Name ∧
      ((v.State = .Ready ∧ err = none) ∨ v.State = .Pending)) := by
  constructor
  · intro st'
    rw [← passAll_stages_iff, ← runStages_pass_iff, ReconcileVM_eq_runStages]
    rcases hr : runStages (stages env) st with _ | ⟨⟨b, e⟩, st1⟩
    · simp
    · simp only [Option.map_some', viewOf, Option.some.injEq, Prod.mk.injEq]
      constructor
      · rintro ⟨⟨hv, he⟩, hst⟩
        have hs := congrArg VirtualMachineView.State hv
        simp only at hs
        by_cases c : b = false ∧ e = none
        · exact ⟨⟨c.1, c.2⟩, hst⟩
        · rw [if_neg c] at hs
          exact absurd hs (by decide)
      · rintro ⟨⟨hb, he⟩, hst⟩
        subst hb he hst
        simp
  · intro v err st' h
    rw [ReconcileVM_eq_runStages] at h
    rcases hr : runStages (stages env) st with _ | ⟨⟨b, e⟩, st1⟩
    · rw [hr] at h; simp at h
    · rw [hr] at h
      simp only [Option.map_some', viewOf, Option.some.injEq, Prod.mk.injEq] at h
      obtain ⟨⟨hv, he⟩, hst⟩ := h
      subst hv he hst
      refine ⟨rfl, ?_⟩
      by_cases c : b = false ∧ e = none
      · exact Or.inl ⟨by simp [c], c.2⟩
      · exact Or.inr (by simp [c])

/-- Witness of C5: when the lookup finds the VM running and every collaborator succeeds,
`ReconcileVM` on `sampleState` returns a Ready view under the machine's name, after the
calls of the tracker, the lookup, the three sibling reconcilers and the two cloud-init
checks. -/
theorem ReconcileVM_ready_iff_witness :
    ∃ st', ReconcileVM readyEnv sampleState =
        some (({ Name := "machine-0", State := .Ready }, none), st') ∧
      st'.calls = [Call.ReconcileInFlightTask false none, Call.FindVM runningVM none,
        Call.reconcileIPAddresses false none, Call.reconcileBootstrapData false none,
        Call.reconcilePowerState false none, Call.QemuAgentStatus runningVM none,
        Call.CloudInitStatus runningVM false none] := by
  refine ⟨_, ((ReconcileVM_ready_iff readyEnv sampleState).1 _).mpr
    ⟨_, _, _, _, _, _, _, _, _, rfl, rfl, rfl, rfl, rfl, rfl, rfl, rfl, rfl,
      Or.inl ⟨by decide, rfl⟩⟩, ?_⟩
  decide

/-! ## Configuration: properties -/

theorem splitChars_ne_nil (sep : Char) (cs : List Char) : splitChars sep cs ≠ [] := by
  cases cs with
  | nil => simp [splitChars]
  | cons c cs =>
    unfold splitChars
    split
    · simp
    · split <;> simp

theorem stringsSplit_ne_nil (s : String) : stringsSplit s ≠ [] := by
  unfold stringsSplit
  simp [splitChars_ne_nil]

theorem dedupKeepFirst_filter (p : String → Bool) (l : List String) :
    dedupKeepFirst (l.filter p) = (dedupKeepFirst l).filter p := by
  induction l with
  | nil => simp [dedupKeepFirst]
  | cons x l ih =>
    by_cases hp : p x = true
    · simp only [List.filter_cons, hp, if_true, dedupKeepFirst, ih, List.filter_filter]
      congr 1
      apply List.filter_congr
      intro y _
      exact Bool.and_comm _ _
    · have hp' : p x = false := by simpa using hp
      simp only [List.filter_cons, hp', Bool.false_eq_true, if_false, dedupKeepFirst, ih,
        List.filter_filter]
      apply List.filter_congr
      intro y _
      by_cases hy : p y = true
      · have : y ≠ x := fun h => hp (h ▸ hy)
        simp [hy, this]
      · simp [hy]

/-- With a non-empty `Tags` string and a filled `TagsSlice`, `HasTag` is membership in
`TagsSlice` and leaves the VM alone. -/
theorem HasTag_eq (vm : VirtualMachine) (hT : vm.VirtualMachineConfig.Tags ≠ "")
    (hS : vm.VirtualMachineConfig.TagsSlice ≠ []) (value : String) :
    vm.HasTag value = (decide (value ∈ vm.VirtualMachineConfig.TagsSlice), vm) := by
  unfold VirtualMachine.HasTag
  simp [hT, hS]

/-- With a non-empty `Tags` string, the tag loop appends the absent tags, each once. -/
theorem appendMissingTags_eq (tags : List String) :
    ∀ vm : VirtualMachine, vm.VirtualMachineConfig.Tags ≠ "" →
      vm.VirtualMachineConfig.TagsSlice ≠ [] →
      appendMissingTags tags vm =
        { vm with VirtualMachineConfig.TagsSlice :=
                    vm.VirtualMachineConfig.TagsSlice ++
                      absentTags vm.VirtualMachineConfig.TagsSlice tags } := by
  induction tags with
  | nil => intro vm _ _; simp [appendMissingTags, absentTags, dedupKeepFirst]
  | cons t rest ih =>
    intro vm hT hS
    unfold appendMissingTags
    rw [HasTag_eq vm hT hS t]
    by_cases ht : t ∈ vm.VirtualMachineConfig.TagsSlice
    · simp only [ht, decide_True]
      rw [ih vm hT hS]
      simp [absentTags, ht]
    · simp only [ht, decide_False]
      have hstep := ih { vm with VirtualMachineConfig.TagsSlice :=
                                  vm.VirtualMachineConfig.TagsSlice ++ [t] } hT (by simp)
      rw [hstep]
      have hfilter : rest.filter (fun x => decide (x ∉ vm.VirtualMachineConfig.TagsSlice ++ [t])) =
          (rest.filter (fun x => decide (x ∉ vm.VirtualMachineConfig.TagsSlice))).filter
            (fun x => x != t) := by
        rw [List.filter_filter]
        apply List.filter_congr
        intro y _
        by_cases h1 : y ∈ vm.VirtualMachineConfig.TagsSlice <;> by_cases h2 : y = t <;>
          simp [h1, h2]
      simp only [absentTags, List.filter_cons, ht, not_false_eq_true, decide_True, if_true,
        dedupKeepFirst, hfilter, dedupKeepFirst_filter, List.append_assoc,
        List.singleton_append]

theorem absentTags_eq_nil_iff (observed desired : List String) :
    absentTags observed desired = [] ↔ ∀ t ∈ desired, t ∈ observed := by
  unfold absentTags
  constructor
  · intro h t ht
    by_contra hno
    have hmem : t ∈ desired.filter (fun t => decide (t ∉ observed)) := by
      simp [List.mem_filter, ht, hno]
    cases hl : desired.filter (fun t => decide (t ∉ observed)) with
    | nil => rw [hl] at hmem; simp at hmem
    | cons a l => rw [hl] at h; simp [dedupKeepFirst] at h
  · intro h
    have : desired.filter (fun t => decide (t ∉ observed)) = [] := by
      rw [List.filter_eq_nil_iff]
      intro t ht
      simp [h t ht]
    rw [this]
    rfl

theorem tagOptions_eq (spec : ProxmoxMachineSpec) (vm : VirtualMachine)
    (hT : vm.VirtualMachineConfig.Tags ≠ "") :
    (tagOptions spec vm).1 =
      if absentTags (observedTags vm.VirtualMachineConfig.Tags) (spec.Tags.getD []) = [] then []
      else [{ Name := optionTags,
              Value := .str (stringsJoin (observedTags vm.VirtualMachineConfig.Tags ++
                absentTags (observedTags vm.VirtualMachineConfig.Tags) (spec.Tags.getD []))) }] := by
  unfold tagOptions observedTags
  rw [if_neg hT]
  cases hs : spec.Tags with
  | none => simp [absentTags, dedupKeepFirst]
  | some tags =>
    simp only [Option.getD_some]
    rw [appendMissingTags_eq tags vm.SplitTags hT
      (by simp [VirtualMachine.SplitTags, stringsSplit_ne_nil])]
    simp only [VirtualMachine.SplitTags, List.length_append]
    by_cases ha : absentTags (stringsSplit vm.VirtualMachineConfig.Tags) tags = []
    · simp [ha]
    · have : 0 < (absentTags (stringsSplit vm.VirtualMachineConfig.Tags) tags).length :=
        List.length_pos.mpr ha
      simp [ha, this]

/-- C8 (amended): for every non-empty observed semicolon-joined tag string and every
desired tag list, the option list of `reconcileVirtualMachineConfig` ends with a `tags`
option exactly when some desired tag is absent from the observed tags, and then its
value is the observed tags in their original order followed by each absent desired tag
once, in desired order, joined by `;`: no observed tag is removed. -/
theorem buildVMOptions_tags (env : Env) (sc : MachineScope)
    (hobs : sc.VirtualMachine.VirtualMachineConfig.Tags ≠ "") :
    (buildVMOptions env sc).1 =
        cpuMemoryOptions sc.ProxmoxMachine.Spec sc.VirtualMachine.VirtualMachineConfig ++
          descriptionOptions sc.ProxmoxMachine.Spec sc.VirtualMachine.VirtualMachineConfig ++
          networkOptions env sc ++
          (if absentTags (observedTags sc.VirtualMachine.VirtualMachineConfig.Tags)
              (sc.ProxmoxMachine.Spec.Tags.getD []) = [] then []
            else [{ Name := optionTags,
                    Value := .str (stringsJoin
                      (observedTags sc.VirtualMachine.VirtualMachineConfig.Tags ++
                        absentTags (observedTags sc.VirtualMachine.VirtualMachineConfig.Tags)
                          (sc.ProxmoxMachine.Spec.Tags.getD []))) }]) ∧
      (absentTags (observedTags sc.VirtualMachine.VirtualMachineConfig.Tags)
          (sc.ProxmoxMachine.Spec.Tags.getD []) = [] ↔
        ∀ t ∈ sc.ProxmoxMachine.Spec.Tags.getD [],
          t ∈ observedTags sc.VirtualMachine.VirtualMachineConfig.Tags) := by
  refine ⟨?_, absentTags_eq_nil_iff _ _⟩
  unfold buildVMOptions
  simp only
  rw [tagOptions_eq _ _ hobs]

/-- Witness of C8 (amended): desired `[a, b]`, observed `a;c` give the value `a;c;b`. -/
theorem buildVMOptions_tags_witness :
    tagsState.scope.VirtualMachine.VirtualMachineConfig.Tags ≠ "" ∧
      (buildVMOptions sampleEnv tagsState.scope).1 =
        [{ Name := "tags", Value := .str "a;c;b" }] :=
  ⟨by decide,
    ((buildVMOptions_tags sampleEnv tagsState.scope (by decide)).1).trans (by decide)⟩

/-- Counterexample to C8 as stated: on a VM whose observed tag string is empty, the
desired tag `a` gives the value `;a` and not `a`, and the tag `a` desired twice is
appended twice. -/
theorem buildVMOptions_tags_empty_observed :
    (buildVMOptions sampleEnv untaggedScope).1 = [{ Name := "tags", Value := .str ";a" }] ∧
      stringsJoin (observedTags "" ++ absentTags (observedTags "") ["a"]) = "a" ∧
      (buildVMOptions sampleEnv untaggedTwiceScope).1 =
        [{ Name := "tags", Value := .str ";a;a" }] := by
  refine ⟨by decide, by decide, by decide⟩

/-- What `reconcileVirtualMachineConfig` does on a VM that is neither running nor ready:
nothing when the option list is empty, one `ConfigureVM` call with the list otherwise. -/
theorem reconcileVirtualMachineConfig_eq (env : Env) (st : State)
    (hrun : st.scope.VirtualMachine.Running = false)
    (hready : st.scope.ProxmoxMachine.Status.Ready = false) :
    reconcileVirtualMachineConfig env st =
      if (buildVMOptions env st.scope).1 = [] then
        ((false, none), { st with scope := (buildVMOptions env st.scope).2 })
      else
        match env.ConfigureVM (buildVMOptions env st.scope).2.VirtualMachine
            (buildVMOptions env st.scope).1 with
        | (task, some err) =>
          ((false, some (.wrap ("failed to configure VM " ++ st.scope.ProxmoxMachine.Name) err)),
            { scope := (buildVMOptions env st.scope).2,
              calls := st.calls ++ [Call.ConfigureVM (buildVMOptions env st.scope).2.VirtualMachine
                (buildVMOptions env st.scope).1 task (some err)] })
        | (task, none) =>
          ((true, none),
            { scope :=
                { (buildVMOptions env st.scope).2 with
                  ProxmoxMachine.Status.TaskRef := some task.UPID },
              calls := st.calls ++ [Call.ConfigureVM (buildVMOptions env st.scope).2.VirtualMachine
                (buildVMOptions env st.scope).1 task none] }) := by
  unfold reconcileVirtualMachineConfig
  rw [if_neg (by simp [hrun, hready])]
  rcases hb : buildVMOptions env st.scope with ⟨opts, sc1⟩
  have hname : sc1.ProxmoxMachine.Name = st.scope.ProxmoxMachine.Name := by
    have : sc1 = (buildVMOptions env st.scope).2 := by rw [hb]
    rw [this]; rfl
  simp only [List.length_eq_zero]
  by_cases ho : opts = []
  · simp [ho]
  · simp only [ho, if_false]
    rcases env.ConfigureVM sc1.VirtualMachine opts with ⟨task, _ | err⟩ <;>
      simp [State.record, hname]

/-- C10: whenever `reconcileVirtualMachineConfig` builds a non-empty option list, it makes
exactly one `ConfigureVM` call, carrying all options; when the call succeeds the task's
UPID becomes `Status.TaskRef` and the result is `(true, nil)`; when it fails the result
is `(false, err)` with `err` wrapping the client's error, and `Status.TaskRef` stays. -/
theorem reconcileVirtualMachineConfig_configures_once (env : Env) (st : State)
    (opts : List VirtualMachineOption) (sc1 : MachineScope) (task : Task)
    (cerr : Option GoError)
    (hrun : st.scope.VirtualMachine.Running = false)
    (hready : st.scope.ProxmoxMachine.Status.Ready = false)
    (hbuild : buildVMOptions env st.scope = (opts, sc1)) (hne : opts ≠ [])
    (hcall : env.ConfigureVM sc1.VirtualMachine opts = (task, cerr)) :
    (reconcileVirtualMachineConfig env st).2.calls =
        st.calls ++ [Call.ConfigureVM sc1.VirtualMachine opts task cerr] ∧
      (cerr = none →
        (reconcileVirtualMachineConfig env st).1 = (true, none) ∧
        (reconcileVirtualMachineConfig env st).2.scope.ProxmoxMachine.Status.TaskRef =
          some task.UPID) ∧
      (∀ e, cerr = some e →
        (reconcileVirtualMachineConfig env st).1 =
          (false, some (.wrap ("failed to configure VM " ++ st.scope.ProxmoxMachine.Name) e)) ∧
        errorsIs (.wrap ("failed to configure VM " ++ st.scope.ProxmoxMachine.Name) e) e = true ∧
        (reconcileVirtualMachineConfig env st).2.scope.ProxmoxMachine.Status.TaskRef =
          st.scope.ProxmoxMachine.Status.TaskRef) := by
  have htask : sc1.ProxmoxMachine = st.scope.ProxmoxMachine := by
    have : sc1 = (buildVMOptions env st.scope).2 := by rw [hbuild]
    rw [this]; rfl
  have hself : ∀ e : GoError, errorsIs e e = true := by
    intro e; cases e <;> simp [errorsIs]
  rw [reconcileVirtualMachineConfig_eq env st hrun hready, hbuild]
  simp only [hne, if_false, hcall]
  cases cerr with
  | none => simp
  | some e =>
    refine ⟨rfl, by simp, ?_⟩
    intro e' he
    have : e = e' := Option.some.inj he
    subst this
    exact ⟨rfl, by simp [errorsIs, hself], by simp [htask]⟩

/-- Witness of C10: eight desired cores against four observed ones give one `ConfigureVM`
call with the `cores` option, the task reference and a requeue. -/
theorem reconcileVirtualMachineConfig_configures_once_witness :
    (reconcileVirtualMachineConfig sampleEnv coresDifferState).2.calls =
        [Call.ConfigureVM sampleVM [{ Name := "cores", Value := .int 8 }]
          { ID := "config", UPID := "UPID:config" } none] ∧
      (reconcileVirtualMachineConfig sampleEnv coresDifferState).1 = (true, none) ∧
      (reconcileVirtualMachineConfig sampleEnv coresDifferState).2.scope.ProxmoxMachine.Status.TaskRef
        = some "UPID:config" :=
  have h := reconcileVirtualMachineConfig_configures_once sampleEnv coresDifferState
    [{ Name := "cores", Value := .int 8 }] coresDifferState.scope
    { ID := "config", UPID := "UPID:config" } none (by decide) (by decide) (by decide)
    (by decide) rfl
  ⟨h.1, (h.2.1 rfl).1, (h.2.1 rfl).2⟩

theorem tagOptions_value_str (spec : ProxmoxMachineSpec) (vm : VirtualMachine) :
    ∀ o ∈ (tagOptions spec vm).1, ∃ s, o.Value = .str s := by
  intro o ho
  unfold tagOptions at ho
  split at ho
  · simp only at ho
    split at ho
    · rw [List.mem_singleton.mp ho]; exact ⟨_, rfl⟩
    · simp at ho
  · simp at ho

/-- An option with an integer value is in the option list exactly when the "CPU & Memory"
block put it there: the other blocks add string values only. -/
theorem mem_buildVMOptions_int (env : Env) (sc : MachineScope) (name : String) (v : Int) :
    ({ Name := name, Value := .int v } : VirtualMachineOption) ∈ (buildVMOptions env sc).1 ↔
      ({ Name := name, Value := .int v } : VirtualMachineOption) ∈
        cpuMemoryOptions sc.ProxmoxMachine.Spec sc.VirtualMachine.VirtualMachineConfig := by
  unfold buildVMOptions
  simp only [List.mem_append]
  constructor
  · rintro (((h | h) | h) | h)
    · exact h
    · exfalso
      unfold descriptionOptions at h
      split at h
      · split at h
        · simp at h
        · simp at h
      · simp at h
    · exfalso
      unfold networkOptions at h
      split at h
      · split at h
        · simp at h
        · simp at h
      · simp at h
    · exfalso
      obtain ⟨s, hs⟩ := tagOptions_value_str _ _ _ h
      simp at hs
  · intro h
    exact Or.inl (Or.inl (Or.inl h))

/-- An option is in the list of the `ConfigureVM` call that `reconcileVirtualMachineConfig`
makes exactly when it is in the option list built. -/
theorem mem_configure_call_iff (env : Env) (st : State)
    (hrun : st.scope.VirtualMachine.Running = false)
    (hready : st.scope.ProxmoxMachine.Status.Ready = false) (o : VirtualMachineOption) :
    (∃ vm opts task err, (reconcileVirtualMachineConfig env st).2.calls =
        st.calls ++ [Call.ConfigureVM vm opts task err] ∧ o ∈ opts) ↔
      o ∈ (buildVMOptions env st.scope).1 := by
  rw [reconcileVirtualMachineConfig_eq env st hrun hready]
  by_cases ho : (buildVMOptions env st.scope).1 = []
  · rw [if_pos ho, ho]
    simp
  · rw [if_neg ho]
    rcases hc : env.ConfigureVM (buildVMOptions env st.scope).2.VirtualMachine
      (buildVMOptions env st.scope).1 with ⟨task, _ | e⟩
    · simp only [List.append_cancel_left_eq, List.cons.injEq, Call.ConfigureVM.injEq, and_true]
      constructor
      · rintro ⟨vm, opts, task', err, ⟨_, h2, _, _⟩, hmem⟩
        rw [h2]; exact hmem
      · intro h
        exact ⟨_, _, task, none, ⟨rfl, rfl, rfl, rfl⟩, h⟩
    · simp only [List.append_cancel_left_eq, List.cons.injEq, Call.ConfigureVM.injEq, and_true]
      constructor
      · rintro ⟨vm, opts, task', err, ⟨_, h2, _, _⟩, hmem⟩
        rw [h2]; exact hmem
      · intro h
        exact ⟨_, _, task, some e, ⟨rfl, rfl, rfl, rfl⟩, h⟩

/-- C9: on a VM that is neither running nor ready, the `ConfigureVM` call of
`reconcileVirtualMachineConfig` carries a `sockets`, `cores` or `memory` option exactly
when the desired value is greater than 0 and differs from the observed value, and the
option's value is the desired value; for memory the observed value is compared after its
conversion to a 32-bit integer, the value `(m + 2^31) mod 2^32 - 2^31` for an observed
`m`. -/
theorem reconcileVirtualMachineConfig_cpu_memory (env : Env) (st : State) (v : Int)
    (hrun : st.scope.VirtualMachine.Running = false)
    (hready : st.scope.ProxmoxMachine.Status.Ready = false) :
    ((∃ vm opts task err, (reconcileVirtualMachineConfig env st).2.calls =
          st.calls ++ [Call.ConfigureVM vm opts task err] ∧
          { Name := optionSockets, Value := .int v } ∈ opts) ↔
        (v = st.scope.ProxmoxMachine.Spec.NumSockets ∧
          st.scope.ProxmoxMachine.Spec.NumSockets > 0 ∧
          st.scope.VirtualMachine.VirtualMachineConfig.Sockets ≠
            st.scope.ProxmoxMachine.Spec.NumSockets)) ∧
    ((∃ vm opts task err, (reconcileVirtualMachineConfig env st).2.calls =
          st.calls ++ [Call.ConfigureVM vm opts task err] ∧
          { Name := optionCores, Value := .int v } ∈ opts) ↔
        (v = st.scope.ProxmoxMachine.Spec.NumCores ∧
          st.scope.ProxmoxMachine.Spec.NumCores > 0 ∧
          st.scope.VirtualMachine.VirtualMachineConfig.Cores ≠
            st.scope.ProxmoxMachine.Spec.NumCores)) ∧
    ((∃ vm opts task err, (reconcileVirtualMachineConfig env st).2.calls =
          st.calls ++ [Call.ConfigureVM vm opts task err] ∧
          { Name := optionMemory, Value := .int v } ∈ opts) ↔
        (v = st.scope.ProxmoxMachine.Spec.MemoryMiB ∧
          st.scope.ProxmoxMachine.Spec.MemoryMiB > 0 ∧
          (st.scope.VirtualMachine.VirtualMachineConfig.Memory + 2 ^ 31) % 2 ^ 32 - 2 ^ 31 ≠
            st.scope.ProxmoxMachine.Spec.MemoryMiB)) := by
  simp only [mem_configure_call_iff env st hrun hready, mem_buildVMOptions_int]
  unfold cpuMemoryOptions toInt32
  simp only [optionSockets, optionCores, optionMemory, List.mem_append]
  refine ⟨?_, ?_, ?_⟩
  · constructor
    · rintro ((h | h) | h)
      · split at h
        · rename_i hc
          simp at h
          exact ⟨h, hc.1, hc.2⟩
        · simp at h
      · split at h <;> simp at h
      · split at h <;> simp at h
    · rintro ⟨h1, h2, h3⟩
      exact Or.inl (Or.inl (by rw [if_pos ⟨h2, h3⟩, h1]; simp))
  · constructor
    · rintro ((h | h) | h)
      · split at h <;> simp at h
      · split at h
        · rename_i hc
          simp at h
          exact ⟨h, hc.1, hc.2⟩
        · simp at h
      · split at h <;> simp at h
    · rintro ⟨h1, h2, h3⟩
      exact Or.inl (Or.inr (by rw [if_pos ⟨h2, h3⟩, h1]; simp))
  · constructor
    · rintro ((h | h) | h)
      · split at h <;> simp at h
      · split at h <;> simp at h
      · split at h
        · rename_i hc
          simp at h
          exact ⟨h, hc.1, hc.2⟩
        · simp at h
    · rintro ⟨h1, h2, h3⟩
      exact Or.inr (by rw [if_pos ⟨h2, h3⟩, h1]; simp)

/-- Witness of C9: on `memoryWrapState`, eight desired cores against four observed ones
put `cores = 8` into the `ConfigureVM` call; the observed memory `2^32 + 4096` is 4096
after its conversion to a 32-bit integer, the desired value, so the call carries no
`memory` option although the two numbers differ; and on `memoryDiffersState`, an observed
memory of 8192 against the desired 4096 puts `memory = 4096` into the call. -/
theorem reconcileVirtualMachineConfig_cpu_memory_witness :
    (∃ vm opts task err, (reconcileVirtualMachineConfig sampleEnv memoryWrapState).2.calls =
        memoryWrapState.calls ++ [Call.ConfigureVM vm opts task err] ∧
        { Name := optionCores, Value := .int 8 } ∈ opts) ∧
    memoryWrapState.scope.VirtualMachine.VirtualMachineConfig.Memory ≠
      memoryWrapState.scope.ProxmoxMachine.Spec.MemoryMiB ∧
    (¬ ∃ vm opts task err, (reconcileVirtualMachineConfig sampleEnv memoryWrapState).2.calls =
        memoryWrapState.calls ++ [Call.ConfigureVM vm opts task err] ∧
        { Name := optionMemory, Value := .int 4096 } ∈ opts) ∧
    (∃ vm opts task err, (reconcileVirtualMachineConfig sampleEnv memoryDiffersState).2.calls =
        memoryDiffersState.calls ++ [Call.ConfigureVM vm opts task err] ∧
        { Name := optionMemory, Value := .int 4096 } ∈ opts) :=
  ⟨(reconcileVirtualMachineConfig_cpu_memory sampleEnv memoryWrapState 8 (by decide)
      (by decide)).2.1.mpr ⟨by decide, by decide, by decide⟩,
    by decide,
    fun h => ((reconcileVirtualMachineConfig_cpu_memory sampleEnv memoryWrapState 4096
      (by decide) (by decide)).2.2.mp h).2.2 (by decide),
    (reconcileVirtualMachineConfig_cpu_memory sampleEnv memoryDiffersState 4096 (by decide)
      (by decide)).2.2.mpr ⟨by decide, by decide, by decide⟩⟩

/-- When every desired tag is among the observed ones, the "custom tags" block adds no
option, and it changes nothing of the VM but `TagsSlice`, which becomes the split of the
`Tags` string when tags are desired. -/
theorem tagOptions_converged (spec : ProxmoxMachineSpec) (vm : VirtualMachine)
    (htags : ∀ t ∈ spec.Tags.getD [], t ∈ observedTags vm.VirtualMachineConfig.Tags) :
    tagOptions spec vm = ([], if spec.Tags = none then vm else vm.SplitTags) := by
  cases hs : spec.Tags with
  | none => simp [tagOptions, hs]
  | some tags =>
    rw [hs] at htags
    simp only [Option.getD_some] at htags
    by_cases hT : vm.VirtualMachineConfig.Tags = ""
    · have hnil : tags = [] := by
        cases tags with
        | nil => rfl
        | cons t rest =>
          have := htags t (by simp)
          simp [observedTags, hT] at this
      subst hnil
      simp [tagOptions, hs, appendMissingTags]
    · have hsplit : (vm.SplitTags).VirtualMachineConfig.TagsSlice =
          stringsSplit vm.VirtualMachineConfig.Tags := rfl
      have habs : absentTags (stringsSplit vm.VirtualMachineConfig.Tags) tags = [] := by
        rw [absentTags_eq_nil_iff]
        intro t ht
        have := htags t ht
        simpa [observedTags, hT] using this
      unfold tagOptions
      rw [hs]
      simp only
      rw [appendMissingTags_eq tags vm.SplitTags hT (by rw [hsplit]; exact stringsSplit_ne_nil _)]
      simp [hsplit, habs, VirtualMachine.SplitTags]

/-- When the observed configuration equals the desired one, no option is built. -/
theorem buildVMOptions_converged (env : Env) (sc : MachineScope)
    (hsockets : sc.ProxmoxMachine.Spec.NumSockets > 0 →
      sc.VirtualMachine.VirtualMachineConfig.Sockets = sc.ProxmoxMachine.Spec.NumSockets)
    (hcores : sc.ProxmoxMachine.Spec.NumCores > 0 →
      sc.VirtualMachine.VirtualMachineConfig.Cores = sc.ProxmoxMachine.Spec.NumCores)
    (hmemory : sc.ProxmoxMachine.Spec.MemoryMiB > 0 →
      sc.VirtualMachine.VirtualMachineConfig.Memory = sc.ProxmoxMachine.Spec.MemoryMiB)
    (hint32 : sc.ProxmoxMachine.Spec.MemoryMiB < 2 ^ 31)
    (hdesc : ∀ d, sc.ProxmoxMachine.Spec.Description = some d →
      sc.VirtualMachine.VirtualMachineConfig.Description = d)
    (htags : ∀ t ∈ sc.ProxmoxMachine.Spec.Tags.getD [],
      t ∈ observedTags sc.VirtualMachine.VirtualMachineConfig.Tags)
    (hnet : ¬ (sc.ProxmoxMachine.Spec.Network ≠ none ∧
      env.shouldUpdateNetworkDevices sc = true)) :
    buildVMOptions env sc =
      ([], { sc with VirtualMachine :=
                if sc.ProxmoxMachine.Spec.Tags = none then sc.VirtualMachine
                else sc.VirtualMachine.SplitTags }) := by
  have h1 : cpuMemoryOptions sc.ProxmoxMachine.Spec sc.VirtualMachine.VirtualMachineConfig = [] := by
    unfold cpuMemoryOptions
    have a : ¬ (sc.ProxmoxMachine.Spec.NumSockets > 0 ∧
        sc.VirtualMachine.VirtualMachineConfig.Sockets ≠ sc.ProxmoxMachine.Spec.NumSockets) :=
      fun h => h.2 (hsockets h.1)
    have b : ¬ (sc.ProxmoxMachine.Spec.NumCores > 0 ∧
        sc.VirtualMachine.VirtualMachineConfig.Cores ≠ sc.ProxmoxMachine.Spec.NumCores) :=
      fun h => h.2 (hcores h.1)
    have c : ¬ (sc.ProxmoxMachine.Spec.MemoryMiB > 0 ∧
        toInt32 sc.VirtualMachine.VirtualMachineConfig.Memory ≠
          sc.ProxmoxMachine.Spec.MemoryMiB) := by
      rintro ⟨hpos, hne⟩
      apply hne
      rw [hmemory hpos]
      unfold toInt32
      omega
    rw [if_neg a, if_neg b, if_neg c]
    rfl
  have h2 : descriptionOptions sc.ProxmoxMachine.Spec
      sc.VirtualMachine.VirtualMachineConfig = [] := by
    unfold descriptionOptions
    cases hd : sc.ProxmoxMachine.Spec.Description with
    | none => rfl
    | some d => simp [hdesc d hd]
  have h3 : networkOptions env sc = [] := by
    unfold networkOptions
    cases hn : sc.ProxmoxMachine.Spec.Network with
    | none => rfl
    | some n =>
      have : ¬ env.shouldUpdateNetworkDevices sc = true := fun h => hnet ⟨by simp [hn], h⟩
      simp [this]
  unfold buildVMOptions
  simp only [h1, h2, h3, tagOptions_converged _ _ htags, List.append_nil]

/-- C7: on a VM that is neither running nor ready, if the observed configuration already
equals the desired one (each set socket, core and memory value equals the observed one,
the description if set equals the observed one, every desired tag is among the observed
tags, no network update is needed), `reconcileVirtualMachineConfig` builds an empty option
list, makes no call, leaves the machine object with its `Status.TaskRef` as it was and
returns `(false, nil)`; run again on the state it left, it returns `(false, nil)` and
leaves that state unchanged, provided no network update is needed then either. -/
theorem reconcileVirtualMachineConfig_converged (env : Env) (st : State)
    (hrun : st.scope.VirtualMachine.Running = false)
    (hready : st.scope.ProxmoxMachine.Status.Ready = false)
    (hsockets : st.scope.ProxmoxMachine.Spec.NumSockets > 0 →
      st.scope.VirtualMachine.VirtualMachineConfig.Sockets =
        st.scope.ProxmoxMachine.Spec.NumSockets)
    (hcores : st.scope.ProxmoxMachine.Spec.NumCores > 0 →
      st.scope.VirtualMachine.VirtualMachineConfig.Cores = st.scope.ProxmoxMachine.Spec.NumCores)
    (hmemory : st.scope.ProxmoxMachine.Spec.MemoryMiB > 0 →
      st.scope.VirtualMachine.VirtualMachineConfig.Memory =
        st.scope.ProxmoxMachine.Spec.MemoryMiB)
    (hint32 : st.scope.ProxmoxMachine.Spec.MemoryMiB < 2 ^ 31)
    (hdesc : ∀ d, st.scope.ProxmoxMachine.Spec.Description = some d →
      st.scope.VirtualMachine.VirtualMachineConfig.Description = d)
    (htags : ∀ t ∈ st.scope.ProxmoxMachine.Spec.Tags.getD [],
      t ∈ observedTags st.scope.VirtualMachine.VirtualMachineConfig.Tags)
    (hnet : ¬ (st.scope.ProxmoxMachine.Spec.Network ≠ none ∧
      env.shouldUpdateNetworkDevices st.scope = true))
    (hnet2 : ¬ (st.scope.ProxmoxMachine.Spec.Network ≠ none ∧
      env.shouldUpdateNetworkDevices (reconcileVirtualMachineConfig env st).2.scope = true)) :
    (buildVMOptions env st.scope).1 = [] ∧
      (reconcileVirtualMachineConfig env st).1 = (false, none) ∧
      (reconcileVirtualMachineConfig env st).2.calls = st.calls ∧
      (reconcileVirtualMachineConfig env st).2.scope.ProxmoxMachine = st.scope.ProxmoxMachine ∧
      (reconcileVirtualMachineConfig env st).2.scope.ProxmoxMachine.Status.TaskRef =
        st.scope.ProxmoxMachine.Status.TaskRef ∧
      reconcileVirtualMachineConfig env (reconcileVirtualMachineConfig env st).2 =
        ((false, none), (reconcileVirtualMachineConfig env st).2) := by
  have hb := buildVMOptions_converged env st.scope hsockets hcores hmemory hint32 hdesc htags
    hnet
  have h1 : reconcileVirtualMachineConfig env st =
      ((false, none), { st with scope := (buildVMOptions env st.scope).2 }) := by
    rw [reconcileVirtualMachineConfig_eq env st hrun hready, hb]
    simp
  refine ⟨by rw [hb], by rw [h1], by rw [h1], by rw [h1, hb], by rw [h1, hb], ?_⟩
  rw [h1, hb] at hnet2
  rw [h1, hb]
  simp only at hnet2 ⊢
  by_cases hs : st.scope.ProxmoxMachine.Spec.Tags = none
  · simp only [hs, if_true]
    have hst : ({ st with scope := { st.scope with VirtualMachine := st.scope.VirtualMachine } } :
        State) = st := rfl
    rw [hst, h1, hb]
    simp [hs]
  · simp only [hs, if_false]
    simp only [hs, if_false] at hnet2
    have hb2 := buildVMOptions_converged env
      { st.scope with VirtualMachine := st.scope.VirtualMachine.SplitTags }
      hsockets hcores hmemory hint32 hdesc htags hnet2
    have h2 := reconcileVirtualMachineConfig_eq env
      { st with scope := { st.scope with VirtualMachine := st.scope.VirtualMachine.SplitTags } }
      hrun hready
    rw [hb2] at h2
    rw [h2]
    simp [hs, VirtualMachine.SplitTags]

/-- Witness of C7: `sampleState` is converged (sockets 2, cores 4, memory 4096, no
description, tags or network desired), so nothing is configured. -/
theorem reconcileVirtualMachineConfig_converged_witness :
    (buildVMOptions sampleEnv sampleState.scope).1 = [] ∧
      reconcileVirtualMachineConfig sampleEnv sampleState = ((false, none), sampleState) :=
  have h := reconcileVirtualMachineConfig_converged sampleEnv sampleState (by decide) (by decide)
    (fun _ => by decide) (fun _ => by decide) (fun _ => by decide) (by decide)
    (fun d hd => by simp [sampleState, sampleScope, sampleMachine] at hd)
    (fun t ht => by simp [sampleState, sampleScope, sampleMachine] at ht)
    (fun h => by simp [sampleEnv] at h) (fun h => by simp [sampleEnv] at h)
  ⟨h.1, by decide⟩

/-! ## Pre-boot gates, disks, addresses, cloud-init: properties -/

/-- C11: if the VM is running or the machine's `Status.Ready` is true,
`reconcileVirtualMachineConfig` returns `(false, nil)` and leaves the state as it was: no
`ConfigureVM` call, `Status.TaskRef` unchanged, whatever the desired spec is. -/
theorem reconcileVirtualMachineConfig_skips_started (env : Env) (st : State)
    (h : st.scope.VirtualMachine.Running = true ∨ st.scope.ProxmoxMachine.Status.Ready = true) :
    reconcileVirtualMachineConfig env st = ((false, none), st) ∧
      (reconcileVirtualMachineConfig env st).2.calls = st.calls ∧
      (reconcileVirtualMachineConfig env st).2.scope.ProxmoxMachine.Status.TaskRef =
        st.scope.ProxmoxMachine.Status.TaskRef := by
  have h1 : reconcileVirtualMachineConfig env st = ((false, none), st) := by
    unfold reconcileVirtualMachineConfig
    rw [if_pos h]
  exact ⟨h1, by rw [h1], by rw [h1]⟩

/-- Witness of C11: on a running VM eight desired cores against four observed ones are
not configured. -/
theorem reconcileVirtualMachineConfig_skips_started_witness :
    ({ coresDifferState with scope.VirtualMachine := runningVM } : State).scope.VirtualMachine.Running
        = true ∧
      reconcileVirtualMachineConfig sampleEnv
          { coresDifferState with scope.VirtualMachine := runningVM } =
        ((false, none), { coresDifferState with scope.VirtualMachine := runningVM }) :=
  ⟨rfl, (reconcileVirtualMachineConfig_skips_started sampleEnv
    { coresDifferState with scope.VirtualMachine := runningVM } (Or.inl rfl)).1⟩

/-- C12: when the machine declares disks with a boot volume, the VM is not running and
`Status.Ready` is false, `reconcileDisks` makes exactly one `ResizeDisk` call, with the
boot volume's disk and formatted size, and returns that call's error; in every other
case it returns nil and makes no call. -/
theorem reconcileDisks_resizes_boot_volume (env : Env) (st : State) :
    (∀ disks bv, st.scope.ProxmoxMachine.Spec.Disks = some disks →
      disks.BootVolume = some bv → st.scope.VirtualMachine.Running = false →
      st.scope.ProxmoxMachine.Status.Ready = false →
      reconcileDisks env st =
        (env.ResizeDisk st.scope.VirtualMachine bv.Disk (env.FormatSize bv),
          { st with calls := st.calls ++
              [Call.ResizeDisk st.scope.VirtualMachine bv.Disk (env.FormatSize bv)
                (env.ResizeDisk st.scope.VirtualMachine bv.Disk (env.FormatSize bv))] })) ∧
    (((¬ ∃ disks bv, st.scope.ProxmoxMachine.Spec.Disks = some disks ∧
          disks.BootVolume = some bv) ∨
        st.scope.VirtualMachine.Running = true ∨ st.scope.ProxmoxMachine.Status.Ready = true) →
      reconcileDisks env st = (none, st)) := by
  constructor
  · intro disks bv hd hb hrun hready
    unfold reconcileDisks
    rw [hd]
    simp only
    rw [if_neg (by simp [hrun, hready]), hb]
    rfl
  · intro h
    unfold reconcileDisks
    cases hd : st.scope.ProxmoxMachine.Spec.Disks with
    | none => rfl
    | some disks =>
      simp only
      by_cases hc : st.scope.VirtualMachine.Running = true ∨
          st.scope.ProxmoxMachine.Status.Ready = true
      · rw [if_pos hc]
      · rw [if_neg hc]
        cases hb : disks.BootVolume with
        | none => rfl
        | some bv =>
          rcases h with h | h
          · exact absurd ⟨disks, bv, hd, hb⟩ h
          · exact absurd h hc

/-- Witness of C12: a stopped machine with a boot volume of 100 GB on `scsi0` gets one
`ResizeDisk` call for `scsi0` with the formatted size `100G`. -/
theorem reconcileDisks_resizes_boot_volume_witness :
    reconcileDisks sampleEnv disksState =
      (none, { disksState with calls := [Call.ResizeDisk sampleVM "scsi0" "100G" none] }) :=
  ((reconcileDisks_resizes_boot_volume sampleEnv disksState).1
    { BootVolume := some { Disk := "scsi0", SizeGB := 100 } } { Disk := "scsi0", SizeGB := 100 }
    rfl rfl rfl rfl).trans (by decide)

/-- C13: for a scope whose machine has an assigned IP address and whose VM is running,
`getMachineAddresses` returns without error the list made of a HostName address with
the machine's name, then an InternalIP address with the IPv4 address of the default
network device exactly when the cluster declares an IPv4 configuration, then one with
its IPv6 address exactly when the cluster declares an IPv6 configuration; the list has
one entry plus one per configured family. -/
theorem getMachineAddresses_list (env : Env) (sc : MachineScope)
    (hip : env.machineHasIPAddress sc.ProxmoxMachine = true)
    (hrun : sc.VirtualMachine.Running = true) :
    getMachineAddresses env sc =
        ([{ Typ := .MachineHostName, Address := sc.ProxmoxMachine.Name }] ++
          (if sc.InfraCluster.ProxmoxCluster.Spec.IPv4Config ≠ none then
            [{ Typ := .MachineInternalIP,
               Address := (lookupIPAddress sc.ProxmoxMachine.Status.IPAddresses
                 DefaultNetworkDevice).IPV4 }] else []) ++
          (if sc.InfraCluster.ProxmoxCluster.Spec.IPv6Config ≠ none then
            [{ Typ := .MachineInternalIP,
               Address := (lookupIPAddress sc.ProxmoxMachine.Status.IPAddresses
                 DefaultNetworkDevice).IPV6 }] else []), none) ∧
      (getMachineAddresses env sc).1.length =
        1 + (if sc.InfraCluster.ProxmoxCluster.Spec.IPv4Config ≠ none then 1 else 0) +
          (if sc.InfraCluster.ProxmoxCluster.Spec.IPv6Config ≠ none then 1 else 0) := by
  have h1 : getMachineAddresses env sc =
      ([{ Typ := .MachineHostName, Address := sc.ProxmoxMachine.Name }] ++
        (if sc.InfraCluster.ProxmoxCluster.Spec.IPv4Config ≠ none then
          [{ Typ := .MachineInternalIP,
             Address := (lookupIPAddress sc.ProxmoxMachine.Status.IPAddresses
               DefaultNetworkDevice).IPV4 }] else []) ++
        (if sc.InfraCluster.ProxmoxCluster.Spec.IPv6Config ≠ none then
          [{ Typ := .MachineInternalIP,
             Address := (lookupIPAddress sc.ProxmoxMachine.Status.IPAddresses
               DefaultNetworkDevice).IPV6 }] else []), none) := by
    unfold getMachineAddresses
    rw [if_neg (by simp [hip]), if_neg (by simp [hrun])]
  refine ⟨h1, ?_⟩
  rw [h1]
  by_cases h4 : sc.InfraCluster.ProxmoxCluster.Spec.IPv4Config = none <;>
    by_cases h6 : sc.InfraCluster.ProxmoxCluster.Spec.IPv6Config = none <;>
    simp [h4, h6]

/-- Witness of C13: a running machine with addresses on `net0` in a cluster with an IPv4
configuration only reports its name and its IPv4 address. -/
theorem getMachineAddresses_list_witness :
    getMachineAddresses sampleEnv addressedScope =
      ([{ Typ := .MachineHostName, Address := "machine-0" },
        { Typ := .MachineInternalIP, Address := "10.0.0.10" }], none) :=
  ((getMachineAddresses_list sampleEnv addressedScope rfl rfl).1).trans (by decide)

/-- C14: `getMachineAddresses` returns an error exactly when the machine has no assigned IP
address or the VM is not running, and then it returns no address list;
`reconcileMachineAddresses` then returns the same error and leaves the state, with the
addresses recorded on the scope, as it was. -/
theorem getMachineAddresses_error_iff (env : Env) (st : State) :
    ((getMachineAddresses env st.scope).2 ≠ none ↔
      (env.machineHasIPAddress st.scope.ProxmoxMachine = false ∨
        st.scope.VirtualMachine.Running = false)) ∧
    (∀ err, (getMachineAddresses env st.scope).2 = some err →
      (getMachineAddresses env st.scope).1 = [] ∧
      reconcileMachineAddresses env st = (some err, st)) := by
  constructor
  · unfold getMachineAddresses
    by_cases hip : env.machineHasIPAddress st.scope.ProxmoxMachine = true
    · by_cases hrun : st.scope.VirtualMachine.Running = true
      · simp [hip, hrun]
      · simp [hip, hrun]
    · simp [hip]
  · intro err herr
    have h1 : (getMachineAddresses env st.scope).1 = [] := by
      unfold getMachineAddresses at herr ⊢
      by_cases hip : env.machineHasIPAddress st.scope.ProxmoxMachine = true
      · by_cases hrun : st.scope.VirtualMachine.Running = true
        · simp [hip, hrun] at herr
        · simp [hip, hrun]
      · simp [hip]
    refine ⟨h1, ?_⟩
    unfold reconcileMachineAddresses
    rcases hg : getMachineAddresses env st.scope with ⟨addr, e⟩
    rw [hg] at herr
    simp only at herr
    subst herr
    rfl

/-- Witness of C14: without an assigned IP address the address list is refused and the
state stays as it was. -/
theorem getMachineAddresses_error_iff_witness :
    (getMachineAddresses noAddressEnv runningState.scope).2 =
        some (.errorsNew "machine does not yet have an ip address") ∧
      reconcileMachineAddresses noAddressEnv runningState =
        (some (.errorsNew "machine does not yet have an ip address"), runningState) :=
  ⟨rfl, ((getMachineAddresses_error_iff noAddressEnv runningState).2 _ rfl).2⟩

/-- C16: `checkCloudInitStatus` returns `(true, nil)` and leaves the state as it was, with no
call made, when the VM is not running; it returns `(true, nil)` and leaves the scope as it
was when the cloud-init check reports that cloud-init is still running; and it returns
`(false, nil)` exactly when the VM is running and each check that is not skipped (guest
agent, cloud-init) ends without error and, for cloud-init, not running. -/
theorem checkCloudInitStatus_outcomes (env : Env) (st : State) :
    (st.scope.VirtualMachine.Running = false →
      checkCloudInitStatus env st = ((true, none), st)) ∧
    (st.scope.VirtualMachine.Running = true →
      (env.SkipQemuGuestCheck st.scope = true ∨
        env.QemuAgentStatus st.scope.VirtualMachine = none) →
      env.SkipCloudInitCheck st.scope = false →
      (env.CloudInitStatus st.scope.VirtualMachine).1 = true →
      (checkCloudInitStatus env st).1 = (true, none) ∧
        (checkCloudInitStatus env st).2.scope = st.scope) ∧
    ((checkCloudInitStatus env st).1 = (false, none) ↔
      (st.scope.VirtualMachine.Running = true ∧
        (env.SkipQemuGuestCheck st.scope = true ∨
          env.QemuAgentStatus st.scope.VirtualMachine = none) ∧
        (env.SkipCloudInitCheck st.scope = true ∨
          env.CloudInitStatus st.scope.VirtualMachine = (false, none)))) := by
  refine ⟨?_, ?_, ?_⟩
  · intro hrun
    unfold checkCloudInitStatus
    rw [if_pos (by simp [hrun])]
  · intro hrun hagent hskip hci
    unfold checkCloudInitStatus
    rw [if_neg (by simp [hrun])]
    rcases hc : env.CloudInitStatus st.scope.VirtualMachine with ⟨running, err⟩
    rw [hc] at hci
    simp only at hci
    subst hci
    by_cases hq : env.SkipQemuGuestCheck st.scope = true
    · simp [hq, hskip, hc, State.record]
    · have ha : env.QemuAgentStatus st.scope.VirtualMachine = none := by
        rcases hagent with h | h
        · exact absurd h hq
        · exact h
      simp [hq, ha, hskip, hc, State.record]
  · unfold checkCloudInitStatus
    by_cases hrun : st.scope.VirtualMachine.Running = true
    · rw [if_neg (by simp [hrun])]
      by_cases hq : env.SkipQemuGuestCheck st.scope = true
      · by_cases hs : env.SkipCloudInitCheck st.scope = true
        · simp [hrun, hq, hs]
        · rcases hc : env.CloudInitStatus st.scope.VirtualMachine with ⟨running, _ | e⟩
          · cases running <;> simp [hrun, hq, hs, hc]
          · cases running
            · by_cases hf : errorsIs ErrCloudInitFailed e = true <;>
                simp [hrun, hq, hs, hc, hf]
            · simp [hrun, hq, hs, hc]
      · rcases ha : env.QemuAgentStatus st.scope.VirtualMachine with _ | ea
        · by_cases hs : env.SkipCloudInitCheck st.scope = true
          · simp [hrun, hq, ha, hs, State.record]
          · rcases hc : env.CloudInitStatus st.scope.VirtualMachine with ⟨running, _ | e⟩
            · cases running <;> simp [hrun, hq, ha, hs, hc, State.record]
            · cases running
              · by_cases hf : errorsIs ErrCloudInitFailed e = true <;>
                  simp [hrun, hq, ha, hs, hc, hf, State.record]
              · simp [hrun, hq, ha, hs, hc, State.record]
        · simp [hrun, hq, ha]
    · rw [if_pos (by simpa using hrun)]
      simp [hrun]

/-- Witness of C16: on a stopped VM the check asks for a retry without a call; on a
running VM with cloud-init still running it asks for a retry; on a running VM with
both checks done it does not. -/
theorem checkCloudInitStatus_outcomes_witness :
    checkCloudInitStatus sampleEnv sampleState = ((true, none), sampleState) ∧
      (checkCloudInitStatus cloudInitRunningEnv runningState).1 = (true, none) ∧
      (checkCloudInitStatus sampleEnv runningState).1 = (false, none) :=
  ⟨(checkCloudInitStatus_outcomes sampleEnv sampleState).1 rfl,
    ((checkCloudInitStatus_outcomes cloudInitRunningEnv runningState).2.1 rfl (Or.inr rfl)
      rfl rfl).1,
    (checkCloudInitStatus_outcomes sampleEnv runningState).2.2.mpr
      ⟨rfl, Or.inr rfl, Or.inr rfl⟩⟩

/-- What holds of the code for C15: when `CloudInitStatus` fails with `ErrCloudInitFailed`
itself, the check returns that error without requeue, marks the VMProvisioned condition
false, and records the failure message and the reason BootstrapFailed. -/
theorem checkCloudInitStatus_sentinel (env : Env) (st : State)
    (hrun : st.scope.VirtualMachine.Running = true)
    (hagent : env.SkipQemuGuestCheck st.scope = true ∨
      env.QemuAgentStatus st.scope.VirtualMachine = none)
    (hskip : env.SkipCloudInitCheck st.scope = false)
    (hci : env.CloudInitStatus st.scope.VirtualMachine = (false, some ErrCloudInitFailed)) :
    (checkCloudInitStatus env st).1 = (false, some ErrCloudInitFailed) ∧
      (checkCloudInitStatus env st).2.scope.ProxmoxMachine.Status.FailureMessage =
        some ErrCloudInitFailed.Error ∧
      (checkCloudInitStatus env st).2.scope.ProxmoxMachine.Status.FailureReason =
        some "BootstrapFailed" ∧
      (checkCloudInitStatus env st).2.scope.ProxmoxMachine.Status.Conditions =
        conditionsSet st.scope.ProxmoxMachine.Status.Conditions
          { Typ := VMProvisionedCondition, Status := false, Reason := VMProvisionFailedReason,
            Severity := ConditionSeverityError, Message := ErrCloudInitFailed.Error } := by
  have hf : errorsIs ErrCloudInitFailed ErrCloudInitFailed = true := by decide
  unfold checkCloudInitStatus
  rw [if_neg (by simp [hrun])]
  by_cases hq : env.SkipQemuGuestCheck st.scope = true
  · simp [hq, hskip, hci, hf, SetFailureReason, SetFailureMessage, MarkFalse, State.record]
  · have ha : env.QemuAgentStatus st.scope.VirtualMachine = none := by
      rcases hagent with h | h
      · exact absurd h hq
      · exact h
    simp [hq, ha, hskip, hci, hf, SetFailureReason, SetFailureMessage, MarkFalse, State.record]

/-- C15, the code at the failing input: `CloudInitStatus` answers not running with an
error that wraps `ErrCloudInitFailed`, so `errors.Is(err, ErrCloudInitFailed)` holds; the
check returns the error without requeue but records no condition, no failure message and
no failure reason, because it tests `errors.Is(ErrCloudInitFailed, err)`. -/
theorem checkCloudInitStatus_wrapped_failure_unmarked :
    errorsIs (.wrap "cloud-init status" ErrCloudInitFailed) ErrCloudInitFailed = true ∧
      errorsIs ErrCloudInitFailed (.wrap "cloud-init status" ErrCloudInitFailed) = false ∧
      (checkCloudInitStatus cloudInitWrappedFailureEnv runningState).1 =
        (false, some (.wrap "cloud-init status" ErrCloudInitFailed)) ∧
      (checkCloudInitStatus cloudInitWrappedFailureEnv
          runningState).2.scope.ProxmoxMachine.Status.Conditions = [] ∧
      (checkCloudInitStatus cloudInitWrappedFailureEnv
          runningState).2.scope.ProxmoxMachine.Status.FailureMessage = none ∧
      (checkCloudInitStatus cloudInitWrappedFailureEnv
          runningState).2.scope.ProxmoxMachine.Status.FailureReason = none := by
  refine ⟨by decide, by decide, by decide, by decide, by decide, by decide⟩

/-! ## VMID allocation: the trace of the scan -/

theorem ScanOrdered_step {e i : Int} {falses : List Call} {id : Int} (hle : i ≤ e)
    (h : ScanOrdered e (wrapInt64 (i + 1)) falses id) : ScanOrdered e i falses id := by
  intro he hi
  have hw : wrapInt64 (i + 1) = i + 1 := wrapInt64_eq_self _ (by omega) (by omega)
  rw [hw] at h
  obtain ⟨h1, h2⟩ := h he (by omega)
  refine ⟨by omega, fun c hc => ?_⟩
  obtain ⟨id', hc', h3, h4⟩ := h2 c hc
  exact ⟨id', hc', by omega, h4⟩

theorem ScanOrdered_cons {e i : Int} {falses : List Call} {id : Int} (hle : i ≤ e)
    (h : ScanOrdered e (wrapInt64 (i + 1)) falses id) :
    ScanOrdered e i (Call.CheckID i false none :: falses) id := by
  intro he hi
  have hw : wrapInt64 (i + 1) = i + 1 := wrapInt64_eq_self _ (by omega) (by omega)
  rw [hw] at h
  obtain ⟨h1, h2⟩ := h he (by omega)
  refine ⟨by omega, fun c hc => ?_⟩
  rcases List.mem_cons.mp hc with rfl | hc
  · exact ⟨i, rfl, le_refl _, by omega⟩
  · obtain ⟨id', hc', h3, h4⟩ := h2 c hc
    exact ⟨id', hc', by omega, h4⟩

/-- The calls of the scan: `CheckID` on ids outside `U`, all answered `(false, nil)` but
possibly the last one, which decides the answer. -/
theorem scanVMIDRange_trace (env : Env) (U : List Int) (e : Int) :
    ∀ (fuel : Nat) (i : Int) (st : State) (r : Int × Option GoError) (st' : State),
      scanVMIDRange env U e fuel i st = some (r, st') →
      ScanTrace env U st.calls r st'.calls (ScanOrdered e i) := by
  intro fuel
  induction fuel with
  | zero => intro i st r st' h; simp [scanVMIDRange] at h
  | succ fuel ih =>
    intro i st r st' h
    by_cases hle : i ≤ e
    · by_cases hU : i ∈ U
      · simp [scanVMIDRange, hle, hU] at h
        obtain ⟨falses, hf, hcase⟩ := ih _ _ _ _ h
        refine ⟨falses, hf, ?_⟩
        rcases hcase with h1 | ⟨id, h1, h2, h3, h4⟩ | ⟨id, free, err, h1, h2, h3, h4, h5⟩
        · exact Or.inl h1
        · exact Or.inr (Or.inl ⟨id, h1, h2, h3, ScanOrdered_step hle h4⟩)
        · exact Or.inr (Or.inr ⟨id, free, err, h1, h2, h3, h4, ScanOrdered_step hle h5⟩)
      · rcases hc : env.CheckID i with ⟨free, _ | err⟩
        · cases free
          · simp [scanVMIDRange, hle, hU, hc] at h
            obtain ⟨falses, hf, hcase⟩ := ih _ _ _ _ h
            refine ⟨Call.CheckID i false none :: falses, ?_, ?_⟩
            · intro c hc'
              rcases List.mem_cons.mp hc' with rfl | hc'
              · exact ⟨i, rfl, hU⟩
              · exact hf c hc'
            · rcases hcase with ⟨h1, h2⟩ | ⟨id, h1, h2, h3, h4⟩ |
                ⟨id, free, err, h1, h2, h3, h4, h5⟩
              · exact Or.inl ⟨by rw [h1]; simp [State.record], h2⟩
              · exact Or.inr (Or.inl ⟨id, by rw [h1]; simp [State.record], h2, h3,
                  ScanOrdered_cons hle h4⟩)
              · exact Or.inr (Or.inr ⟨id, free, err, by rw [h1]; simp [State.record], h2, h3,
                  h4, ScanOrdered_cons hle h5⟩)
          · simp [scanVMIDRange, hle, hU, hc] at h
            refine ⟨[], by simp, Or.inr (Or.inl ⟨i, ?_, h.1.symm, hU, ?_⟩)⟩
            · rw [← h.2]; simp [State.record]
            · intro _ _; exact ⟨le_refl _, by simp⟩
        · simp [scanVMIDRange, hle, hU, hc] at h
          refine ⟨[], by simp, Or.inr (Or.inr ⟨i, free, err, ?_, h.1.symm, hU, hc, ?_⟩)⟩
          · rw [← h.2]; simp [State.record]
          · intro _ _; exact ⟨le_refl _, by simp⟩
    · simp [scanVMIDRange, hle] at h
      refine ⟨[], by simp, Or.inl ⟨?_, h.1.symm⟩⟩
      rw [← h.2]; simp

/-- A candidate whose `CheckID` call fails, reached after candidates that are all reported
taken, ends the scan with its error. -/
theorem scanVMIDRange_reaches_error (env : Env) (U : List Int) (e id : Int) (err : GoError)
    (hid : id ≤ maxInt64) (hide : id ≤ e) (hidU : id ∉ U)
    (herr : (env.CheckID id).2 = some err) :
    ∀ (n fuel : Nat) (i : Int) (st : State), (id - i).toNat ≤ n → n < fuel → minInt64 ≤ i →
      i ≤ id → (∀ k, i ≤ k → k < id → k ∉ U → env.CheckID k = (false, none)) →
      ∃ st', scanVMIDRange env U e fuel i st = some ((0, some err), st') := by
  intro n
  induction n with
  | zero =>
    intro fuel i st hn hf hi hle hsmall
    obtain ⟨fuel', rfl⟩ : ∃ f, fuel = f + 1 := ⟨fuel - 1, by omega⟩
    have hii : i = id := by omega
    subst hii
    rcases hc : env.CheckID i with ⟨free, e'⟩
    rw [hc] at herr
    simp only at herr
    subst herr
    exact ⟨st.record (Call.CheckID i free (some err)),
      by simp [scanVMIDRange, hide, hidU, hc]⟩
  | succ n ih =>
    intro fuel i st hn hf hi hle hsmall
    obtain ⟨fuel', rfl⟩ : ∃ f, fuel = f + 1 := ⟨fuel - 1, by omega⟩
    by_cases hii : i = id
    · subst hii
      rcases hc : env.CheckID i with ⟨free, e'⟩
      rw [hc] at herr
      simp only at herr
      subst herr
      exact ⟨st.record (Call.CheckID i free (some err)),
      by simp [scanVMIDRange, hide, hidU, hc]⟩
    · have hlt : i < id := by omega
      have hw : wrapInt64 (i + 1) = i + 1 := wrapInt64_eq_self _ (by omega) (by omega)
      have hie : i ≤ e := by omega
      have hsmall' : ∀ k, i + 1 ≤ k → k < id → k ∉ U → env.CheckID k = (false, none) :=
        fun k hk => hsmall k (by omega)
      by_cases hU : i ∈ U
      · obtain ⟨st', h⟩ := ih fuel' (i + 1) st (by omega) (by omega) (by omega) (by omega) hsmall'
        exact ⟨st', by simp [scanVMIDRange, hie, hU, hw, h]⟩
      · have hc := hsmall i (le_refl _) hlt hU
        obtain ⟨st', h⟩ := ih fuel' (i + 1) (st.record (Call.CheckID i false none)) (by omega)
          (by omega) (by omega) (by omega) hsmall'
        exact ⟨st', by simp [scanVMIDRange, hie, hU, hw, hc, h]⟩

theorem getUsedVMIDs_state (env : Env) (st : State) :
    ∃ ms lerr, (getUsedVMIDs env st).2 = st.record (Call.ListProxmoxMachinesForCluster ms lerr) := by
  unfold getUsedVMIDs
  rcases env.ListProxmoxMachinesForCluster st.scope with ⟨ms, _ | err⟩
  · exact ⟨ms, none, rfl⟩
  · exact ⟨ms, some err, rfl⟩

/-- The calls of `getNextFreeVMIDfromRange` after a successful listing: the listing, then
the calls of the scan. -/
theorem getNextFreeVMIDfromRange_trace (env : Env) (st st1 : State) (U : List Int)
    (vmIDRangeStart vmIDRangeEnd : Int) (r : Int × Option GoError) (st' : State)
    (hU : getUsedVMIDs env st = ((U, none), st1))
    (h : getNextFreeVMIDfromRange env st vmIDRangeStart vmIDRangeEnd = some (r, st')) :
    ∃ ms lerr, ScanTrace env U (st.calls ++ [Call.ListProxmoxMachinesForCluster ms lerr]) r
      st'.calls (ScanOrdered vmIDRangeEnd vmIDRangeStart) := by
  obtain ⟨ms, lerr, hst⟩ := getUsedVMIDs_state env st
  rw [hU] at hst
  simp only at hst
  unfold getNextFreeVMIDfromRange at h
  rw [hU] at h
  have := scanVMIDRange_trace env U vmIDRangeEnd _ _ _ _ _ h
  rw [hst] at this
  exact ⟨ms, lerr, this⟩

/-- A failed check ends the scan: in `getNextFreeVMIDfromRange`, a candidate id on which
`CheckID` fails, reached after candidates that were all reported taken, makes the call
return `(0, that error)`; on every return whose calls contain a failed `CheckID` call, the
result is `(0, that error)` and that call is the last call made; in a range that ends
below the largest `int64` no checked id is larger than the failing one; and `CheckID` is
never called on an id of the used-ID list. -/
theorem getNextFreeVMIDfromRange_check_error (env : Env) (st : State)
    (vmIDRangeStart vmIDRangeEnd : Int) :
    (∀ U st1 id err, getUsedVMIDs env st = ((U, none), st1) →
      minInt64 ≤ vmIDRangeStart → id ≤ maxInt64 → vmIDRangeStart ≤ id → id ≤ vmIDRangeEnd →
      id ∉ U → (env.CheckID id).2 = some err →
      (∀ k, vmIDRangeStart ≤ k → k < id → k ∉ U → env.CheckID k = (false, none)) →
      ∃ st', getNextFreeVMIDfromRange env st vmIDRangeStart vmIDRangeEnd =
        some ((0, some err), st')) ∧
    (∀ r st' new id free err,
      getNextFreeVMIDfromRange env st vmIDRangeStart vmIDRangeEnd = some (r, st') →
      st'.calls = st.calls ++ new → Call.CheckID id free (some err) ∈ new →
      r = (0, some err) ∧ (∃ pre, new = pre ++ [Call.CheckID id free (some err)]) ∧
        (minInt64 ≤ vmIDRangeStart → vmIDRangeEnd < maxInt64 →
          ∀ id' free' err', Call.CheckID id' free' err' ∈ new → id' ≤ id)) ∧
    (∀ U st1 r st' new id free err, getUsedVMIDs env st = ((U, none), st1) →
      getNextFreeVMIDfromRange env st vmIDRangeStart vmIDRangeEnd = some (r, st') →
      st'.calls = st.calls ++ new → Call.CheckID id free err ∈ new → id ∉ U) := by
  refine ⟨?_, ?_, ?_⟩
  · intro U st1 id err hU hstart hid hle hide hidU herr hsmall
    have hfuel : (id - vmIDRangeStart).toNat < 2 ^ 64 := by
      unfold minInt64 at hstart
      unfold maxInt64 at hid
      omega
    obtain ⟨st', h⟩ := scanVMIDRange_reaches_error env U vmIDRangeEnd id err hid hide hidU herr
      (id - vmIDRangeStart).toNat (2 ^ 64) vmIDRangeStart st1 (le_refl _) hfuel hstart hle hsmall
    refine ⟨st', ?_⟩
    unfold getNextFreeVMIDfromRange
    rw [hU]
    exact h
  · intro r st' new id free err h hnew hmem
    rcases getUsedVMIDs_cases env st with ⟨U, st1, hU, _⟩ | ⟨lerr, st1, hU, _⟩
    · obtain ⟨ms, le, falses, hf, hcase⟩ :=
        getNextFreeVMIDfromRange_trace env st st1 U _ _ r st' hU h
      have notFalse : Call.CheckID id free (some err) ∉ falses := fun hc => by
        obtain ⟨id', hc', _⟩ := hf _ hc
        simp at hc'
      rcases hcase with ⟨h1, _⟩ | ⟨id2, h1, _⟩ | ⟨id2, free2, err2, h1, h2, _, _, hord⟩
      · rw [hnew, List.append_assoc] at h1
        rw [List.append_cancel_left h1] at hmem
        simp at hmem
        exact absurd hmem notFalse
      · rw [hnew, List.append_assoc, List.append_assoc] at h1
        rw [List.append_cancel_left h1] at hmem
        simp at hmem
        exact absurd hmem notFalse
      · rw [hnew, List.append_assoc, List.append_assoc] at h1
        have hn := List.append_cancel_left h1
        rw [hn] at hmem
        simp at hmem
        rcases hmem with hmem | ⟨rfl, rfl, rfl⟩
        · exact absurd hmem notFalse
        · refine ⟨h2, ⟨Call.ListProxmoxMachinesForCluster ms le :: falses, by rw [hn]; simp⟩, ?_⟩
          intro hstart hend id' free' err' hmem'
          obtain ⟨_, hbefore⟩ := hord hend hstart
          rw [hn] at hmem'
          simp at hmem'
          rcases hmem' with hmem' | ⟨rfl, _, _⟩
          · obtain ⟨id'', hc, _, hlt⟩ := hbefore _ hmem'
            have : id' = id'' := by
              injection hc
            omega
          · exact le_refl _
    · unfold getNextFreeVMIDfromRange at h
      rw [hU] at h
      obtain ⟨ms, le, hst⟩ := getUsedVMIDs_state env st
      rw [hU] at hst
      simp only at hst
      have h2 : st' = st1 := (congrArg Prod.snd (Option.some.inj h)).symm
      rw [h2, hst] at hnew
      have hn : new = [Call.ListProxmoxMachinesForCluster ms le] := by
        have : st.calls ++ [Call.ListProxmoxMachinesForCluster ms le] = st.calls ++ new := hnew
        exact (List.append_cancel_left this).symm
      rw [hn] at hmem
      simp at hmem
  · intro U st1 r st' new id free err hU h hnew hmem
    obtain ⟨ms, le, falses, hf, hcase⟩ :=
      getNextFreeVMIDfromRange_trace env st st1 U _ _ r st' hU h
    have inFalse : Call.CheckID id free err ∈ falses → id ∉ U := fun hc => by
      obtain ⟨id', hc', hU'⟩ := hf _ hc
      have : id = id' := by
        injection hc'
      rw [this]; exact hU'
    rcases hcase with ⟨h1, _⟩ | ⟨id2, h1, _, hU2, _⟩ | ⟨id2, free2, err2, h1, _, hU2, _, _⟩
    · rw [hnew, List.append_assoc] at h1
      rw [List.append_cancel_left h1] at hmem
      simp at hmem
      exact inFalse hmem
    · rw [hnew, List.append_assoc, List.append_assoc] at h1
      rw [List.append_cancel_left h1] at hmem
      simp at hmem
      rcases hmem with hmem | ⟨rfl, _, _⟩
      · exact inFalse hmem
      · exact hU2
    · rw [hnew, List.append_assoc, List.append_assoc] at h1
      rw [List.append_cancel_left h1] at hmem
      simp at hmem
      rcases hmem with hmem | ⟨rfl, _, _⟩
      · exact inFalse hmem
      · exact hU2

/-- A failed check at a concrete input: range `{100, 102}`, id 100 reported taken,
`CheckID` failing on 101: the call returns the error of the check on 101. -/
theorem getNextFreeVMIDfromRange_check_error_witness :
    ∃ st', getNextFreeVMIDfromRange checkErrorEnv sampleState 100 102 =
      some ((0, some (.errorsNew "api down")), st') :=
  (getNextFreeVMIDfromRange_check_error checkErrorEnv sampleState 100 102).1 [] _ 101
    (.errorsNew "api down") (by rfl) (by decide) (by decide) (by decide) (by decide)
    (by simp) (by rfl)
    (fun k h1 h2 _ => by
      have : k = 100 := by omega
      subst this
      rfl)

/-- C17 at the failing input: on the range `[maxInt64, maxInt64]` with no used id, where
`CheckID` reports the largest `int64` taken and fails on every other id, the loop counter
wraps around: the call returns the error of the `CheckID` call on the smallest `int64`,
an id outside the range, and that call comes after the `CheckID` call on the larger id
`maxInt64`. -/
theorem getNextFreeVMIDfromRange_check_error_after_larger :
    getNextFreeVMIDfromRange maxTakenCheckErrorEnv sampleState maxInt64 maxInt64 =
        some ((0, some (.errorsNew "api down")),
          { scope := sampleScope,
            calls := [Call.ListProxmoxMachinesForCluster [] none,
              Call.CheckID maxInt64 false none,
              Call.CheckID minInt64 false (some (.errorsNew "api down"))] }) ∧
      minInt64 < maxInt64 ∧ ¬ (maxInt64 ≤ minInt64 ∧ minInt64 ≤ maxInt64) := by
  refine ⟨by decide, by decide, by decide⟩

/-! ## Lookup errors, allocation failures, the range gate: properties -/

/-- An error matches at most one package-level error variable. -/
theorem errorsIs_sentinel_unique (err : GoError) (a b c d : String)
    (h1 : errorsIs err (.sentinel a b) = true) (h2 : errorsIs err (.sentinel c d) = true) :
    GoError.sentinel a b = GoError.sentinel c d := by
  induction err with
  | sentinel n m =>
    simp [errorsIs] at h1 h2
    rw [← h1.1, ← h1.2, ← h2.1, ← h2.2]
  | errorsNew m => simp [errorsIs] at h1
  | wrap m cause ih =>
    simp [errorsIs] at h1 h2
    exact ih h1 h2

/-- C18 (amended): when `FindVM` fails with `ErrVMNotInitialized`, `ensureVirtualMachine`
requests a retry (requeue = true) and returns the lookup's error; it leaves the scope,
with the machine's status and conditions, as it was and makes no call but the lookup;
`ReconcileVM`, once the task tracker has let it pass, returns a Pending view with that
error. -/
theorem ensureVirtualMachine_not_initialized (env : Env) (st : State) (vmRef : VirtualMachine)
    (err : GoError) (hT : st.scope.ProxmoxMachine.Status.TaskRef = none)
    (hF : env.FindVM st.scope = (vmRef, some err))
    (hI : errorsIs err ErrVMNotInitialized = true) :
    ensureVirtualMachine env st =
        some ((true, some err),
          { scope := st.scope, calls := st.calls ++ [Call.FindVM vmRef (some err)] }) ∧
      (∀ st0, callReconcileInFlightTask env st0 = ((false, none), st) →
        ReconcileVM env st0 =
          some (({ Name := st0.scope.ProxmoxMachine.Name, State := .Pending }, some err),
            { scope := st.scope, calls := st.calls ++ [Call.FindVM vmRef (some err)] })) := by
  have hNF : ¬ errorsIs err ErrVMNotFound = true := by
    intro h
    have := errorsIs_sentinel_unique err _ _ _ _ h hI
    simp [ErrVMNotFound, ErrVMNotInitialized] at this
  have h1 : ensureVirtualMachine env st =
      some ((true, some err),
        { scope := st.scope, calls := st.calls ++ [Call.FindVM vmRef (some err)] }) := by
    unfold ensureVirtualMachine
    rw [if_neg (by simp [hT]), hF]
    simp only
    rw [if_neg hNF, if_pos hI]
    rfl
  refine ⟨h1, ?_⟩
  intro st0 htask
  unfold ReconcileVM
  rw [htask]
  simp only
  rw [if_neg (by simp), h1]
  simp

/-- Witness of C18 (amended): on `sampleState` with a lookup that fails with
`ErrVMNotInitialized`, the retry is requested together with that error. -/
theorem ensureVirtualMachine_not_initialized_witness :
    ensureVirtualMachine notInitializedEnv sampleState =
      some ((true, some ErrVMNotInitialized),
        { scope := sampleScope, calls := [Call.FindVM sampleVM (some ErrVMNotInitialized)] }) :=
  (ensureVirtualMachine_not_initialized notInitializedEnv sampleState sampleVM
    ErrVMNotInitialized rfl rfl (by decide)).1

/-- Counterexample to C18 as stated: with a lookup that fails with `ErrVMNotInitialized`,
`ensureVirtualMachine` returns that error next to the requeue, and `ReconcileVM` returns
a Pending view with that error, not with a nil error. -/
theorem ensureVirtualMachine_not_initialized_returns_error :
    (ensureVirtualMachine notInitializedEnv sampleState).map (fun x => x.1) =
        some (true, some ErrVMNotInitialized) ∧
      (ReconcileVM notInitializedEnv sampleState).map (fun x => x.1) =
        some ({ Name := "machine-0", State := .Pending }, some ErrVMNotInitialized) := by
  refine ⟨by decide, by decide⟩

/-- C19: when the VMID allocation of `createVM` fails, `createVM` returns the error and
makes no `CloneVM` call; when the error matches `ErrNoVMIDInRangeFree`, the machine's
failure message is the error's text and its failure reason is InsufficientResources;
for any other error the scope, with failure reason and message, stays as it was. -/
theorem createVM_allocation_failure (env : Env) (st st1 : State) (v : Int) (err : GoError)
    (hg : getVMID env st = some ((v, some err), st1)) :
    ∃ st2, createVM env st = some ((emptyCloneResponse, some err), st2) ∧
      (∃ new, st2.calls = st.calls ++ new ∧ ∀ c ∈ new, c.isCloneVM = false) ∧
      (errorsIs err ErrNoVMIDInRangeFree = true →
        st2.scope.ProxmoxMachine.Status.FailureMessage = some err.Error ∧
        st2.scope.ProxmoxMachine.Status.FailureReason =
          some InsufficientResourcesMachineError) ∧
      (errorsIs err ErrNoVMIDInRangeFree = false → st2.scope = st.scope) := by
  obtain ⟨hscope, new, hn, hall⟩ := getVMID_frame env st _ _ hg
  by_cases hIs : errorsIs err ErrNoVMIDInRangeFree = true
  · refine ⟨SetFailureReason (SetFailureMessage st1 err) InsufficientResourcesMachineError,
      ?_, ⟨new, hn, fun c hc => (hall c hc).1⟩, fun _ => ⟨rfl, rfl⟩, ?_⟩
    · unfold createVM
      rw [hg]
      simp only
      rw [if_pos hIs]
    · intro h
      rw [h] at hIs
      exact absurd hIs (by simp)
  · refine ⟨st1, ?_, ⟨new, hn, fun c hc => (hall c hc).1⟩, fun h => absurd h hIs,
      fun _ => hscope⟩
    unfold createVM
    rw [hg]
    simp only
    rw [if_neg hIs]

/-- Witness of C19: range `{100, 102}` with every id reported taken: `createVM` returns
`ErrNoVMIDInRangeFree` and records it with the reason InsufficientResources. -/
theorem createVM_allocation_failure_witness :
    ∃ st2, createVM noneFreeEnv sampleState =
        some ((emptyCloneResponse, some ErrNoVMIDInRangeFree), st2) ∧
      st2.scope.ProxmoxMachine.Status.FailureMessage = some "No free vmid found in vmIDRange" ∧
      st2.scope.ProxmoxMachine.Status.FailureReason = some "InsufficientResources" := by
  obtain ⟨st2, h1, _, h3, _⟩ := createVM_allocation_failure noneFreeEnv sampleState _ 0
    ErrNoVMIDInRangeFree
    (rfl : getVMID noneFreeEnv sampleState = some ((0, some ErrNoVMIDInRangeFree), _))
  exact ⟨st2, h1, (h3 (by decide)).1, (h3 (by decide)).2⟩

theorem getNextFreeVMIDfromRange_calls_grow (env : Env) (st : State)
    (vmIDRangeStart vmIDRangeEnd : Int) (r : Int × Option GoError) (st' : State)
    (h : getNextFreeVMIDfromRange env st vmIDRangeStart vmIDRangeEnd = some (r, st')) :
    st.calls.length < st'.calls.length := by
  obtain ⟨ms, lerr, hst⟩ := getUsedVMIDs_state env st
  unfold getNextFreeVMIDfromRange at h
  rcases hu : getUsedVMIDs env st with ⟨⟨U, _ | e⟩, st1⟩
  · rw [hu] at h hst
    simp only at h hst
    obtain ⟨_, new, hn, _⟩ := scanVMIDRange_frame _ _ _ _ _ _ _ _ h
    rw [hn, hst]
    simp [State.record]
  · rw [hu] at h hst
    simp only at h hst
    have : st' = st1 := (congrArg Prod.snd (Option.some.inj h)).symm
    rw [this, hst]
    simp [State.record]

/-- C20: `getVMID` returns `(0, nil)` and leaves the state as it was (no listing, no
`CheckID` call) exactly when no usable range is configured: `VMIDRange` is nil, or its
`Start` is 0, or its `End` is 0; in every other case its result is that of
`getNextFreeVMIDfromRange` on `(Start, End)`; and the used-ID list of a successful
listing is the list of the recorded ids of the listed machines that differ from `-1`. -/
theorem getVMID_range_gate (env : Env) (st : State) :
    (getVMID env st = some ((0, none), st) ↔
      (st.scope.ProxmoxMachine.Spec.VMIDRange = none ∨
        ∃ r, st.scope.ProxmoxMachine.Spec.VMIDRange = some r ∧ (r.Start = 0 ∨ r.End = 0))) ∧
    (∀ r, st.scope.ProxmoxMachine.Spec.VMIDRange = some r → r.Start ≠ 0 → r.End ≠ 0 →
      getVMID env st = getNextFreeVMIDfromRange env st r.Start r.End) ∧
    (∀ ms, env.ListProxmoxMachinesForCluster st.scope = (ms, none) →
      (getUsedVMIDs env st).1 =
          ((ms.filter (fun m => m.GetVirtualMachineID != -1)).map
            ProxmoxMachine.GetVirtualMachineID, none) ∧
        ∀ id, id ∈ (getUsedVMIDs env st).1.1 ↔
          (id ≠ -1 ∧ ∃ m ∈ ms, m.GetVirtualMachineID = id)) := by
  refine ⟨?_, ?_, ?_⟩
  · unfold getVMID
    cases hr : st.scope.ProxmoxMachine.Spec.VMIDRange with
    | none => simp
    | some r =>
      simp only
      by_cases hu : r.Start ≠ 0 ∧ r.End ≠ 0
      · rw [if_pos hu]
        constructor
        · intro h
          have := getNextFreeVMIDfromRange_calls_grow env st _ _ _ _ h
          omega
        · rintro (h | ⟨r', hr', h⟩)
          · simp at h
          · have : r' = r := (Option.some.inj hr').symm
            subst this
            rcases h with h | h
            · exact absurd h hu.1
            · exact absurd h hu.2
      · rw [if_neg hu]
        constructor
        · intro _
          refine Or.inr ⟨r, rfl, ?_⟩
          by_cases hs : r.Start = 0
          · exact Or.inl hs
          · by_cases he : r.End = 0
            · exact Or.inr he
            · exact absurd ⟨hs, he⟩ hu
        · intro _; rfl
  · intro r hr hs he
    unfold getVMID
    rw [hr]
    simp only
    rw [if_pos ⟨hs, he⟩]
  · intro ms hl
    have h1 : (getUsedVMIDs env st).1 =
        ((ms.filter (fun m => m.GetVirtualMachineID != -1)).map
          ProxmoxMachine.GetVirtualMachineID, none) := by
      unfold getUsedVMIDs
      rw [hl]
    refine ⟨h1, fun id => ?_⟩
    rw [h1]
    simp only [List.mem_map, List.mem_filter]
    constructor
    · rintro ⟨m, ⟨hm, hne⟩, rfl⟩
      exact ⟨by simpa using hne, m, hm, rfl⟩
    · rintro ⟨hne, m, hm, rfl⟩
      exact ⟨m, ⟨hm, by simpa using hne⟩, rfl⟩

/-- Witness of C20: without a range `getVMID` answers `(0, nil)` and makes no call; with
the range `{100, 102}` and a sibling that recorded the id 100, the used-ID list is
`[100]` and the id 101 is allocated. -/
theorem getVMID_range_gate_witness :
    getVMID sampleEnv noRangeState = some ((0, none), noRangeState) ∧
      (getUsedVMIDs siblingsEnv sampleState).1 = ([100], none) ∧
      (getVMID siblingsEnv sampleState).map (fun x => x.1) = some (101, none) :=
  ⟨(getVMID_range_gate sampleEnv noRangeState).1.mpr (Or.inl rfl),
    (((getVMID_range_gate siblingsEnv sampleState).2.2 _ rfl).1).trans (by decide),
    by decide⟩

end VMService
